import Mathlib

/-! # Eigenvalue executioner of MOOSE: power iteration, normalization, Chebyshev acceleration

Shallow embedding of `framework/src/executioners/EigenExecutionerBase.C`, of
`InversePowerMethod::execute` (`framework/src/executioners/InversePowerMethod.C`) and of
`framework/src/multiapps/TransientMultiApp.C`.

Conventions of the embedding.

* `Real` (a C++ `double`) is the field `ℚ`: arithmetic is exact.  Rounding, infinities and NaN
  are outside the model; a division by zero has Lean's value `0`.
* `unsigned int` is `Nat` with an explicit reduction modulo `2 ^ 32` at every increment.
* The finite-element problem (`FEProblem`, its two systems and the solver controls of the
  equation systems object) is a record.  The solve, the materials and the set-up hooks are
  collaborators whose code is not part of the executioner: they are arbitrary functions on that
  record, collected in `Backend`; the auxiliary kernels are an arbitrary function giving the
  auxiliary solution.
* Every call the executioner makes to a collaborator is also written to a ghost log (`calls`,
  newest first), so that "no solve was performed" is a statement about the log.
* `mooseError` aborts the run; the state in which it was raised is kept in the abort value.
  `mooseAssert` is compiled out of optimised builds and is not a check of the model.
* Console printing (`Moose::out`) is not modelled.
-/

namespace Moose

/-! ## Data model -/

/-- Modelled from the spec: the execution phases of a scalar observer, "the enumerated set
initial, timestep-begin, timestep, timestep-end, residual, custom" (the enum itself is declared
outside the sources at hand). -/
inductive ExecFlagType where
  | EXEC_INITIAL
  | EXEC_TIMESTEP_BEGIN
  | EXEC_TIMESTEP
  | EXEC_TIMESTEP_END
  | EXEC_RESIDUAL
  | EXEC_CUSTOM
  deriving DecidableEq

open ExecFlagType

/-- Modelled from the spec: `Moose::exec_types`, "every defined execution point". -/
def exec_types : List ExecFlagType :=
  [EXEC_INITIAL, EXEC_TIMESTEP_BEGIN, EXEC_TIMESTEP, EXEC_TIMESTEP_END, EXEC_RESIDUAL, EXEC_CUSTOM]

/-- Groups of `UserObjectWarehouse`: objects evaluated before the auxiliary kernels, after them,
or both (the default argument of `computeUserObjects`). -/
inductive GROUP where
  | ALL
  | PRE_AUX
  | POST_AUX
  deriving DecidableEq

/-- A parallel numeric vector, indexed by degree of freedom. -/
abbrev NumericVector := List ℚ

/-- The finite-element problem as far as the executioner reads or writes it: the solution
vectors of the eigen (nonlinear) system and of the auxiliary system, the solver controls, the
stored values of the three postprocessors (current and old), and the system time. -/
structure FEProblem where
  /-- Current solution of the eigen system. -/
  solution : NumericVector
  /-- Old solution of the eigen system. -/
  solutionOld : NumericVector
  /-- Older solution of the eigen system. -/
  solutionOlder : NumericVector
  /-- Current solution of the auxiliary system. -/
  auxSolution : NumericVector
  /-- Old solution of the auxiliary system. -/
  auxSolutionOld : NumericVector
  /-- Older solution of the auxiliary system. -/
  auxSolutionOlder : NumericVector
  /-- Control "linear solver tolerance". -/
  linear_solver_tolerance : ℚ
  /-- Control "nonlinear solver maximum iterations". -/
  nonlinear_solver_maximum_iterations : Nat
  /-- Control "nonlinear solver absolute residual tolerance". -/
  nonlinear_solver_absolute_residual_tolerance : ℚ
  /-- Control "nonlinear solver relative residual tolerance". -/
  nonlinear_solver_relative_residual_tolerance : ℚ
  /-- Member `_initial_residual` of the eigen system. -/
  initial_residual : ℚ
  /-- Member `_active_on_old` of the eigen system. -/
  active_on_old : Bool
  /-- Stored value of the postprocessor `bx_norm`. -/
  bx_norm : ℚ
  /-- Stored old value of the postprocessor `bx_norm`. -/
  bx_norm_old : ℚ
  /-- Stored value of the postprocessor `xdiff`. -/
  xdiff : ℚ
  /-- Stored old value of the postprocessor `xdiff`. -/
  xdiff_old : ℚ
  /-- Stored value of the postprocessor `normalization`. -/
  normalization : ℚ
  /-- Stored old value of the postprocessor `normalization`. -/
  normalization_old : ℚ
  /-- System time `_problem.time()`. -/
  time : ℚ
  /-- Step number `_problem.timeStep()`. -/
  timeStep : Int
  deriving DecidableEq

/-- The collaborators of the executioner.  Their code is outside the executioner; each is an
arbitrary function of the problem record (the auxiliary kernels write the auxiliary solution
only). -/
structure Backend where
  /-- One call of `_problem.solve()`; it reads the eigenvalue parameter. -/
  solve : ℚ → FEProblem → FEProblem
  /-- One call of `_problem.computeAuxiliaryKernels(flag)`: the auxiliary solution it
  computes. -/
  computeAuxiliaryKernels : ExecFlagType → FEProblem → NumericVector
  /-- One call of `_problem.updateMaterials()`. -/
  updateMaterials : FEProblem → FEProblem
  /-- One call of `_problem.timestepSetup()`. -/
  timestepSetup : FEProblem → FEProblem
  /-- One call of `_problem.onTimestepEnd()`. -/
  onTimestepEnd : FEProblem → FEProblem
  /-- One call of `_problem.initialSetup()`. -/
  initialSetup : FEProblem → FEProblem
  /-- What the postprocessor `bx_norm` evaluates, |Bx|. -/
  bx_norm : FEProblem → ℚ
  /-- What the postprocessor `xdiff` evaluates, |x - x_previous|. -/
  xdiff : FEProblem → ℚ
  /-- What the postprocessor `normalization` evaluates, |x|. -/
  normalization : FEProblem → ℚ
  /-- Result of `execFlag()` of the user object `bx_norm`. -/
  bx_execFlag : ExecFlagType
  /-- Result of `execFlag()` of the user object `xdiff`. -/
  xdiff_execFlag : ExecFlagType
  /-- Result of `execFlag()` of the user object `normalization`. -/
  normalization_execFlag : ExecFlagType
  /-- Warehouse group of `bx_norm` (`PRE_AUX` or `POST_AUX`). -/
  bx_group : GROUP
  /-- Warehouse group of `xdiff`. -/
  xdiff_group : GROUP
  /-- Warehouse group of `normalization`. -/
  normalization_group : GROUP
  /-- Membership in `_eigen_var_indices`: the degrees of freedom of the eigen variables. -/
  eigen_var_indices : Nat → Bool
  /-- Result of `_app.isRecovering()`. -/
  isRecovering : Bool
  /-- Result of `_eigen_sys.containsTimeKernel()`. -/
  containsTimeKernel : Bool
  /-- The library function `cosh`. -/
  cosh : ℚ → ℚ
  /-- The library function `acosh`. -/
  acosh : ℚ → ℚ

/-- The input parameters of `validParams<EigenExecutionerBase>` that the code below reads. -/
structure InputParameters where
  /-- Whether `isParamValid("xdiff")`. -/
  xdiff : Bool
  /-- Whether `isParamValid("normalization")`. -/
  normalization : Bool
  /-- The parameter `normal_factor`, when it is valid. -/
  normal_factor : Option ℚ
  /-- The parameter `auto_initialization`. -/
  auto_initialization : Bool
  /-- The member `_output_initial` of `Executioner`. -/
  output_initial : Bool
  deriving DecidableEq

/-- State of the Chebyshev accelerator, `EigenExecutionerBase::Chebyshev_Parameters`. -/
structure Chebyshev_Parameters where
  /-- Interval for checking whether to switch back to free iteration. -/
  n_iter : Nat
  /-- Iterations to wait after the accelerator was bumped. -/
  fsmooth : Nat
  /-- Iterations to do before the accelerator may start. -/
  finit : Nat
  /-- Latch: 1 while accelerating. -/
  lgac : Nat
  /-- Accelerated iterations so far. -/
  icheb : Nat
  /-- Hold flag: reuse `ratio_new` at the next call. -/
  icho : Nat
  /-- Estimated dominance ratio. -/
  ratio : ℚ
  /-- Re-estimated dominance ratio. -/
  ratio_new : ℚ
  /-- Solution difference when the accelerator was armed. -/
  error_begin : ℚ
  /-- Solution difference of the previous call. -/
  flux_error_norm_old : ℚ
  /-- Iteration at which the accelerator was armed. -/
  iter_begin : Nat
  deriving DecidableEq

/-- A call made by the executioner to one of its collaborators (ghost log entry). -/
inductive Call where
  | copyOldSolutions
  | updateMaterials
  | onTimestepBegin
  | timestepSetup
  | computeUserObjects (flag : ExecFlagType) (group : GROUP)
  | computeAuxiliaryKernels (flag : ExecFlagType)
  | solve
  | onTimestepEnd
  | initialSetup
  | eigenKernelOnOld
  | eigenKernelOnCurrent
  | buildSystemDoFIndices
  | initSystemSolution (v : ℚ)
  | initSystemSolutionOld (v : ℚ)
  | scaleSystemSolution (scaling_factor : ℚ)
  | combineSystemSolution (coefficients : List ℚ)
  | outputStep (time : ℚ)
  | outputInitial
  | output
  | outputPostprocessors
  | outputRestart
  deriving DecidableEq

/-- The executioner together with the problem it drives and the two variables its callers bind
to the reference arguments `k` and `initial_res` of `inversePowerIteration`. -/
structure EigenExecutionerBase where
  /-- Member `_problem` (with the eigen system `_eigen_sys` and the auxiliary system). -/
  problem : FEProblem
  /-- Member `_eigenvalue`, a reference to the problem parameter "eigenvalue". -/
  eigenvalue : ℚ
  /-- Member `_sys_sol_old`: null, or the vector "save_flux_old". -/
  sys_sol_old : Option NumericVector
  /-- Member `_sys_sol_older`: null, or the vector "save_flux_older". -/
  sys_sol_older : Option NumericVector
  /-- Member `_aux_sol_old`: null, or the vector "save_aux_old". -/
  aux_sol_old : Option NumericVector
  /-- Member `_aux_sol_older`: null, or the vector "save_aux_older". -/
  aux_sol_older : Option NumericVector
  /-- Member `_bx_execflag`. -/
  bx_execflag : ExecFlagType
  /-- Member `_xdiff_execflag`. -/
  xdiff_execflag : ExecFlagType
  /-- Member `_norm_execflag`. -/
  norm_execflag : ExecFlagType
  /-- Member `chebyshev_parameters`. -/
  chebyshev_parameters : Chebyshev_Parameters
  /-- The caller's variable bound to `Real & k` when that is not `_eigenvalue` itself. -/
  k_caller : ℚ
  /-- The caller's variable bound to `Real & initial_res`. -/
  initial_res : ℚ
  /-- Ghost log of the calls to collaborators, newest first. -/
  calls : List Call
  deriving DecidableEq

/-- What the reference argument `Real & k` is bound to: `InversePowerMethod::execute` passes
`_eigenvalue` itself, `combinedSolve` passes a variable of its caller. -/
inductive KRef where
  | eigenvalue
  | caller
  deriving DecidableEq

/-- The fatal errors raised with `mooseError` in `EigenExecutionerBase.C`. -/
inductive Fatal where
  /-- "rhs postprocessor for the power method has to be executed on timestep or residual". -/
  | bx_execflag
  /-- "xdiff postprocessor for the power method has to be executed on timestep or residual". -/
  | xdiff_execflag
  /-- "|Bx| cannot be zero for the inverse power method". -/
  | zero_source
  /-- "You have specified time kernels in your steady state eigenvalue simulation". -/
  | time_kernels
  /-- "rhs postprocessor for the nonlinear eigenvalue solve must be executed on residual". -/
  | nonlinear_execflag
  deriving DecidableEq

/-- Ways in which a run does not return: a `mooseError` raised in state `s`, a read through the
null pointer `_solution_diff` in state `s`, or the iteration budget of the model running out. -/
inductive Abort where
  | mooseError (e : Fatal) (s : EigenExecutionerBase)
  | nullPointer (s : EigenExecutionerBase)
  | outOfFuel
  deriving DecidableEq

/-- The range of `unsigned int`. -/
def UINT_RANGE : Nat := 2 ^ 32

/-- The increment `n + 1` of an `unsigned int`. -/
def uinc (n : Nat) : Nat := (n + 1) % UINT_RANGE

/-- The difference `n - 1` of an `unsigned int`. -/
def udec (n : Nat) : Nat := (n + UINT_RANGE - 1) % UINT_RANGE

/-- The sum `a + b` of two `unsigned int`. -/
def uadd (a b : Nat) : Nat := (a + b) % UINT_RANGE

/-! ## The problem: operations modelled from the spec -/

/-- Modelled from the spec: `EigenSystem::scaleSystemSolution(EIGEN, factor)` (EigenSystem.C is
not among the sources), "multiplies every degree of freedom belonging to the tagged variable set
by `factor`".  The first argument is the index of the head of the list. -/
def scaleFrom (eigen : Nat → Bool) (factor : ℚ) : Nat → NumericVector → NumericVector
  | _, [] => []
  | i, x :: xs => (if eigen i then x * factor else x) :: scaleFrom eigen factor (i + 1) xs

/-- Modelled from the spec: `EigenSystem::combineSystemSolution(EIGEN, coefficients)`
(EigenSystem.C is not among the sources), "replaces the current solution with
`coefficients[0]*current + coefficients[1]*old + coefficients[2]*older` (coefficient list length
2 or 3)", on the degrees of freedom of the tagged variable set. -/
def combineFrom (eigen : Nat → Bool) (coefficients : List ℚ) (old older : NumericVector) :
    Nat → NumericVector → NumericVector
  | _, [] => []
  | i, x :: xs =>
    (if eigen i then
        x * coefficients.getD 0 0
          + (if 1 < coefficients.length then old.getD i 0 * coefficients.getD 1 0 else 0)
          + (if 2 < coefficients.length then older.getD i 0 * coefficients.getD 2 0 else 0)
      else x) :: combineFrom eigen coefficients old older (i + 1) xs

/-- Modelled from the spec: `EigenSystem::initSystemSolution(EIGEN, v)`, which "seeds the
eigen-variable solution to a constant". -/
def initFrom (eigen : Nat → Bool) (v : ℚ) : Nat → NumericVector → NumericVector
  | _, [] => []
  | i, x :: xs => (if eigen i then v else x) :: initFrom eigen v (i + 1) xs

namespace FEProblem

/-- Modelled from the spec: `FEProblem::copyOldSolutions`, "copy current solution into old slot
(advances the iteration history by one)", for the eigen system and, as the source notes at the
call, for the auxiliary system too. -/
def copyOldSolutions (p : FEProblem) : FEProblem :=
  { p with
    solutionOlder := p.solutionOld
    solutionOld := p.solution
    auxSolutionOlder := p.auxSolutionOld
    auxSolutionOld := p.auxSolution }

/-- Modelled from the spec: `FEProblem::onTimestepBegin`; the source notes at the call "this
will copy postprocessors to old". -/
def onTimestepBegin (p : FEProblem) : FEProblem :=
  { p with
    bx_norm_old := p.bx_norm
    xdiff_old := p.xdiff
    normalization_old := p.normalization }

/-- Whether a user object of warehouse group `g` is evaluated by a call for group `target`. -/
def inGroup (g target : GROUP) : Bool :=
  target == GROUP.ALL || g == target

/-- Modelled from the spec: `FEProblem::computeUserObjects(flag, group)`.  Scalar observers are
"recomputed at defined execution points": each of the three postprocessors whose execution flag
is `flag` and whose group is asked for gets the value its observer has on the problem. -/
def computeUserObjects (B : Backend) (flag : ExecFlagType) (group : GROUP) (p : FEProblem) :
    FEProblem :=
  { p with
    bx_norm := if B.bx_execFlag = flag ∧ inGroup B.bx_group group then B.bx_norm p
               else p.bx_norm
    xdiff := if B.xdiff_execFlag = flag ∧ inGroup B.xdiff_group group then B.xdiff p
             else p.xdiff
    normalization :=
      if B.normalization_execFlag = flag ∧ inGroup B.normalization_group group
      then B.normalization p else p.normalization }

end FEProblem

namespace Chebyshev_Parameters

/-- The constructor `Chebyshev_Parameters::Chebyshev_Parameters()`: it initialises `n_iter`,
`fsmooth`, `finit`, `lgac`, `icheb` and `icho`; the other members keep whatever `garbage` the
storage held. -/
def ctor (garbage : Chebyshev_Parameters) : Chebyshev_Parameters :=
  { garbage with n_iter := 50, fsmooth := 2, finit := 6, lgac := 0, icheb := 0, icho := 0 }

/-- The method `Chebyshev_Parameters::reinit()`. -/
def reinit (cp : Chebyshev_Parameters) : Chebyshev_Parameters :=
  { cp with finit := 6, lgac := 0, icho := 0, icheb := 0 }

end Chebyshev_Parameters

namespace EigenExecutionerBase

/-! ## Calls of the executioner to its collaborators, with their log entry -/

/-- Call `_problem.copyOldSolutions()`. -/
def copyOldSolutions (s : EigenExecutionerBase) : EigenExecutionerBase :=
  { s with problem := s.problem.copyOldSolutions, calls := Call.copyOldSolutions :: s.calls }

/-- Call `_problem.updateMaterials()`. -/
def updateMaterials (B : Backend) (s : EigenExecutionerBase) : EigenExecutionerBase :=
  { s with problem := B.updateMaterials s.problem, calls := Call.updateMaterials :: s.calls }

/-- Call `_problem.onTimestepBegin()`. -/
def onTimestepBegin (s : EigenExecutionerBase) : EigenExecutionerBase :=
  { s with problem := s.problem.onTimestepBegin, calls := Call.onTimestepBegin :: s.calls }

/-- Call `_problem.timestepSetup()`. -/
def timestepSetup (B : Backend) (s : EigenExecutionerBase) : EigenExecutionerBase :=
  { s with problem := B.timestepSetup s.problem, calls := Call.timestepSetup :: s.calls }

/-- Call `_problem.computeUserObjects(flag, group)`. -/
def computeUserObjects (B : Backend) (flag : ExecFlagType) (group : GROUP)
    (s : EigenExecutionerBase) : EigenExecutionerBase :=
  { s with
    problem := s.problem.computeUserObjects B flag group
    calls := Call.computeUserObjects flag group :: s.calls }

/-- Call `_problem.computeAuxiliaryKernels(flag)`. -/
def computeAuxiliaryKernels (B : Backend) (flag : ExecFlagType) (s : EigenExecutionerBase) :
    EigenExecutionerBase :=
  { s with
    problem := { s.problem with auxSolution := B.computeAuxiliaryKernels flag s.problem }
    calls := Call.computeAuxiliaryKernels flag :: s.calls }

/-- Call `_problem.solve()`. -/
def solve (B : Backend) (s : EigenExecutionerBase) : EigenExecutionerBase :=
  { s with problem := B.solve s.eigenvalue s.problem, calls := Call.solve :: s.calls }

/-- Call `_problem.onTimestepEnd()`. -/
def onTimestepEnd (B : Backend) (s : EigenExecutionerBase) : EigenExecutionerBase :=
  { s with problem := B.onTimestepEnd s.problem, calls := Call.onTimestepEnd :: s.calls }

/-- Call `_problem.initialSetup()`. -/
def initialSetup (B : Backend) (s : EigenExecutionerBase) : EigenExecutionerBase :=
  { s with problem := B.initialSetup s.problem, calls := Call.initialSetup :: s.calls }

/-- Call `_eigen_sys.eigenKernelOnOld()`. -/
def eigenKernelOnOld (s : EigenExecutionerBase) : EigenExecutionerBase :=
  { s with
    problem := { s.problem with active_on_old := true }
    calls := Call.eigenKernelOnOld :: s.calls }

/-- Call `_eigen_sys.eigenKernelOnCurrent()`. -/
def eigenKernelOnCurrent (s : EigenExecutionerBase) : EigenExecutionerBase :=
  { s with
    problem := { s.problem with active_on_old := false }
    calls := Call.eigenKernelOnCurrent :: s.calls }

/-- Call `_eigen_sys.scaleSystemSolution(EigenSystem::EIGEN, scaling_factor)`. -/
def scaleSystemSolution (B : Backend) (scaling_factor : ℚ) (s : EigenExecutionerBase) :
    EigenExecutionerBase :=
  { s with
    problem :=
      { s.problem with
        solution := scaleFrom B.eigen_var_indices scaling_factor 0 s.problem.solution }
    calls := Call.scaleSystemSolution scaling_factor :: s.calls }

/-- Call `_eigen_sys.combineSystemSolution(EigenSystem::EIGEN, coefficients)`. -/
def combineSystemSolution (B : Backend) (coefficients : List ℚ) (s : EigenExecutionerBase) :
    EigenExecutionerBase :=
  { s with
    problem :=
      { s.problem with
        solution := combineFrom B.eigen_var_indices coefficients s.problem.solutionOld
          s.problem.solutionOlder 0 s.problem.solution }
    calls := Call.combineSystemSolution coefficients :: s.calls }

/-- Call `_eigen_sys.initSystemSolution(EigenSystem::EIGEN, v)`. -/
def initSystemSolution (B : Backend) (v : ℚ) (s : EigenExecutionerBase) :
    EigenExecutionerBase :=
  { s with
    problem := { s.problem with solution := initFrom B.eigen_var_indices v 0 s.problem.solution }
    calls := Call.initSystemSolution v :: s.calls }

/-- Call `_eigen_sys.initSystemSolutionOld(EigenSystem::EIGEN, v)`. -/
def initSystemSolutionOld (B : Backend) (v : ℚ) (s : EigenExecutionerBase) :
    EigenExecutionerBase :=
  { s with
    problem :=
      { s.problem with solutionOld := initFrom B.eigen_var_indices v 0 s.problem.solutionOld }
    calls := Call.initSystemSolutionOld v :: s.calls }

/-- The block that sets the system time to `t`, calls `_output_warehouse.outputStep()` and puts
the time back. -/
def outputStepAt (t : ℚ) (s : EigenExecutionerBase) : EigenExecutionerBase :=
  { s with calls := Call.outputStep t :: s.calls }

/-! ## The members bound to postprocessor values -/

/-- Member `_source_integral`, the current value of `bx_norm`. -/
def source_integral (s : EigenExecutionerBase) : ℚ := s.problem.bx_norm

/-- Member `_source_integral_old`, the old value of `bx_norm`. -/
def source_integral_old (s : EigenExecutionerBase) : ℚ := s.problem.bx_norm_old

/-- Member `_solution_diff`: the value of `xdiff` when that parameter is valid, null
otherwise. -/
def solution_diff (P : InputParameters) (s : EigenExecutionerBase) : Option ℚ :=
  if P.xdiff then some s.problem.xdiff else none

/-- Member `_normalization`: the value of `normalization` when that parameter is valid, of
`bx_norm` otherwise ("use |Bx| for normalization by default"). -/
def normalization (P : InputParameters) (s : EigenExecutionerBase) : ℚ :=
  if P.normalization then s.problem.normalization else s.problem.bx_norm

/-- Read `*_solution_diff`. -/
def deref_solution_diff (P : InputParameters) (s : EigenExecutionerBase) : Except Abort ℚ :=
  match solution_diff P s with
  | some v => Except.ok v
  | none => Except.error (Abort.nullPointer s)

/-- Read the reference argument `k`. -/
def read_k (k : KRef) (s : EigenExecutionerBase) : ℚ :=
  match k with
  | KRef.eigenvalue => s.eigenvalue
  | KRef.caller => s.k_caller

/-- Assign to the reference argument `k`. -/
def write_k (k : KRef) (v : ℚ) (s : EigenExecutionerBase) : EigenExecutionerBase :=
  match k with
  | KRef.eigenvalue => { s with eigenvalue := v }
  | KRef.caller => { s with k_caller := v }

/-- The loop "update all aux variables and user objects" over `Moose::exec_types`, here over the
list `types`: for each type the user objects before the auxiliary kernels, the auxiliary kernels,
the user objects after them. -/
def updateAll (B : Backend) (types : List ExecFlagType) (s : EigenExecutionerBase) :
    EigenExecutionerBase :=
  types.foldl
    (fun st t =>
      computeUserObjects B t GROUP.POST_AUX
        (computeAuxiliaryKernels B t (computeUserObjects B t GROUP.PRE_AUX st)))
    s

/-! ## `chebyshev` -/

/-- The six calls that follow `combineSystemSolution` in `chebyshev`: user objects and auxiliary
kernels on `EXEC_RESIDUAL`, then on `EXEC_TIMESTEP`. -/
def refreshAfterCombine (B : Backend) (s : EigenExecutionerBase) : EigenExecutionerBase :=
  let s := computeUserObjects B EXEC_RESIDUAL GROUP.PRE_AUX s
  let s := computeAuxiliaryKernels B EXEC_RESIDUAL s
  let s := computeUserObjects B EXEC_RESIDUAL GROUP.POST_AUX s
  let s := computeUserObjects B EXEC_TIMESTEP GROUP.PRE_AUX s
  let s := computeAuxiliaryKernels B EXEC_TIMESTEP s
  computeUserObjects B EXEC_TIMESTEP GROUP.POST_AUX s

/-- Replace the member `chebyshev_parameters`. -/
def setCheb (cp : Chebyshev_Parameters) (s : EigenExecutionerBase) : EigenExecutionerBase :=
  { s with chebyshev_parameters := cp }

/-- The branch `lgac == 0` of `chebyshev`. -/
def chebyshevInactive (B : Backend) (P : InputParameters) (iter : Nat)
    (s : EigenExecutionerBase) : Except Abort EigenExecutionerBase := do
  let cp := s.chebyshev_parameters
  let s ←
    if cp.icho = 0 then do
      let d ← deref_solution_diff P s
      pure (setCheb { cp with ratio := d / cp.flux_error_norm_old } s)
    else
      pure (setCheb { cp with ratio := cp.ratio_new, icho := 0 } s)
  let cp := s.chebyshev_parameters
  if iter > cp.finit ∧ cp.ratio ≥ 0.4 ∧ cp.ratio ≤ 1 then do
    let s := setCheb { cp with lgac := 1, icheb := 1 } s
    let d ← deref_solution_diff P s
    let s := setCheb { s.chebyshev_parameters with error_begin := d, iter_begin := iter } s
    let alp : ℚ := 2 / (2 - s.chebyshev_parameters.ratio)
    let s := combineSystemSolution B [alp, 1 - alp] s
    let s := refreshAfterCombine B s
    pure { s with eigenvalue := source_integral s }
  else
    pure s

/-- The branch `lgac != 0` of `chebyshev`. -/
def chebyshevActive (B : Backend) (P : InputParameters) (iter : Nat)
    (s : EigenExecutionerBase) : Except Abort EigenExecutionerBase := do
  let cp := s.chebyshev_parameters
  let cp := { cp with icheb := uinc cp.icheb }
  let s := setCheb cp s
  let gamma : ℚ := B.acosh (2 / cp.ratio - 1)
  let alp : ℚ := 4 / cp.ratio * B.cosh ((udec cp.icheb : ℚ) * gamma)
    / B.cosh ((cp.icheb : ℚ) * gamma)
  let beta : ℚ := (1 - cp.ratio / 2) * alp - 1
  let d ← deref_solution_diff P s
  let gamma_new : ℚ := (d / cp.error_begin)
    * B.cosh ((udec cp.icheb : ℚ) * B.acosh (2 / cp.ratio - 1))
  let gamma_new : ℚ := if gamma_new < 1 then 1 else gamma_new
  let cp := { cp with
    ratio_new := cp.ratio / 2 * (B.cosh (B.acosh gamma_new / (udec cp.icheb : ℚ)) + 1) }
  let s := setCheb cp s
  if gamma_new > 1.01 then
    let cp := { cp with lgac := 0 }
    if cp.icheb > 0 then
      pure (setCheb { cp with icho := 1, finit := iter } s)
    else
      pure (setCheb { cp with icho := 0, finit := uadd iter cp.fsmooth } s)
  else
    let s := combineSystemSolution B [alp, 1 - alp + beta, -beta] s
    let s := refreshAfterCombine B s
    pure { s with eigenvalue := source_integral s }

/-- The method `EigenExecutionerBase::chebyshev(iter)`. -/
def chebyshev (B : Backend) (P : InputParameters) (iter : Nat) (s : EigenExecutionerBase) :
    Except Abort EigenExecutionerBase := do
  let s ←
    if s.chebyshev_parameters.lgac = 0 then chebyshevInactive B P iter s
    else chebyshevActive B P iter s
  let d ← deref_solution_diff P s
  pure (setCheb { s.chebyshev_parameters with flux_error_norm_old := d } s)

/-! ## `inversePowerIteration` -/

/-- The loop body from `_problem.onTimestepBegin()` to `_problem.onTimestepEnd()`: the
postprocessors are copied to old and one solve is made between the user objects of timestep
begin and those of timestep.  (`preStep` and `postStep` are empty in this class.) -/
def powerStep (B : Backend) (s : EigenExecutionerBase) : EigenExecutionerBase :=
  let s := onTimestepBegin s
  let s := timestepSetup B s
  let s := computeUserObjects B EXEC_TIMESTEP_BEGIN GROUP.PRE_AUX s
  let s := computeAuxiliaryKernels B EXEC_TIMESTEP_BEGIN s
  let s := computeUserObjects B EXEC_TIMESTEP_BEGIN GROUP.POST_AUX s
  let s := solve B s
  let s := computeUserObjects B EXEC_TIMESTEP GROUP.PRE_AUX s
  let s := computeAuxiliaryKernels B EXEC_TIMESTEP s
  let s := computeUserObjects B EXEC_TIMESTEP GROUP.POST_AUX s
  onTimestepEnd B s

/-- The statements "save the initial residual" and "update eigenvalue" of the loop body:
`if (iter==0) initial_res = _eigen_sys._initial_residual;`
`k = k_old * _source_integral / _source_integral_old;  _eigenvalue = k;`. -/
def updateEigenvalue (k : KRef) (iter : Nat) (k_old : ℚ) (s : EigenExecutionerBase) :
    EigenExecutionerBase :=
  let s := if iter = 0 then { s with initial_res := s.problem.initial_residual } else s
  let s := write_k k (k_old * source_integral s / source_integral_old s) s
  { s with eigenvalue := read_k k s }

/-- The statement `if (cheb_on) chebyshev(iter+1);` of the loop body. -/
def accelerate (B : Backend) (P : InputParameters) (cheb_on : Bool) (iter : Nat)
    (s : EigenExecutionerBase) : Except Abort EigenExecutionerBase :=
  if cheb_on then chebyshev B P (uinc iter) s else pure s

/-- The local `converged` of the convergence check: it starts `true` and is cleared when
`fabs(k_old-k)/k > tol_eig`, and when `_solution_diff` is set and `*_solution_diff > tol_x`. -/
def converged (P : InputParameters) (tol_eig tol_x k_old k : ℚ) (s : EigenExecutionerBase) :
    Bool :=
  let converged := true
  let keff_error : ℚ := |k_old - k| / k
  let converged := if keff_error > tol_eig then false else converged
  match solution_diff P s with
  | some d => if d > tol_x then false else converged
  | none => converged

/-- Whether the loop is left at the end of an iteration; `iter` is the counter after its
increment: no test while `iter < min_iter`, an unconditional `break` at `iter == max_iter`,
otherwise `break` when `converged`. -/
def leaveLoop (P : InputParameters) (min_iter max_iter : Nat) (tol_eig tol_x k_old : ℚ)
    (k : KRef) (iter : Nat) (s : EigenExecutionerBase) : Bool :=
  if iter ≥ min_iter then
    if iter ≠ max_iter then converged P tol_eig tol_x k_old (read_k k s) s
    else true
  else false

/-- The block "use output system to dump iteration history" at the end of the loop body. -/
def dumpHistory (output_convergence : Bool) (time_base : ℚ) (max_iter iter : Nat)
    (s : EigenExecutionerBase) : EigenExecutionerBase :=
  if output_convergence then outputStepAt (time_base + (iter : ℚ) / (max_iter : ℚ)) s else s

/-- One pass through the body of `while (true)`, entered with the counter `iter`: the state at
the end of the pass and whether the pass ended in `break`. -/
def iteration (B : Backend) (P : InputParameters) (min_iter max_iter : Nat) (cheb_on : Bool)
    (tol_eig tol_x : ℚ) (output_convergence : Bool) (time_base : ℚ) (k : KRef) (iter : Nat)
    (s : EigenExecutionerBase) : Except Abort (EigenExecutionerBase × Bool) := do
  let s := copyOldSolutions s
  let s := updateMaterials B s
  let k_old := read_k k s
  let s := powerStep B s
  let s := updateEigenvalue k iter k_old s
  let s ← accelerate B P cheb_on iter s
  let iter := uinc iter
  if leaveLoop P min_iter max_iter tol_eig tol_x k_old k iter s then
    pure (s, true)
  else
    pure (dumpHistory output_convergence time_base max_iter iter s, false)

/-- The loop `while (true)`, entered with the counter `iter`.  The first argument bounds the
number of passes the model follows. -/
def powerLoop (B : Backend) (P : InputParameters) (min_iter max_iter : Nat) (cheb_on : Bool)
    (tol_eig tol_x : ℚ) (output_convergence : Bool) (time_base : ℚ) (k : KRef) :
    Nat → Nat → EigenExecutionerBase → Except Abort EigenExecutionerBase
  | 0, _, _ => Except.error Abort.outOfFuel
  | fuel + 1, iter, s =>
    match iteration B P min_iter max_iter cheb_on tol_eig tol_x output_convergence time_base k
        iter s with
    | Except.error e => Except.error e
    | Except.ok (s, true) => Except.ok s
    | Except.ok (s, false) =>
      powerLoop B P min_iter max_iter cheb_on tol_eig tol_x output_convergence time_base k
        fuel (uinc iter) s

/-- The statements that save the old and older solutions of both systems before the loop. -/
def saveOldSolutions (s : EigenExecutionerBase) : EigenExecutionerBase :=
  { s with
    sys_sol_old := some s.problem.solutionOld
    sys_sol_older := some s.problem.solutionOlder
    aux_sol_old := some s.problem.auxSolutionOld
    aux_sol_older := some s.problem.auxSolutionOlder }

/-- The statements after the loop: "restore parameters changed by the executioner" from the
locals `tol1` and `num1`, and restore the old and older solutions from the saved vectors. -/
def restore (tol1 : ℚ) (num1 : Nat) (s : EigenExecutionerBase) : EigenExecutionerBase :=
  { s with
    problem :=
      { s.problem with
        linear_solver_tolerance := tol1
        nonlinear_solver_maximum_iterations := num1
        solutionOld := s.sys_sol_old.getD s.problem.solutionOld
        solutionOlder := s.sys_sol_older.getD s.problem.solutionOlder
        auxSolutionOld := s.aux_sol_old.getD s.problem.auxSolutionOld
        auxSolutionOlder := s.aux_sol_older.getD s.problem.auxSolutionOlder } }

/-- The state in which `inversePowerIteration` enters its loop when it is called in state `s`
with `max_iter != 0`: the kernels are switched to the old solution, the old and older solutions
are saved, and the two solver controls are overridden. -/
def loopEntry (pfactor : ℚ) (s : EigenExecutionerBase) : EigenExecutionerBase :=
  let s := saveOldSolutions (eigenKernelOnOld s)
  { s with
    problem := { s.problem with
      linear_solver_tolerance := pfactor
      nonlinear_solver_maximum_iterations := 1 } }

/-- The method `EigenExecutionerBase::inversePowerIteration(min_iter, max_iter, pfactor,
cheb_on, tol_eig, tol_x, echo, output_convergence, time_base, k, initial_res)`.  The first
argument bounds the number of passes of the loop the model follows; `echo` only controls
printing and is left out. -/
def inversePowerIteration (B : Backend) (P : InputParameters) (fuel : Nat)
    (min_iter max_iter : Nat) (pfactor : ℚ) (cheb_on : Bool) (tol_eig tol_x : ℚ)
    (output_convergence : Bool) (time_base : ℚ) (k : KRef) (s : EigenExecutionerBase) :
    Except Abort EigenExecutionerBase :=
  if s.bx_execflag ≠ EXEC_TIMESTEP ∧ s.bx_execflag ≠ EXEC_RESIDUAL then
    Except.error (Abort.mooseError Fatal.bx_execflag s)
  else if s.xdiff_execflag ≠ EXEC_TIMESTEP ∧ s.xdiff_execflag ≠ EXEC_RESIDUAL then
    Except.error (Abort.mooseError Fatal.xdiff_execflag s)
  else if max_iter = 0 then
    Except.ok s
  else
    let s := eigenKernelOnOld s
    let s := saveOldSolutions s
    let tol1 := s.problem.linear_solver_tolerance
    let num1 := s.problem.nonlinear_solver_maximum_iterations
    let s := { s with
      problem := { s.problem with
        linear_solver_tolerance := pfactor
        nonlinear_solver_maximum_iterations := 1 } }
    match powerLoop B P min_iter max_iter cheb_on tol_eig tol_x output_convergence time_base k
        fuel 0 s with
    | Except.error e => Except.error e
    | Except.ok s => Except.ok (restore tol1 num1 s)

/-! ## `normalizeSolution` -/

/-- The method `EigenExecutionerBase::normalizeSolution(force)`: the returned scaling and the
state after the call. -/
def normalizeSolution (B : Backend) (P : InputParameters) (force : Bool)
    (s : EigenExecutionerBase) : ℚ × EigenExecutionerBase :=
  let s := if force then computeUserObjects B s.norm_execflag GROUP.ALL s else s
  let factor : ℚ :=
    match P.normal_factor with
    | some f => f
    | none => s.eigenvalue
  let scaling : ℚ := normalization P s / factor
  if scaling ≠ 1 then
    let s := scaleSystemSolution B scaling s
    let s := updateAll B exec_types s
    (scaling, s)
  else
    (scaling, s)

/-! ## `init` -/

/-- The method `EigenExecutionerBase::checkIntegrity()`. -/
def checkIntegrity (B : Backend) (s : EigenExecutionerBase) : Except Abort Unit :=
  if B.containsTimeKernel then Except.error (Abort.mooseError Fatal.time_kernels s)
  else pure ()

/-- The statements of `init` under "check when the postprocessors are evaluated". -/
def captureExecFlags (B : Backend) (P : InputParameters) (s : EigenExecutionerBase) :
    EigenExecutionerBase :=
  let s := { s with bx_execflag := B.bx_execFlag }
  let s :=
    if (solution_diff P s).isSome then { s with xdiff_execflag := B.xdiff_execFlag }
    else { s with xdiff_execflag := EXEC_TIMESTEP }
  if P.normalization then { s with norm_execflag := B.normalization_execFlag }
  else { s with norm_execflag := s.bx_execflag }

/-- The output of the initial condition at the end of `init`. -/
def outputInitialCondition (P : InputParameters) (s : EigenExecutionerBase) :
    EigenExecutionerBase :=
  let s := { s with problem := { s.problem with timeStep := 0 } }
  let t := s.problem.time
  let s := { s with problem := { s.problem with time := (s.problem.timeStep : ℚ) } }
  let s := { s with calls := Call.outputInitial :: s.calls }
  let s := { s with problem := { s.problem with time := t } }
  if P.output_initial then
    { s with
      calls := Call.outputRestart :: Call.outputPostprocessors :: Call.output :: s.calls }
  else s

/-- The statements of `init` from `buildSystemDoFIndices` to the evaluation of the source
integral with `computeUserObjects(_bx_execflag)`. -/
def initSolution (B : Backend) (P : InputParameters) (s : EigenExecutionerBase) :
    EigenExecutionerBase :=
  let s := { s with calls := Call.buildSystemDoFIndices :: s.calls }
  let s := if P.auto_initialization then initSystemSolution B 1 s else s
  let s := initialSetup B s
  let s := initSystemSolutionOld B 0 s
  let s := captureExecFlags B P s
  computeUserObjects B s.bx_execflag GROUP.ALL s

/-- The statements of `init` after the test of the source integral: the solution is scaled by
`_eigenvalue/_source_integral`, everything that depends on it is updated, and the initial
condition is written. -/
def initScale (B : Backend) (P : InputParameters) (s : EigenExecutionerBase) :
    EigenExecutionerBase :=
  let s := scaleSystemSolution B (s.eigenvalue / source_integral s) s
  let s := updateAll B exec_types s
  let s := onTimestepEnd B s
  outputInitialCondition P s

/-- The method `EigenExecutionerBase::init()`. -/
def init (B : Backend) (P : InputParameters) (s : EigenExecutionerBase) :
    Except Abort EigenExecutionerBase :=
  if B.isRecovering then
    Except.ok s
  else
    match checkIntegrity B s with
    | Except.error e => Except.error e
    | Except.ok _ =>
      let s := initSolution B P s
      if source_integral s = 0 then
        Except.error (Abort.mooseError Fatal.zero_source s)
      else
        Except.ok (initScale B P s)

end EigenExecutionerBase

namespace EigenExecutionerBase

/-! ## Observables of a run -/

/-- Number of calls of `_problem.solve()` in the log. -/
def solves (s : EigenExecutionerBase) : Nat := s.calls.count Call.solve

/-- The value of `k` at the end of each pass of the loop, first pass first, for the loop
entered with the counter `iter` and followed for at most `fuel` passes. -/
def eigenvalues (B : Backend) (P : InputParameters) (min_iter max_iter : Nat) (cheb_on : Bool)
    (tol_eig tol_x : ℚ) (output_convergence : Bool) (time_base : ℚ) (k : KRef) :
    Nat → Nat → EigenExecutionerBase → List ℚ
  | 0, _, _ => []
  | fuel + 1, iter, s =>
    match iteration B P min_iter max_iter cheb_on tol_eig tol_x output_convergence time_base k
        iter s with
    | Except.error _ => []
    | Except.ok (s, true) => [read_k k s]
    | Except.ok (s, false) =>
      read_k k s :: eigenvalues B P min_iter max_iter cheb_on tol_eig tol_x output_convergence
        time_base k fuel (uinc iter) s

/-- The state in which a run ended: the state returned, or the state in which it aborted. -/
def finalState : Except Abort EigenExecutionerBase → Option EigenExecutionerBase
  | Except.ok s => some s
  | Except.error (Abort.mooseError _ s) => some s
  | Except.error (Abort.nullPointer s) => some s
  | Except.error Abort.outOfFuel => none

/-- The members that neither the collaborators nor the loop of `inversePowerIteration` write:
the four saved vectors and the three execution flags. -/
def sameMembers (s t : EigenExecutionerBase) : Prop :=
  t.sys_sol_old = s.sys_sol_old ∧ t.sys_sol_older = s.sys_sol_older ∧
  t.aux_sol_old = s.aux_sol_old ∧ t.aux_sol_older = s.aux_sol_older ∧
  t.bx_execflag = s.bx_execflag ∧ t.xdiff_execflag = s.xdiff_execflag ∧
  t.norm_execflag = s.norm_execflag

/-- The part of the state that `inversePowerIteration` promises to hand back as it found it. -/
def restored (s t : EigenExecutionerBase) : Prop :=
  t.problem.solutionOld = s.problem.solutionOld ∧
  t.problem.solutionOlder = s.problem.solutionOlder ∧
  t.problem.auxSolutionOld = s.problem.auxSolutionOld ∧
  t.problem.auxSolutionOlder = s.problem.auxSolutionOlder ∧
  t.problem.linear_solver_tolerance = s.problem.linear_solver_tolerance ∧
  t.problem.nonlinear_solver_maximum_iterations = s.problem.nonlinear_solver_maximum_iterations

/-- What `chebyshev` leaves alone: the saved vectors, the flags, the caller's variables and the
number of solves. -/
def chebFrame (s t : EigenExecutionerBase) : Prop :=
  sameMembers s t ∧ t.k_caller = s.k_caller ∧ t.initial_res = s.initial_res ∧
  solves t = solves s

/-- The ratio that a call of `chebyshev` in the inactive state works with: the difference of
the solution over `flux_error_norm_old`, or `ratio_new` when the hold flag `icho` is set. -/
def inactiveRatio (s : EigenExecutionerBase) : ℚ :=
  if s.chebyshev_parameters.icho = 0 then
    s.problem.xdiff / s.chebyshev_parameters.flux_error_norm_old
  else s.chebyshev_parameters.ratio_new

/-- Whether a call `chebyshev(iter)` in the inactive state arms the acceleration. -/
def arms (iter : Nat) (s : EigenExecutionerBase) : Prop :=
  iter > s.chebyshev_parameters.finit ∧ inactiveRatio s ≥ 0.4 ∧ inactiveRatio s ≤ 1

end EigenExecutionerBase

/-! ## Concrete problems for the scenarios -/

namespace Scenario

open EigenExecutionerBase

/-- A problem with one eigen variable: solution `x`, stored source integral `bx`, stored
normalization `norm`, and old solutions that differ from the current ones. -/
def problem (x : NumericVector) (bx norm : ℚ) : FEProblem :=
  { solution := x, solutionOld := [7], solutionOlder := [8]
    auxSolution := [5], auxSolutionOld := [3], auxSolutionOlder := [4]
    linear_solver_tolerance := 1 / 100000, nonlinear_solver_maximum_iterations := 50
    nonlinear_solver_absolute_residual_tolerance := 0
    nonlinear_solver_relative_residual_tolerance := 0
    initial_residual := 0, active_on_old := false
    bx_norm := bx, bx_norm_old := 0, xdiff := 0, xdiff_old := 0
    normalization := norm, normalization_old := 0, time := 0, timeStep := 0 }

/-- An executioner after `init`, with all three flags `EXEC_TIMESTEP`, eigenvalue `k0` and the
accelerator as constructed. -/
def executioner (p : FEProblem) (k0 : ℚ) : EigenExecutionerBase :=
  { problem := p, eigenvalue := k0
    sys_sol_old := none, sys_sol_older := none, aux_sol_old := none, aux_sol_older := none
    bx_execflag := EXEC_TIMESTEP, xdiff_execflag := EXEC_TIMESTEP, norm_execflag := EXEC_TIMESTEP
    chebyshev_parameters := Chebyshev_Parameters.ctor ⟨0, 0, 0, 0, 0, 0, 0, 0, 0, 0, 0⟩
    k_caller := 0, initial_res := 0, calls := [] }

/-- A backend whose solve replaces the solution `x` by `next x`; the source integral and the
normalization are the sum of the solution, evaluated on timestep; every degree of freedom
belongs to an eigen variable. -/
def backend (next : NumericVector → NumericVector) : Backend :=
  { solve := fun _ p => { p with solution := next p.solution, initial_residual := 1 }
    computeAuxiliaryKernels := fun _ p => p.auxSolution
    updateMaterials := fun p => p, timestepSetup := fun p => p, onTimestepEnd := fun p => p
    initialSetup := fun p => p
    bx_norm := fun p => p.solution.sum
    xdiff := fun _ => 0
    normalization := fun p => p.solution.sum
    bx_execFlag := EXEC_TIMESTEP, xdiff_execFlag := EXEC_TIMESTEP
    normalization_execFlag := EXEC_TIMESTEP
    bx_group := GROUP.POST_AUX, xdiff_group := GROUP.POST_AUX
    normalization_group := GROUP.POST_AUX
    eigen_var_indices := fun _ => true
    isRecovering := false, containsTimeKernel := false
    cosh := fun x => x, acosh := fun x => x }

/-- Input parameters without `xdiff`; `normalization` valid or not, `normal_factor` as given. -/
def params (normalization : Bool) (normal_factor : Option ℚ) : InputParameters :=
  { xdiff := false, normalization := normalization, normal_factor := normal_factor
    auto_initialization := true, output_initial := false }

/-- Solutions whose source integrals are 2.0, 2.2, 2.31, 2.31, ... -/
def nextB : NumericVector → NumericVector
  | [x] => if x = 2 then [22 / 10] else [231 / 100]
  | v => v

end Scenario

/-! ## `InversePowerMethod` -/

/-- The largest finite `double`, `std::numeric_limits<Real>::max()`. -/
def REAL_MAX : ℚ := (2 - 1 / 2 ^ 52) * 2 ^ 1023

/-- The machine epsilon of `double`, `std::numeric_limits<Real>::epsilon()`. -/
def REAL_EPSILON : ℚ := 1 / 2 ^ 52

/-- The members of `InversePowerMethod` set by its constructor, the two parameters of the base
class that `execute` reads, and the three step numbers `INIT_END`, `POWERITERATION_END` and
`FINAL`, which are declared outside the sources at hand. -/
structure InversePowerMethod where
  /-- Member `_min_iter`, parameter `min_power_iterations`. -/
  min_iter : Nat
  /-- Member `_max_iter`, parameter `max_power_iterations`. -/
  max_iter : Nat
  /-- Member `_eig_check_tol`. -/
  eig_check_tol : ℚ
  /-- Member `_pfactor`. -/
  pfactor : ℚ
  /-- Member `_cheb_on`, parameter `Chebyshev_acceleration_on`. -/
  cheb_on : Bool
  /-- Member `_output_pi`. -/
  output_pi : Bool
  /-- Parameter `output_on_final`. -/
  output_on_final : Bool
  /-- Member `_run_custom_uo`, parameter `evaluate_custom_uo`. -/
  run_custom_uo : Bool
  /-- Step number `INIT_END`. -/
  INIT_END : Int
  /-- Step number `POWERITERATION_END`. -/
  POWERITERATION_END : Int
  /-- Step number `FINAL`. -/
  FINAL : Int
  deriving DecidableEq

namespace InversePowerMethod

open EigenExecutionerBase

/-- The block of `execute` that sets `_problem.timeStep()` to `step`, sets the time to the step
number, calls `_output_warehouse.outputStep()` and puts the time back. -/
def outputStepAs (step : Int) (s : EigenExecutionerBase) : EigenExecutionerBase :=
  let s := { s with problem := { s.problem with timeStep := step } }
  outputStepAt (s.problem.timeStep : ℚ) s

/-- The first part of `InversePowerMethod::execute()`, up to the output of the end of the power
iteration.  (`preExecute`, `preSolve` are empty here and `postSolve` only prints.) -/
def executeSolve (B : Backend) (P : InputParameters) (I : InversePowerMethod) (fuel : Nat)
    (s : EigenExecutionerBase) : Except Abort EigenExecutionerBase :=
  let s := copyOldSolutions s
  match inversePowerIteration B P fuel I.min_iter I.max_iter I.pfactor I.cheb_on I.eig_check_tol
      REAL_MAX I.output_pi (I.INIT_END : ℚ) KRef.eigenvalue s with
  | Except.error e => Except.error e
  | Except.ok s =>
    let s := computeUserObjects B EXEC_TIMESTEP GROUP.PRE_AUX s
    let s := onTimestepEnd B s
    let s := computeAuxiliaryKernels B EXEC_TIMESTEP s
    let s := computeUserObjects B EXEC_TIMESTEP GROUP.POST_AUX s
    let s := if I.run_custom_uo then computeUserObjects B EXEC_CUSTOM GROUP.ALL s else s
    Except.ok (if !I.output_on_final then outputStepAs I.POWERITERATION_END s else s)

/-- The argument `force` that `execute` passes to `normalizeSolution`. -/
def forceNormalization (s : EigenExecutionerBase) : Bool :=
  s.norm_execflag != EXEC_CUSTOM && s.norm_execflag != EXEC_TIMESTEP &&
    s.norm_execflag != EXEC_RESIDUAL

/-- The second part of `InversePowerMethod::execute()`: the solution is normalized and the
final output is made if `output_on_final` is set or
`std::fabs(s-1.0) > std::numeric_limits<Real>::epsilon()`.  (`postExecute` is empty.) -/
def executeFinish (B : Backend) (P : InputParameters) (I : InversePowerMethod)
    (s : EigenExecutionerBase) : EigenExecutionerBase :=
  let r := normalizeSolution B P (forceNormalization s) s
  if I.output_on_final = true ∨ |r.1 - 1| > REAL_EPSILON then outputStepAs I.FINAL r.2
  else r.2

/-- The method `InversePowerMethod::execute()`. -/
def execute (B : Backend) (P : InputParameters) (I : InversePowerMethod) (fuel : Nat)
    (s : EigenExecutionerBase) : Except Abort EigenExecutionerBase :=
  match executeSolve B P I fuel s with
  | Except.error e => Except.error e
  | Except.ok s => Except.ok (executeFinish B P I s)

end InversePowerMethod

namespace EigenExecutionerBase

/-! ## `nonlinearSolve` and `combinedSolve` -/

/-- The method `EigenExecutionerBase::nonlinearSolve(rel_tol, abs_tol, pfactor, k)`. -/
def nonlinearSolve (B : Backend) (rel_tol abs_tol pfactor : ℚ) (k : KRef)
    (s : EigenExecutionerBase) : Except Abort EigenExecutionerBase :=
  if B.bx_execFlag ≠ EXEC_RESIDUAL then
    Except.error (Abort.mooseError Fatal.nonlinear_execflag s)
  else
    let s := eigenKernelOnCurrent s
    let tol1 := s.problem.nonlinear_solver_absolute_residual_tolerance
    let tol2 := s.problem.linear_solver_tolerance
    let tol3 := s.problem.nonlinear_solver_relative_residual_tolerance
    let s := { s with
      problem := { s.problem with
        nonlinear_solver_absolute_residual_tolerance := abs_tol
        nonlinear_solver_relative_residual_tolerance := rel_tol
        linear_solver_tolerance := pfactor } }
    let s := solve B s
    let s := write_k k (source_integral s) s
    let s := { s with eigenvalue := read_k k s }
    Except.ok { s with
      problem := { s.problem with
        nonlinear_solver_absolute_residual_tolerance := tol1
        linear_solver_tolerance := tol2
        nonlinear_solver_relative_residual_tolerance := tol3 } }

/-- The value that the variable `a_tol` declared inside the block `if (fpi>0)` of
`combinedSolve` has at the end of that block:
`Real a_tol = rel_tol*initial_res; if (a_tol<abs_tol) a_tol = abs_tol;`. -/
def blockTolerance (rel_tol abs_tol initial_res : ℚ) : ℚ :=
  let a_tol := rel_tol * initial_res
  if a_tol < abs_tol then abs_tol else a_tol

/-- The method `EigenExecutionerBase::combinedSolve(rel_tol, abs_tol, pfactor, fpi, k)`.  The
method declares `Real a_tol = abs_tol;` at its top, and the block of `if (fpi>0)` declares a
second `Real a_tol`, which hides the first inside the block and ends with the block: the two
statements of the block about `a_tol` write the variable of the block (`_a_tol_of_block` here),
and the call of `nonlinearSolve` after the block reads the variable of the top.  The local
`initial_res` is the variable bound to the reference argument of `inversePowerIteration`.  The
first argument bounds the number of passes of the loop the model follows. -/
def combinedSolve (B : Backend) (P : InputParameters) (fuel : Nat) (rel_tol abs_tol pfactor : ℚ)
    (fpi : Nat) (k : KRef) (s : EigenExecutionerBase) : Except Abort EigenExecutionerBase :=
  let a_tol := abs_tol
  if fpi > 0 then
    let s := { s with initial_res := 0 }
    match inversePowerIteration B P fuel fpi fpi pfactor false 0 REAL_MAX false 0 k s with
    | Except.error e => Except.error e
    | Except.ok s =>
      let _a_tol_of_block := blockTolerance rel_tol abs_tol s.initial_res
      let rel_tol : ℚ := 1e-50
      let s := timestepSetup B s
      nonlinearSolve B rel_tol a_tol pfactor k s
  else
    let s := timestepSetup B s
    nonlinearSolve B rel_tol a_tol pfactor k s

/-! ## Observables of the accelerator -/

/-- The local `gamma_new` of the active branch of `chebyshev` after its clamp at 1, for a call
entered in state `s`; `icheb` has been incremented when it is computed. -/
def activeGammaNew (B : Backend) (s : EigenExecutionerBase) : ℚ :=
  let cp := s.chebyshev_parameters
  let gamma_new : ℚ := (s.problem.xdiff / cp.error_begin)
    * B.cosh ((udec (uinc cp.icheb) : ℚ) * B.acosh (2 / cp.ratio - 1))
  if gamma_new < 1 then 1 else gamma_new

/-- The local `alp` of the active branch of `chebyshev` for a call entered in state `s`. -/
def activeAlpha (B : Backend) (s : EigenExecutionerBase) : ℚ :=
  let cp := s.chebyshev_parameters
  4 / cp.ratio * B.cosh ((udec (uinc cp.icheb) : ℚ) * B.acosh (2 / cp.ratio - 1))
    / B.cosh ((uinc cp.icheb : ℚ) * B.acosh (2 / cp.ratio - 1))

/-- The local `beta` of the active branch of `chebyshev` for a call entered in state `s`. -/
def activeBeta (B : Backend) (s : EigenExecutionerBase) : ℚ :=
  (1 - s.chebyshev_parameters.ratio / 2) * activeAlpha B s - 1

/-- The value the active branch of `chebyshev` gives to `ratio_new`. -/
def activeRatioNew (B : Backend) (s : EigenExecutionerBase) : ℚ :=
  s.chebyshev_parameters.ratio / 2
    * (B.cosh (B.acosh (activeGammaNew B s) / (udec (uinc s.chebyshev_parameters.icheb) : ℚ))
      + 1)

/-- A sequence of calls of `chebyshev`, started with the accelerator in state `cp`: the state
of the accelerator after each call, first call first.  Each call is given as its argument `iter`
and the state of the executioner in which it is made, whose accelerator is the one the call
before left: between two calls the rest of the program may change everything else.  The
sequence ends at the first call that does not return. -/
def chebyshevCalls (B : Backend) (P : InputParameters) :
    List (Nat × EigenExecutionerBase) → Chebyshev_Parameters → List Chebyshev_Parameters
  | [], _ => []
  | (iter, s) :: rest, cp =>
    match chebyshev B P iter (setCheb cp s) with
    | Except.error _ => []
    | Except.ok t => t.chebyshev_parameters :: chebyshevCalls B P rest t.chebyshev_parameters

/-- The state of the accelerator after a sequence of calls started in state `cp`. -/
def chebyshevAfter (B : Backend) (P : InputParameters) (calls : List (Nat × EigenExecutionerBase))
    (cp : Chebyshev_Parameters) : Chebyshev_Parameters :=
  (chebyshevCalls B P calls cp).getLastD cp

/-- Number of times the accelerator goes from inactive (`lgac = 0`) to active along the states
`cp`, then those of the list. -/
def activations : Chebyshev_Parameters → List Chebyshev_Parameters → Nat
  | _, [] => 0
  | cp, c :: rest => (if cp.lgac = 0 ∧ c.lgac ≠ 0 then 1 else 0) + activations c rest

/-! ## Observables of the source integral -/

/-- The collaborators do not write the stored values of the postprocessor `bx_norm`: the
materials leave the current value alone, and `timestepSetup`, the solve and `onTimestepEnd`
leave the old value alone (the old value is written by `onTimestepBegin` only). -/
def keepsSourceIntegral (B : Backend) : Prop :=
  (∀ p, (B.updateMaterials p).bx_norm = p.bx_norm) ∧
  (∀ p, (B.timestepSetup p).bx_norm_old = p.bx_norm_old) ∧
  (∀ k p, (B.solve k p).bx_norm_old = p.bx_norm_old) ∧
  (∀ p, (B.onTimestepEnd p).bx_norm_old = p.bx_norm_old)

/-- The state at the end of each pass of the loop of `inversePowerIteration`, first pass first,
for the loop entered with the counter `iter` and followed for at most `fuel` passes. -/
def passStates (B : Backend) (P : InputParameters) (min_iter max_iter : Nat) (cheb_on : Bool)
    (tol_eig tol_x : ℚ) (output_convergence : Bool) (time_base : ℚ) (k : KRef) :
    Nat → Nat → EigenExecutionerBase → List EigenExecutionerBase
  | 0, _, _ => []
  | fuel + 1, iter, s =>
    match iteration B P min_iter max_iter cheb_on tol_eig tol_x output_convergence time_base k
        iter s with
    | Except.error _ => []
    | Except.ok (t, true) => [t]
    | Except.ok (t, false) =>
      t :: passStates B P min_iter max_iter cheb_on tol_eig tol_x output_convergence time_base
        k fuel (uinc iter) t

end EigenExecutionerBase

/-! ## `TransientMultiApp`: data model

Shallow embedding of `framework/src/multiapps/TransientMultiApp.C`.  A sub-application is seen
through its `Transient` executioner, its auxiliary system and its output warehouse; their code is
outside the multi-app.  The swaps of the MPI communicator are not modelled, and the global
reduction `Parallel::min` is a function of the backend. -/

/-- A sub-application as far as the multi-app reads or writes it. -/
structure Transient where
  /-- Result of `ex->getTime()`. -/
  time : ℚ
  /-- Result of `ex->getDT()`. -/
  dt : ℚ
  /-- Result of `ex->lastSolveConverged()`. -/
  last_solve_converged : Bool
  /-- Result of `ex->getSolutionChangeNorm()`. -/
  solution_change_norm : ℚ
  /-- Result of `ex->timestepTol()`. -/
  timestep_tol : ℚ
  /-- The target time set with `ex->setTargetTime`. -/
  target_time : ℚ
  /-- Result of `_apps[i]->getGlobalTimeOffset()`. -/
  global_time_offset : ℚ
  /-- The solution of the auxiliary system. -/
  solution : NumericVector
  /-- The vector "transfer" of the auxiliary system. -/
  transfer : NumericVector
  /-- The vector "transfer_old" of the auxiliary system. -/
  transfer_old : NumericVector
  deriving DecidableEq

/-- The collaborators of the multi-app; each is an arbitrary function. -/
structure TransientBackend where
  /-- One call of `ex->computeDT()`. -/
  computeDT : Transient → Transient
  /-- One call of `ex->takeStep(dt)`; `none` stands for the default argument. -/
  takeStep : Option ℚ → Transient → Transient
  /-- One call of `ex->endStep(time)`; `none` stands for the default argument. -/
  endStep : Option ℚ → Transient → Transient
  /-- One call of `ex->incrementStepOrReject()`. -/
  incrementStepOrReject : Transient → Transient
  /-- The degrees of freedom that `AllLocalDofIndicesThread` collects for the transferred
  variables. -/
  allLocalDofIndices : Transient → List Nat
  /-- The application that `MultiApp::resetApp(global_app, time)` builds in place of the old
  one. -/
  resetApp : Transient → ℚ → Transient
  /-- Whether the executioner of the application is a `Transient` (the `dynamic_cast` of
  `setupApp`). -/
  isTransient : Transient → Bool
  /-- The calls `ex->init()`, `ex->preExecute()` and `problem->copyOldSolutions()` of
  `setupApp`. -/
  init : Transient → Transient
  /-- The global reduction `Parallel::min`. -/
  parallel_min : ℚ → ℚ

/-- The input parameters of `validParams<TransientMultiApp>`. -/
structure TransientMultiAppParameters where
  /-- Member `_sub_cycling`. -/
  sub_cycling : Bool
  /-- Member `_interpolate_transfers`. -/
  interpolate_transfers : Bool
  /-- Member `_detect_steady_state`. -/
  detect_steady_state : Bool
  /-- Member `_steady_state_tol`. -/
  steady_state_tol : ℚ
  /-- Member `_output_sub_cycles`. -/
  output_sub_cycles : Bool
  /-- Member `_max_failures`, an `unsigned int`. -/
  max_failures : Nat
  /-- Member `_tolerate_failure`. -/
  tolerate_failure : Bool
  /-- Member `_catch_up`. -/
  catch_up : Bool
  /-- Member `_max_catch_up_steps`, a `Real`. -/
  max_catch_up_steps : ℚ
  deriving DecidableEq

/-- A call made by the multi-app for the local application `app`, or a warning it issued (ghost
log entry). -/
inductive MultiCall where
  | ow_timestepSetup (app : Nat)
  | allowOutput (app : Nat) (b : Bool)
  | ow_allowOutput (app : Nat) (b : Bool)
  | setTargetTime (app : Nat) (t : ℚ)
  | incrementStepOrReject (app : Nat)
  | computeDT (app : Nat)
  | takeStep (app : Nat) (dt : Option ℚ)
  | endStep (app : Nat) (t : Option ℚ)
  | forceOutput (app : Nat)
  | ow_forceOutput (app : Nat)
  | ow_outputStep (app : Nat)
  | outputInitial (app : Nat) (b : Bool)
  | setFileNumbers (app : Nat)
  | resetApp (app : Nat) (time : ℚ)
  | init (app : Nat)
  /-- The warning "While sub_cycling ... failed to converge!". -/
  | warning_sub_cycling (app : Nat)
  /-- The warning "... failed to converge!". -/
  | warning_failed (app : Nat)
  deriving DecidableEq

/-- The members of a `TransientMultiApp` other than its applications. -/
structure TransientMultiApp where
  /-- Member `_failures`, an `unsigned int`. -/
  failures : Nat
  /-- Member `_first`. -/
  first : Bool
  /-- Member `_auto_advance`. -/
  auto_advance : Bool
  /-- Member `_transferred_dofs`. -/
  transferred_dofs : List Nat
  /-- Number of entries of the member `_transferred_vars`. -/
  transferred_vars : Nat
  /-- Member `_has_an_app`. -/
  has_an_app : Bool
  /-- Member `_first_local_app`. -/
  first_local_app : Nat
  /-- Result of `_app.getGlobalTimeOffset()`. -/
  global_time_offset : ℚ
  /-- Ghost log of calls and warnings, newest first. -/
  log : List MultiCall
  deriving DecidableEq

/-- The fatal errors raised with `mooseError` in `TransientMultiApp.C`. -/
inductive MultiFatal where
  /-- "TransientMultiApp with sub_cycling=true is not compatible with auto_advance=false". -/
  | sub_cycling_auto_advance
  /-- "TransientMultiApp with catch_up=true is not compatible with auto_advance=false". -/
  | catch_up_auto_advance
  /-- "While sub_cycling ... REALLY failed!". -/
  | really_failed (app : Nat)
  /-- "... Failed to catch up!". -/
  | failed_to_catch_up
  /-- "MultiApp ... is not using a Transient Executioner!". -/
  | not_transient
  deriving DecidableEq

/-- Ways in which a run of the multi-app does not return: a `mooseError` raised while the
current application was `ex` and the members were `m`, or the budget of the model running
out. -/
inductive MultiAbort where
  | mooseError (e : MultiFatal) (ex : Option Transient) (m : TransientMultiApp)
  | outOfFuel
  deriving DecidableEq

namespace TransientMultiApp

/-- Append an entry to the log. -/
def note (c : MultiCall) (m : TransientMultiApp) : TransientMultiApp :=
  { m with log := c :: m.log }

/-! ## `solveStep` in sub-cycling mode -/

/-- The loop of `solveStep` that sets every transferred degree of freedom of the auxiliary
solution to `transfer_old(dof) * one_minus_step_percent + transfer(dof) * step_percent`.  The
first argument is the index of the head of the list. -/
def interpolateFrom (dofs : List Nat) (step_percent : ℚ) (transfer_old transfer : NumericVector) :
    Nat → NumericVector → NumericVector
  | _, [] => []
  | i, x :: xs =>
    (if i ∈ dofs then
        transfer_old.getD i 0 * (1 - step_percent) + transfer.getD i 0 * step_percent
      else x) :: interpolateFrom dofs step_percent transfer_old transfer (i + 1) xs

/-- The quantity `step_percent` of `solveStep`. -/
def step_percent (app_time_offset time_old target_time : ℚ) (ex : Transient) : ℚ :=
  let future_time := ex.time + app_time_offset + ex.dt
  (future_time - time_old) / (target_time - time_old)

/-- The block `if (_interpolate_transfers)` inside the sub-cycling loop. -/
def interpolateTransfers (app_time_offset time_old target_time : ℚ) (m : TransientMultiApp)
    (ex : Transient) : Transient :=
  { ex with
    solution := interpolateFrom m.transferred_dofs
      (step_percent app_time_offset time_old target_time ex) ex.transfer_old ex.transfer 0
      ex.solution }

/-- How a pass through the sub-cycling loop ends: with `break`, or at the end of the body with
the new value of `at_steady`. -/
inductive SubCyclePass where
  | leave (ex : Transient) (m : TransientMultiApp)
  | next (at_steady : Bool) (ex : Transient) (m : TransientMultiApp)
  deriving DecidableEq

/-- The application at the test of the sub-cycling loop: `ex->incrementStepOrReject()` has been
called unless `_first` is set. -/
def subCycleEnter (B : TransientBackend) (ex : Transient) (m : TransientMultiApp) : Transient :=
  if m.first ≠ true then B.incrementStepOrReject ex else ex

/-- The application after the sub-step of a pass through the sub-cycling loop, entered with
`ex`: `ex->computeDT()`, the interpolation of the transfers when it is asked for, and
`ex->takeStep()`. -/
def subCycleSolve (B : TransientBackend) (Q : TransientMultiAppParameters)
    (app_time_offset time_old target_time : ℚ) (m : TransientMultiApp) (ex : Transient) :
    Transient :=
  let ex := B.computeDT ex
  let ex :=
    if Q.interpolate_transfers then
      interpolateTransfers app_time_offset time_old target_time m ex
    else ex
  B.takeStep none ex

/-- One pass through the body of the sub-cycling loop `while(true)` for the local application
`i`. -/
def subCyclePass (B : TransientBackend) (Q : TransientMultiAppParameters) (i : Nat)
    (app_time_offset time_old target_time : ℚ) (at_steady : Bool) (ex : Transient)
    (m : TransientMultiApp) : Except MultiAbort SubCyclePass :=
  let ex := subCycleEnter B ex m
  let m := if m.first ≠ true then note (MultiCall.incrementStepOrReject i) m else m
  let m := { m with first := false }
  if ¬(!at_steady ∧ ex.time + app_time_offset + 2e-14 < target_time) then
    Except.ok (SubCyclePass.leave ex m)
  else
    let ex := subCycleSolve B Q app_time_offset time_old target_time m ex
    let m := note (MultiCall.takeStep i none) (note (MultiCall.computeDT i) m)
    let converged := ex.last_solve_converged
    let m :=
      if !converged then
        { note (MultiCall.warning_sub_cycling (m.first_local_app + i)) m with
          failures := uinc m.failures }
      else m
    if !converged ∧ m.failures > Q.max_failures then
      Except.error (MultiAbort.mooseError (MultiFatal.really_failed (m.first_local_app + i))
        (some ex) m)
    else
      let solution_change_norm := ex.solution_change_norm
      if converged ∧ Q.detect_steady_state ∧ solution_change_norm < Q.steady_state_tol then
        let m := note (MultiCall.forceOutput i) m
        let m := note (MultiCall.ow_forceOutput i) m
        let ex := B.endStep (some (target_time - app_time_offset)) ex
        let m := note (MultiCall.endStep i (some (target_time - app_time_offset))) m
        Except.ok (SubCyclePass.next true ex m)
      else
        let ex := B.endStep none ex
        let m := note (MultiCall.endStep i none) m
        Except.ok (SubCyclePass.next at_steady ex m)

/-- The sub-cycling loop `while(true)`, entered with the local `at_steady`: the value of
`at_steady` at the `break`, the application and the members.  The first argument bounds the
number of passes the model follows. -/
def subCycleLoop (B : TransientBackend) (Q : TransientMultiAppParameters) (i : Nat)
    (app_time_offset time_old target_time : ℚ) :
    Nat → Bool → Transient → TransientMultiApp →
      Except MultiAbort (Bool × Transient × TransientMultiApp)
  | 0, _, _, _ => Except.error MultiAbort.outOfFuel
  | fuel + 1, at_steady, ex, m =>
    match subCyclePass B Q i app_time_offset time_old target_time at_steady ex m with
    | Except.error e => Except.error e
    | Except.ok (SubCyclePass.leave ex m) => Except.ok (at_steady, ex, m)
    | Except.ok (SubCyclePass.next at_steady ex m) =>
      subCycleLoop B Q i app_time_offset time_old target_time fuel at_steady ex m

/-- The branch `if (_sub_cycling)` of `solveStep` for the local application `i`. -/
def subCycle (B : TransientBackend) (Q : TransientMultiAppParameters) (fuel i : Nat)
    (app_time_offset target_time : ℚ) (ex : Transient) (m : TransientMultiApp) :
    Except MultiAbort (Transient × TransientMultiApp) :=
  let time_old := ex.time + app_time_offset
  let ex := if Q.interpolate_transfers then { ex with transfer_old := ex.solution } else ex
  let m :=
    if Q.interpolate_transfers then { m with transferred_dofs := B.allLocalDofIndices ex }
    else m
  let m := note (MultiCall.allowOutput i Q.output_sub_cycles) m
  let m := note (MultiCall.ow_allowOutput i Q.output_sub_cycles) m
  let ex := { ex with target_time := target_time - app_time_offset }
  let m := note (MultiCall.setTargetTime i (target_time - app_time_offset)) m
  match subCycleLoop B Q i app_time_offset time_old target_time fuel false ex m with
  | Except.error e => Except.error e
  | Except.ok (at_steady, ex, m) =>
    if !at_steady then
      let m := note (MultiCall.ow_forceOutput i) m
      let m := note (MultiCall.ow_outputStep i) m
      let m := note (MultiCall.forceOutput i) m
      Except.ok (ex, m)
    else Except.ok (ex, m)

/-! ## `solveStep` in the other modes -/

/-- The branch `else if (_tolerate_failure)` of `solveStep` for the local application `i`. -/
def tolerateFailure (B : TransientBackend) (i : Nat) (dt app_time_offset target_time : ℚ)
    (ex : Transient) (m : TransientMultiApp) : Transient × TransientMultiApp :=
  let ex := B.takeStep (some dt) ex
  let m := note (MultiCall.takeStep i (some dt)) m
  let m := note (MultiCall.forceOutput i) m
  let m := note (MultiCall.ow_forceOutput i) m
  let ex := B.endStep (some (target_time - app_time_offset)) ex
  let m := note (MultiCall.endStep i (some (target_time - app_time_offset))) m
  (ex, m)

/-- The locals of the catch-up loop together with the application and the members. -/
structure CatchUp where
  /-- Local `caught_up`. -/
  caught_up : Bool
  /-- Local `catch_up_step`, an `unsigned int`. -/
  catch_up_step : Nat
  /-- Local `catch_up_dt`. -/
  catch_up_dt : ℚ
  /-- The application `ex`. -/
  ex : Transient
  /-- The members of the multi-app. -/
  m : TransientMultiApp
  deriving DecidableEq

/-- One pass through the body of the catch-up loop for the local application `i`. -/
def catchUpPass (B : TransientBackend) (i : Nat) (app_time_offset target_time : ℚ)
    (c : CatchUp) : CatchUp :=
  let ex := B.incrementStepOrReject c.ex
  let m := note (MultiCall.incrementStepOrReject i) c.m
  let ex := B.computeDT ex
  let m := note (MultiCall.computeDT i) m
  let ex := B.takeStep (some c.catch_up_dt) ex
  let m := note (MultiCall.takeStep i (some c.catch_up_dt)) m
  let c := { c with ex := ex, m := m }
  let c :=
    if ex.last_solve_converged then
      if ex.time + app_time_offset + ex.timestep_tol * |ex.time| ≥ target_time then
        let m := note (MultiCall.forceOutput i) c.m
        let m := note (MultiCall.ow_forceOutput i) m
        let m := note (MultiCall.ow_outputStep i) m
        { c with m := m, caught_up := true }
      else c
    else { c with catch_up_dt := c.catch_up_dt / 2 }
  let c := { c with ex := B.endStep none c.ex, m := note (MultiCall.endStep i none) c.m }
  { c with catch_up_step := uinc c.catch_up_step }

/-- The loop `while(!caught_up && catch_up_step < _max_catch_up_steps)`.  The first argument
bounds the number of passes the model follows. -/
def catchUpLoop (B : TransientBackend) (Q : TransientMultiAppParameters) (i : Nat)
    (app_time_offset target_time : ℚ) : Nat → CatchUp → Except MultiAbort CatchUp
  | 0, _ => Except.error MultiAbort.outOfFuel
  | fuel + 1, c =>
    if !c.caught_up ∧ (c.catch_up_step : ℚ) < Q.max_catch_up_steps then
      catchUpLoop B Q i app_time_offset target_time fuel
        (catchUpPass B i app_time_offset target_time c)
    else Except.ok c

/-- The block `if (_catch_up)` of `solveStep` for the local application `i`. -/
def catchUp (B : TransientBackend) (Q : TransientMultiAppParameters) (fuel i : Nat)
    (dt app_time_offset target_time : ℚ) (ex : Transient) (m : TransientMultiApp) :
    Except MultiAbort (Transient × TransientMultiApp) :=
  let m := note (MultiCall.allowOutput i false) m
  match catchUpLoop B Q i app_time_offset target_time fuel
      { caught_up := false, catch_up_step := 0, catch_up_dt := dt / 2, ex := ex, m := m } with
  | Except.error e => Except.error e
  | Except.ok c =>
    if !c.caught_up then
      Except.error (MultiAbort.mooseError MultiFatal.failed_to_catch_up (some c.ex) c.m)
    else
      let m := note (MultiCall.ow_allowOutput i true) c.m
      let m := note (MultiCall.allowOutput i true) m
      Except.ok (c.ex, m)

/-- The last branch of `solveStep` ("Solving Normal Step!") for the local application `i`. -/
def normalStep (B : TransientBackend) (Q : TransientMultiAppParameters) (fuel i : Nat)
    (dt app_time_offset target_time : ℚ) (auto_advance : Bool) (ex : Transient)
    (m : TransientMultiApp) : Except MultiAbort (Transient × TransientMultiApp) :=
  let ex := if auto_advance ∧ m.first ≠ true then B.incrementStepOrReject ex else ex
  let m :=
    if auto_advance ∧ m.first ≠ true then note (MultiCall.incrementStepOrReject i) m else m
  let m := if auto_advance then note (MultiCall.ow_allowOutput i true) m else m
  let ex := B.takeStep (some dt) ex
  let m := note (MultiCall.takeStep i (some dt)) m
  if auto_advance then
    let ex := B.endStep none ex
    let m := note (MultiCall.endStep i none) m
    if !ex.last_solve_converged then
      let m := note (MultiCall.warning_failed (m.first_local_app + i)) m
      if Q.catch_up then catchUp B Q fuel i dt app_time_offset target_time ex m
      else Except.ok (ex, m)
    else Except.ok (ex, m)
  else Except.ok (ex, m)

/-! ## `solveStep` -/

/-- The body of the loop of `solveStep` over the local applications, for the application `i`;
`target_time` is in global time. -/
def solveApp (B : TransientBackend) (Q : TransientMultiAppParameters) (fuel i : Nat)
    (dt target_time : ℚ) (auto_advance : Bool) (ex : Transient) (m : TransientMultiApp) :
    Except MultiAbort (Transient × TransientMultiApp) :=
  let m := note (MultiCall.ow_timestepSetup i) m
  let app_time_offset := ex.global_time_offset
  if (ex.time + app_time_offset) + 2e-14 ≥ target_time then
    Except.ok (ex, m)
  else if Q.sub_cycling then
    subCycle B Q fuel i app_time_offset target_time ex m
  else if Q.tolerate_failure then
    Except.ok (tolerateFailure B i dt app_time_offset target_time ex m)
  else
    normalStep B Q fuel i dt app_time_offset target_time auto_advance ex m

/-- The loop of `solveStep` over the local applications, from the application `i` on. -/
def solveApps (B : TransientBackend) (Q : TransientMultiAppParameters) (fuel : Nat)
    (dt target_time : ℚ) (auto_advance : Bool) :
    Nat → List Transient → TransientMultiApp →
      Except MultiAbort (List Transient × TransientMultiApp)
  | _, [], m => Except.ok ([], m)
  | i, ex :: rest, m =>
    match solveApp B Q fuel i dt target_time auto_advance ex m with
    | Except.error e => Except.error e
    | Except.ok (ex, m) =>
      match solveApps B Q fuel dt target_time auto_advance (i + 1) rest m with
      | Except.error e => Except.error e
      | Except.ok (rest, m) => Except.ok (ex :: rest, m)

/-- The method `TransientMultiApp::solveStep(dt, target_time, auto_advance)` on the local
applications `apps`.  The first argument bounds the number of passes of each inner loop the
model follows. -/
def solveStep (B : TransientBackend) (Q : TransientMultiAppParameters) (fuel : Nat)
    (dt target_time : ℚ) (auto_advance : Bool) (apps : List Transient)
    (m : TransientMultiApp) : Except MultiAbort (List Transient × TransientMultiApp) :=
  if Q.sub_cycling ∧ !auto_advance then
    Except.error (MultiAbort.mooseError MultiFatal.sub_cycling_auto_advance none m)
  else if Q.catch_up ∧ !auto_advance then
    Except.error (MultiAbort.mooseError MultiFatal.catch_up_auto_advance none m)
  else if !m.has_an_app then
    Except.ok (apps, m)
  else
    let m := { m with auto_advance := auto_advance }
    let target_time := target_time + m.global_time_offset
    match solveApps B Q fuel dt target_time auto_advance 0 apps m with
    | Except.error e => Except.error e
    | Except.ok (apps, m) => Except.ok (apps, { m with first := false, transferred_vars := 0 })

/-! ## `computeDT`, `resetApp`, `setupApp` -/

/-- The loop of `computeDT` over the local applications: each executioner computes its step,
and `smallest_dt` becomes `std::min(dt, smallest_dt)`. -/
def smallestDT (B : TransientBackend) :
    List Transient → ℚ → ℚ × List Transient
  | [], smallest_dt => (smallest_dt, [])
  | ex :: rest, smallest_dt =>
    let ex := B.computeDT ex
    let dt := ex.dt
    let smallest_dt := min dt smallest_dt
    let r := smallestDT B rest smallest_dt
    (r.1, ex :: r.2)

/-- The value of the local `smallest_dt` of `computeDT` before the global reduction, and the
applications after the loop. -/
def localDT (B : TransientBackend) (apps : List Transient) (m : TransientMultiApp) :
    ℚ × List Transient :=
  if m.has_an_app then smallestDT B apps REAL_MAX else (REAL_MAX, apps)

/-- The method `TransientMultiApp::computeDT()`. -/
def computeDT (B : TransientBackend) (Q : TransientMultiAppParameters) (apps : List Transient)
    (m : TransientMultiApp) : ℚ × List Transient :=
  if Q.sub_cycling then (REAL_MAX, apps)
  else
    let r := localDT B apps m
    if Q.tolerate_failure then (REAL_MAX, r.2)
    else (B.parallel_min r.1, r.2)

/-- The method `TransientMultiApp::setupApp(i, time, output_initial)` on the application that
is the `i`-th local one. -/
def setupApp (B : TransientBackend) (Q : TransientMultiAppParameters) (i : Nat)
    (output_initial : Bool) (app : Transient) (m : TransientMultiApp) :
    Except MultiAbort (Transient × TransientMultiApp) :=
  if !B.isTransient app then
    Except.error (MultiAbort.mooseError MultiFatal.not_transient (some app) m)
  else
    let m :=
      if !output_initial then
        note (MultiCall.ow_allowOutput i false) (note (MultiCall.outputInitial i false) m)
      else m
    let m := note (MultiCall.setFileNumbers i) m
    let ex := B.init app
    let m := note (MultiCall.init i) m
    let m := note (MultiCall.ow_allowOutput i true) m
    let ex :=
      if Q.interpolate_transfers then
        { ex with transfer_old := ex.solution.map (fun _ => 0)
                  transfer := ex.solution.map (fun _ => 0) }
      else ex
    let m :=
      if Q.detect_steady_state ∨ Q.tolerate_failure then
        note (MultiCall.allowOutput i false) (note (MultiCall.ow_allowOutput i false) m)
      else m
    Except.ok (ex, m)

/-- Modelled from the spec: the helpers `hasLocalApp` and `globalAppToLocal` of `MultiApp`
(MultiApp.C is not among the sources): the local applications are the global ones numbered from
`_first_local_app` on. -/
def globalAppToLocal (apps : List Transient) (m : TransientMultiApp) (global_app : Nat) :
    Option Nat :=
  if m.first_local_app ≤ global_app ∧ global_app < m.first_local_app + apps.length then
    some (global_app - m.first_local_app)
  else none

/-- The method `TransientMultiApp::resetApp(global_app, time)`. -/
def resetApp (B : TransientBackend) (Q : TransientMultiAppParameters) (global_app : Nat)
    (apps : List Transient) (m : TransientMultiApp) :
    Except MultiAbort (List Transient × TransientMultiApp) :=
  match globalAppToLocal apps m global_app with
  | none => Except.ok (apps, m)
  | some local_app =>
    match apps[local_app]? with
    | none => Except.ok (apps, m)
    | some old =>
      let time := old.time + old.global_time_offset
      let app := B.resetApp old time
      let m := note (MultiCall.resetApp local_app time) m
      let m := note (MultiCall.setFileNumbers local_app) m
      match setupApp B Q local_app false app m with
      | Except.error e => Except.error e
      | Except.ok (ex, m) => Except.ok (apps.set local_app ex, m)

/-! ## Observables of the multi-app -/

/-- The members when the test of the sub-cycling loop is made in a pass entered with `m`. -/
def subCycleMembers (i : Nat) (m : TransientMultiApp) : TransientMultiApp :=
  { (if m.first ≠ true then note (MultiCall.incrementStepOrReject i) m else m) with
    first := false }

/-- Whether a log entry is the warning "While sub_cycling ... failed to converge!" of some
application. -/
def isSubCyclingWarning : MultiCall → Bool
  | MultiCall.warning_sub_cycling _ => true
  | _ => false

/-- Number of sub-cycling warnings in a log, over all applications. -/
def subCyclingWarnings (log : List MultiCall) : Nat :=
  (log.filter isSubCyclingWarning).length

/-- The members `t` come from `m` by sub-cycling warnings each of which incremented the one
counter `_failures`: `n` new warnings, and `_failures` incremented `n` times. -/
def tally (m t : TransientMultiApp) : Prop :=
  ∃ n : Nat, subCyclingWarnings t.log = subCyclingWarnings m.log + n ∧
    t.failures = uinc^[n] m.failures

/-- The relation `tally` between the members `m` and the members at the end of a run that
returned or ended in a fatal error. -/
def tallies {α : Type} (members : α → TransientMultiApp) (m : TransientMultiApp) :
    Except MultiAbort α → Prop
  | Except.ok a => tally m (members a)
  | Except.error (MultiAbort.mooseError _ _ t) => tally m t
  | Except.error MultiAbort.outOfFuel => True

/-- The application after the solve of a pass through the catch-up loop:
`ex->incrementStepOrReject()`, `ex->computeDT()` and `ex->takeStep(catch_up_dt)`. -/
def catchUpSolve (B : TransientBackend) (c : CatchUp) : Transient :=
  B.takeStep (some c.catch_up_dt) (B.computeDT (B.incrementStepOrReject c.ex))

/-- Whether the solve of a pass through the catch-up loop catches up: it converged and the time
of the application has reached `target_time` within the tolerance of the time step. -/
def catchesUp (B : TransientBackend) (app_time_offset target_time : ℚ) (c : CatchUp) : Bool :=
  (catchUpSolve B c).last_solve_converged &&
    decide ((catchUpSolve B c).time + app_time_offset
      + (catchUpSolve B c).timestep_tol * |(catchUpSolve B c).time| ≥ target_time)

/-- The state of the catch-up loop at its entry for a step `dt`. -/
def catchUpEntry (i : Nat) (dt : ℚ) (ex : Transient) (m : TransientMultiApp) : CatchUp :=
  { caught_up := false, catch_up_step := 0, catch_up_dt := dt / 2, ex := ex
    m := note (MultiCall.allowOutput i false) m }

/-- The application and the members with which the branch `if (_sub_cycling)` of `solveStep`
enters its loop `while(true)`. -/
def subCycleEntry (B : TransientBackend) (Q : TransientMultiAppParameters) (i : Nat)
    (app_time_offset target_time : ℚ) (ex : Transient) (m : TransientMultiApp) :
    Transient × TransientMultiApp :=
  let ex := if Q.interpolate_transfers then { ex with transfer_old := ex.solution } else ex
  let m :=
    if Q.interpolate_transfers then { m with transferred_dofs := B.allLocalDofIndices ex }
    else m
  let m := note (MultiCall.allowOutput i Q.output_sub_cycles) m
  let m := note (MultiCall.ow_allowOutput i Q.output_sub_cycles) m
  let ex := { ex with target_time := target_time - app_time_offset }
  let m := note (MultiCall.setTargetTime i (target_time - app_time_offset)) m
  (ex, m)

/-- Number of the first `n` attempts of the catch-up loop entered in state `c` whose solve did
not converge. -/
def failedAttempts (B : TransientBackend) (i : Nat) (app_time_offset target_time : ℚ)
    (c : CatchUp) : Nat → Nat
  | 0 => 0
  | n + 1 =>
    failedAttempts B i app_time_offset target_time c n +
      (if (catchUpSolve B
          ((catchUpPass B i app_time_offset target_time)^[n] c)).last_solve_converged = true
        then 0 else 1)

end TransientMultiApp

/-! ## Concrete problems for the scenarios of the multi-app and of `execute` -/

namespace Scenario

/-- An `InversePowerMethod` with `min_iter = 0`, the step numbers 0, 1, 2, no Chebyshev
acceleration and no output of the iteration history. -/
def method (max_iter : Nat) (output_on_final : Bool) : InversePowerMethod :=
  { min_iter := 0, max_iter := max_iter, eig_check_tol := 1 / 1000000, pfactor := 1 / 100
    cheb_on := false, output_pi := false, output_on_final := output_on_final
    run_custom_uo := true, INIT_END := 0, POWERITERATION_END := 1, FINAL := 2 }

/-- A sub-application at time 0 that wants the step `dt`, with the auxiliary solution
`[0, 0]`, and the transfers `[4, 8]` (new) and `[2, 6]` (old). -/
def app (dt : ℚ) : Transient :=
  { time := 0, dt := dt, last_solve_converged := true, solution_change_norm := 1
    timestep_tol := 0, target_time := 0, global_time_offset := 0
    solution := [0, 0], transfer := [4, 8], transfer_old := [2, 6] }

/-- The members of a multi-app right after its construction, with applications. -/
def multiapp : TransientMultiApp :=
  { failures := 0, first := true, auto_advance := false, transferred_dofs := []
    transferred_vars := 0, has_an_app := true, first_local_app := 0, global_time_offset := 0
    log := [] }

/-- A backend whose solves converge exactly when the step is at most `limit`: `takeStep`
advances the time by the step it is given (by `dt` with the default argument) when that step is
at most `limit`, and fails without advancing otherwise; `incrementStepOrReject` halves `dt`
after a failure. -/
def stepper (limit : ℚ) : TransientBackend :=
  { computeDT := fun ex => ex
    takeStep := fun d ex =>
      if d.getD ex.dt ≤ limit then
        { ex with time := ex.time + d.getD ex.dt, last_solve_converged := true }
      else { ex with last_solve_converged := false }
    endStep := fun _ ex => ex
    incrementStepOrReject := fun ex =>
      if ex.last_solve_converged then ex else { ex with dt := ex.dt / 2 }
    allLocalDofIndices := fun _ => [1]
    resetApp := fun ex time => { ex with time := time, dt := 1, last_solve_converged := true }
    isTransient := fun _ => true
    init := fun ex => ex
    parallel_min := fun x => x }

/-- An executioner with the accelerator inactive as constructed, `flux_error_norm_old = 1` and
the difference of the solution `1/2`; the solution is `[3]` and the old one `[7]`. -/
def inactive : EigenExecutionerBase :=
  { executioner { problem [3] 3 3 with xdiff := 1 / 2 } 1 with
    chebyshev_parameters := Chebyshev_Parameters.ctor ⟨0, 0, 0, 0, 0, 0, 0, 0, 0, 1, 0⟩ }

/-- An executioner with the accelerator active after one accelerated iteration (`lgac = 1`,
`icheb = 1`), with `ratio = 1/2`, `error_begin = 1` and the difference of the solution `xdiff`;
the solution is `[3]`, the old one `[7]` and the older one `[8]`. -/
def active (xdiff : ℚ) : EigenExecutionerBase :=
  { executioner { problem [3] 3 3 with xdiff := xdiff } 1 with
    chebyshev_parameters :=
      { Chebyshev_Parameters.ctor ⟨0, 0, 0, 0, 0, 0, 0, 0, 0, 1, 0⟩ with
        lgac := 1, icheb := 1, ratio := 1 / 2, error_begin := 1 } }

/-- A backend whose postprocessor `bx_norm` is evaluated on residual and whose solve records
the two nonlinear tolerances in force as the solution `[absolute, relative]`; the solve leaves
the initial residual 1 and the source integral 1. -/
def recorder : Backend :=
  { backend id with
    bx_execFlag := EXEC_RESIDUAL
    solve := fun _ p =>
      { p with
        solution := [p.nonlinear_solver_absolute_residual_tolerance,
          p.nonlinear_solver_relative_residual_tolerance]
        initial_residual := 1, bx_norm := 1 } }

/-- An executioner after `init` with the backend `recorder`: `_bx_execflag` is
`EXEC_RESIDUAL`. -/
def residual : EigenExecutionerBase :=
  { executioner (problem [2] 2 2) 1 with bx_execflag := EXEC_RESIDUAL }

/-- Parameters of a multi-app: sub-cycling or not, catch-up or not, the two budgets. -/
def multiParams (sub_cycling catch_up : Bool) (max_failures : Nat) (max_catch_up_steps : ℚ) :
    TransientMultiAppParameters :=
  { sub_cycling := sub_cycling, interpolate_transfers := false, detect_steady_state := false
    steady_state_tol := 1 / 100000000, output_sub_cycles := false
    max_failures := max_failures, tolerate_failure := false, catch_up := catch_up
    max_catch_up_steps := max_catch_up_steps }

/-- What a run of the multi-app shows: the fatal error if it ended in one, and the members at
the end; nothing when the model ran out of its budget. -/
def outcome :
    Except MultiAbort (List Transient × TransientMultiApp) →
      Option (Option MultiFatal × TransientMultiApp)
  | Except.ok r => some (none, r.2)
  | Except.error (MultiAbort.mooseError e _ m) => some (some e, m)
  | Except.error MultiAbort.outOfFuel => none

end Scenario

/-! # Theorems -/

namespace EigenExecutionerBase

/-! ## The `Except` monad -/

theorem bind_eq_ok {ε α β : Type} (x : Except ε α) (f : α → Except ε β) (b : β) :
    (x >>= f) = Except.ok b ↔ ∃ a, x = Except.ok a ∧ f a = Except.ok b := by
  cases x <;> simp [bind, Except.bind]

theorem bind_eq_error {ε α β : Type} (x : Except ε α) (f : α → Except ε β) (e : ε) :
    (x >>= f) = Except.error e ↔
      x = Except.error e ∨ ∃ a, x = Except.ok a ∧ f a = Except.error e := by
  cases x <;> simp [bind, Except.bind]

/-! ## Lemmas on `chebyshev` -/

theorem deref_ok (P : InputParameters) (h : P.xdiff = true) (s : EigenExecutionerBase) :
    deref_solution_diff P s = Except.ok s.problem.xdiff := by
  simp [deref_solution_diff, solution_diff, h]

theorem deref_error (P : InputParameters) (h : P.xdiff = false) (s : EigenExecutionerBase) :
    deref_solution_diff P s = Except.error (Abort.nullPointer s) := by
  simp [deref_solution_diff, solution_diff, h]

theorem chebFrame_refl (s : EigenExecutionerBase) : chebFrame s s := by
  simp [chebFrame, sameMembers]

theorem chebFrame_trans {s t u : EigenExecutionerBase} (h1 : chebFrame s t)
    (h2 : chebFrame t u) : chebFrame s u := by
  simp only [chebFrame, sameMembers] at *
  obtain ⟨⟨a1, a2, a3, a4, a5, a6, a7⟩, a8, a9, a10⟩ := h1
  obtain ⟨⟨b1, b2, b3, b4, b5, b6, b7⟩, b8, b9, b10⟩ := h2
  simp [*]

theorem chebyshevInactive_frame (B : Backend) (P : InputParameters) (iter : Nat)
    (s t : EigenExecutionerBase) (h : chebyshevInactive B P iter s = Except.ok t) :
    chebFrame s t := by
  unfold chebyshevInactive at h
  cases hx : P.xdiff
  · simp only [deref_error P hx, bind, Except.bind, pure, Except.pure] at h
    repeat' split at h
    all_goals
      cases h
      try simp [chebFrame, sameMembers, setCheb, solves]
  · simp only [deref_ok P hx, bind, Except.bind, pure, Except.pure] at h
    repeat' split at h
    all_goals
      cases h
      try simp [chebFrame, sameMembers, refreshAfterCombine, computeUserObjects,
           computeAuxiliaryKernels, combineSystemSolution, setCheb, solves]

theorem chebyshevActive_frame (B : Backend) (P : InputParameters) (iter : Nat)
    (s t : EigenExecutionerBase) (h : chebyshevActive B P iter s = Except.ok t) :
    chebFrame s t := by
  unfold chebyshevActive at h
  cases hx : P.xdiff
  · simp only [deref_error P hx, bind, Except.bind, pure, Except.pure] at h
    cases h
  · simp only [deref_ok P hx, bind, Except.bind, pure, Except.pure] at h
    repeat' split at h
    all_goals
      cases h
      try simp [chebFrame, sameMembers, refreshAfterCombine, computeUserObjects,
           computeAuxiliaryKernels, combineSystemSolution, setCheb, solves]

theorem chebyshev_eq (B : Backend) (P : InputParameters) (iter : Nat)
    (s : EigenExecutionerBase) :
    chebyshev B P iter s =
      ((if s.chebyshev_parameters.lgac = 0 then chebyshevInactive B P iter s
        else chebyshevActive B P iter s) >>= fun u =>
        deref_solution_diff P u >>= fun d =>
          Except.ok (setCheb { u.chebyshev_parameters with flux_error_norm_old := d } u)) := by
  unfold chebyshev
  split <;> rfl

theorem chebyshev_frame (B : Backend) (P : InputParameters) (iter : Nat)
    (s t : EigenExecutionerBase) (h : chebyshev B P iter s = Except.ok t) : chebFrame s t := by
  rw [chebyshev_eq, bind_eq_ok] at h
  obtain ⟨u, hu, h⟩ := h
  rw [bind_eq_ok] at h
  obtain ⟨d, _, h⟩ := h
  have hf : chebFrame s u := by
    split at hu
    · exact chebyshevInactive_frame B P iter s u hu
    · exact chebyshevActive_frame B P iter s u hu
  cases h
  exact chebFrame_trans hf (by simp [chebFrame, sameMembers, setCheb, solves])

/-- With an `xdiff` postprocessor the two branches of `chebyshev` return. -/
theorem chebyshevInactive_ok (B : Backend) (P : InputParameters) (iter : Nat)
    (s : EigenExecutionerBase) (hx : P.xdiff = true) :
    ∃ t, chebyshevInactive B P iter s = Except.ok t := by
  unfold chebyshevInactive
  simp only [deref_ok P hx, bind, Except.bind, pure, Except.pure]
  repeat' split
  all_goals exact ⟨_, rfl⟩

theorem chebyshevActive_ok (B : Backend) (P : InputParameters) (iter : Nat)
    (s : EigenExecutionerBase) (hx : P.xdiff = true) :
    ∃ t, chebyshevActive B P iter s = Except.ok t := by
  unfold chebyshevActive
  simp only [deref_ok P hx, bind, Except.bind, pure, Except.pure]
  repeat' split
  all_goals exact ⟨_, rfl⟩

theorem chebyshev_ok (B : Backend) (P : InputParameters) (iter : Nat)
    (s : EigenExecutionerBase) (hx : P.xdiff = true) :
    ∃ t, chebyshev B P iter s = Except.ok t := by
  have h1 : ∃ u, (if s.chebyshev_parameters.lgac = 0 then chebyshevInactive B P iter s
      else chebyshevActive B P iter s) = Except.ok u := by
    split
    · exact chebyshevInactive_ok B P iter s hx
    · exact chebyshevActive_ok B P iter s hx
  obtain ⟨u, hu⟩ := h1
  rw [chebyshev_eq, hu]
  exact ⟨_, (bind_eq_ok _ _ _).2 ⟨u, rfl, (bind_eq_ok _ _ _).2 ⟨_, deref_ok P hx u, rfl⟩⟩⟩

theorem chebyshevInactive_abort (B : Backend) (P : InputParameters) (iter : Nat)
    (s : EigenExecutionerBase) (e : Abort) (h : chebyshevInactive B P iter s = Except.error e) :
    ∃ u, e = Abort.nullPointer u := by
  cases hx : P.xdiff
  · unfold chebyshevInactive at h
    simp only [deref_error P hx, bind, Except.bind, pure, Except.pure] at h
    repeat' split at h
    all_goals
      cases h
      try exact ⟨_, rfl⟩
  · obtain ⟨t, ht⟩ := chebyshevInactive_ok B P iter s hx
    rw [ht] at h
    cases h

theorem chebyshevActive_abort (B : Backend) (P : InputParameters) (iter : Nat)
    (s : EigenExecutionerBase) (e : Abort) (h : chebyshevActive B P iter s = Except.error e) :
    ∃ u, e = Abort.nullPointer u := by
  cases hx : P.xdiff
  · unfold chebyshevActive at h
    simp only [deref_error P hx, bind, Except.bind, pure, Except.pure] at h
    cases h
    exact ⟨_, rfl⟩
  · obtain ⟨t, ht⟩ := chebyshevActive_ok B P iter s hx
    rw [ht] at h
    cases h

theorem chebyshev_abort (B : Backend) (P : InputParameters) (iter : Nat)
    (s : EigenExecutionerBase) (e : Abort) (h : chebyshev B P iter s = Except.error e) :
    P.xdiff = false ∧ ∃ u, e = Abort.nullPointer u := by
  cases hx : P.xdiff
  · refine ⟨rfl, ?_⟩
    rw [chebyshev_eq, bind_eq_error] at h
    rcases h with h | ⟨u, _, h⟩
    · split at h
      · exact chebyshevInactive_abort B P iter s _ h
      · exact chebyshevActive_abort B P iter s _ h
    · rw [deref_error P hx, bind_eq_error] at h
      rcases h with h | ⟨d, h, _⟩
      · cases h
        exact ⟨_, rfl⟩
      · cases h
  · obtain ⟨t, ht⟩ := chebyshev_ok B P iter s hx
    rw [ht] at h
    cases h

/-- Without an `xdiff` postprocessor every call of `chebyshev` aborts. -/
theorem chebyshev_null (B : Backend) (P : InputParameters) (iter : Nat)
    (s : EigenExecutionerBase) (hx : P.xdiff = false) :
    ∃ u, chebyshev B P iter s = Except.error (Abort.nullPointer u) := by
  cases h : chebyshev B P iter s with
  | error e =>
    obtain ⟨_, u, hu⟩ := chebyshev_abort B P iter s e h
    exact ⟨u, by rw [hu]⟩
  | ok t =>
    exfalso
    rw [chebyshev_eq, bind_eq_ok] at h
    obtain ⟨u, _, h⟩ := h
    rw [deref_error P hx, bind_eq_ok] at h
    obtain ⟨d, h, _⟩ := h
    cases h

/-! ## Lemmas on the loop of `inversePowerIteration` -/

theorem sameMembers_refl (s : EigenExecutionerBase) : sameMembers s s := by
  simp [sameMembers]

theorem sameMembers_trans {s t u : EigenExecutionerBase} (h1 : sameMembers s t)
    (h2 : sameMembers t u) : sameMembers s u := by
  simp only [sameMembers] at *
  obtain ⟨a1, a2, a3, a4, a5, a6, a7⟩ := h1
  obtain ⟨b1, b2, b3, b4, b5, b6, b7⟩ := h2
  simp [*]

theorem accelerate_frame (B : Backend) (P : InputParameters) (cheb_on : Bool) (iter : Nat)
    (s t : EigenExecutionerBase) (h : accelerate B P cheb_on iter s = Except.ok t) :
    chebFrame s t := by
  unfold accelerate at h
  split at h
  · exact chebyshev_frame B P _ s t h
  · cases h
    exact chebFrame_refl s

theorem accelerate_ok (B : Backend) (P : InputParameters) (cheb_on : Bool) (iter : Nat)
    (s : EigenExecutionerBase) (hc : cheb_on = true → P.xdiff = true) :
    ∃ t, accelerate B P cheb_on iter s = Except.ok t := by
  unfold accelerate
  split
  · rename_i h
    exact chebyshev_ok B P _ s (hc h)
  · exact ⟨s, rfl⟩

theorem accelerate_abort (B : Backend) (P : InputParameters) (cheb_on : Bool) (iter : Nat)
    (s : EigenExecutionerBase) (e : Abort) (h : accelerate B P cheb_on iter s = Except.error e) :
    cheb_on = true ∧ P.xdiff = false ∧ ∃ u, e = Abort.nullPointer u := by
  unfold accelerate at h
  split at h
  · rename_i hc
    exact ⟨hc, chebyshev_abort B P _ s e h⟩
  · cases h

/-- The state of a pass of the loop right after the statement `_eigenvalue = k`. -/
theorem iteration_eq (B : Backend) (P : InputParameters) (min_iter max_iter : Nat)
    (cheb_on : Bool) (tol_eig tol_x : ℚ) (output_convergence : Bool) (time_base : ℚ)
    (k : KRef) (iter : Nat) (s : EigenExecutionerBase) :
    iteration B P min_iter max_iter cheb_on tol_eig tol_x output_convergence time_base k iter s
      = (accelerate B P cheb_on iter
          (updateEigenvalue k iter (read_k k s)
            (powerStep B (updateMaterials B (copyOldSolutions s)))) >>= fun t =>
        Except.ok
          (if leaveLoop P min_iter max_iter tol_eig tol_x (read_k k s) k (uinc iter) t then
            (t, true)
          else (dumpHistory output_convergence time_base max_iter (uinc iter) t, false))) := by
  have hk : read_k k (updateMaterials B (copyOldSolutions s)) = read_k k s := by
    cases k <;> rfl
  unfold iteration
  simp only [hk]
  refine congrArg _ (funext fun t => ?_)
  split <;> rfl

theorem powerStep_solves (B : Backend) (s : EigenExecutionerBase) :
    solves (powerStep B s) = solves s + 1 := by
  simp [powerStep, solves, onTimestepBegin, timestepSetup, computeUserObjects,
    computeAuxiliaryKernels, solve, onTimestepEnd]

theorem powerStep_members (B : Backend) (s : EigenExecutionerBase) :
    sameMembers s (powerStep B s) := by
  simp [powerStep, sameMembers, onTimestepBegin, timestepSetup, computeUserObjects,
    computeAuxiliaryKernels, solve, onTimestepEnd]

theorem updateEigenvalue_solves (k : KRef) (iter : Nat) (k_old : ℚ) (s : EigenExecutionerBase) :
    solves (updateEigenvalue k iter k_old s) = solves s := by
  unfold updateEigenvalue
  cases k <;> split <;> rfl

theorem updateEigenvalue_members (k : KRef) (iter : Nat) (k_old : ℚ)
    (s : EigenExecutionerBase) : sameMembers s (updateEigenvalue k iter k_old s) := by
  unfold updateEigenvalue
  cases k <;> split <;> simp [sameMembers, write_k]

theorem dumpHistory_solves (oc : Bool) (tb : ℚ) (m i : Nat) (s : EigenExecutionerBase) :
    solves (dumpHistory oc tb m i s) = solves s := by
  unfold dumpHistory
  split <;> simp [outputStepAt, solves]

theorem dumpHistory_members (oc : Bool) (tb : ℚ) (m i : Nat) (s : EigenExecutionerBase) :
    sameMembers s (dumpHistory oc tb m i s) := by
  unfold dumpHistory
  split <;> simp [outputStepAt, sameMembers]

/-- A pass of the loop that does not abort makes exactly one solve, keeps the saved vectors and
the flags, and ends in `break` exactly when `leaveLoop` says so. -/
theorem iteration_spec (B : Backend) (P : InputParameters) (min_iter max_iter : Nat)
    (cheb_on : Bool) (tol_eig tol_x : ℚ) (output_convergence : Bool) (time_base : ℚ)
    (k : KRef) (iter : Nat) (s t : EigenExecutionerBase) (b : Bool)
    (h : iteration B P min_iter max_iter cheb_on tol_eig tol_x output_convergence time_base k
      iter s = Except.ok (t, b)) :
    solves t = solves s + 1 ∧ sameMembers s t ∧
    ∃ u, b = leaveLoop P min_iter max_iter tol_eig tol_x (read_k k s) k (uinc iter) u ∧
      t = if b then u else dumpHistory output_convergence time_base max_iter (uinc iter) u := by
  rw [iteration_eq, bind_eq_ok] at h
  obtain ⟨u, hu, h⟩ := h
  have hf := accelerate_frame B P cheb_on iter _ u hu
  obtain ⟨hm, _, _, hs⟩ := hf
  have hs1 : solves u = solves s + 1 := by
    rw [hs, updateEigenvalue_solves, powerStep_solves]
    simp [solves, updateMaterials, copyOldSolutions]
  have hm1 : sameMembers s u := by
    refine sameMembers_trans ?_ hm
    refine sameMembers_trans ?_ (updateEigenvalue_members _ _ _ _)
    refine sameMembers_trans ?_ (powerStep_members _ _)
    simp [sameMembers, updateMaterials, copyOldSolutions]
  cases hl : leaveLoop P min_iter max_iter tol_eig tol_x (read_k k s) k (uinc iter) u with
  | true =>
    rw [hl] at h
    simp only [if_true] at h
    have h := Except.ok.inj h
    rw [Prod.mk.injEq] at h
    obtain ⟨rfl, rfl⟩ := h
    exact ⟨hs1, hm1, _, hl.symm, rfl⟩
  | false =>
    rw [hl] at h
    simp only [Bool.false_eq_true, if_false] at h
    have h := Except.ok.inj h
    rw [Prod.mk.injEq] at h
    obtain ⟨rfl, rfl⟩ := h
    refine ⟨?_, ?_, u, hl.symm, ?_⟩
    · rw [dumpHistory_solves, hs1]
    · exact sameMembers_trans hm1 (dumpHistory_members _ _ _ _ _)
    · simp

theorem iteration_ok (B : Backend) (P : InputParameters) (min_iter max_iter : Nat)
    (cheb_on : Bool) (tol_eig tol_x : ℚ) (output_convergence : Bool) (time_base : ℚ)
    (k : KRef) (iter : Nat) (s : EigenExecutionerBase) (hc : cheb_on = true → P.xdiff = true) :
    ∃ t b, iteration B P min_iter max_iter cheb_on tol_eig tol_x output_convergence time_base k
      iter s = Except.ok (t, b) := by
  rw [iteration_eq]
  obtain ⟨u, hu⟩ := accelerate_ok B P cheb_on iter
    (updateEigenvalue k iter (read_k k s) (powerStep B (updateMaterials B (copyOldSolutions s))))
    hc
  rw [hu]
  exact ⟨_, _, rfl⟩

theorem iteration_abort (B : Backend) (P : InputParameters) (min_iter max_iter : Nat)
    (cheb_on : Bool) (tol_eig tol_x : ℚ) (output_convergence : Bool) (time_base : ℚ)
    (k : KRef) (iter : Nat) (s : EigenExecutionerBase) (e : Abort)
    (h : iteration B P min_iter max_iter cheb_on tol_eig tol_x output_convergence time_base k
      iter s = Except.error e) :
    cheb_on = true ∧ P.xdiff = false ∧ ∃ u, e = Abort.nullPointer u := by
  rw [iteration_eq, bind_eq_error] at h
  rcases h with h | ⟨u, _, h⟩
  · exact accelerate_abort B P cheb_on iter _ e h
  · cases h

theorem leaveLoop_true (P : InputParameters) (min_iter max_iter : Nat) (tol_eig tol_x k_old : ℚ)
    (k : KRef) (iter : Nat) (s : EigenExecutionerBase)
    (h : leaveLoop P min_iter max_iter tol_eig tol_x k_old k iter s = true) :
    min_iter ≤ iter := by
  unfold leaveLoop at h
  split at h
  · assumption
  · cases h

theorem leaveLoop_false (P : InputParameters) (min_iter max_iter : Nat)
    (tol_eig tol_x k_old : ℚ) (k : KRef) (iter : Nat) (s : EigenExecutionerBase)
    (hmm : min_iter ≤ max_iter)
    (h : leaveLoop P min_iter max_iter tol_eig tol_x k_old k iter s = false) :
    iter ≠ max_iter := by
  unfold leaveLoop at h
  split at h
  · split at h
    · assumption
    · cases h
  · omega

/-- The loop entered with counter `iter < max_iter` returns when it is followed for at least
`max_iter - iter` passes; it makes between 1 and `max_iter - iter` solves and leaves with a
counter that is at least `min_iter`. -/
theorem powerLoop_spec (B : Backend) (P : InputParameters) (min_iter max_iter : Nat)
    (cheb_on : Bool) (tol_eig tol_x : ℚ) (output_convergence : Bool) (time_base : ℚ)
    (k : KRef) (hmm : min_iter ≤ max_iter) (hU : max_iter < UINT_RANGE)
    (hc : cheb_on = true → P.xdiff = true) :
    ∀ (fuel iter : Nat) (s : EigenExecutionerBase), iter < max_iter → max_iter ≤ iter + fuel →
      ∃ t, powerLoop B P min_iter max_iter cheb_on tol_eig tol_x output_convergence time_base k
          fuel iter s = Except.ok t ∧
        sameMembers s t ∧ solves s + 1 ≤ solves t ∧ iter + (solves t - solves s) ≤ max_iter ∧
        min_iter ≤ iter + (solves t - solves s) := by
  intro fuel
  induction fuel with
  | zero => intro iter s h1 h2; omega
  | succ n ih =>
    intro iter s h1 h2
    obtain ⟨t, b, ht⟩ := iteration_ok B P min_iter max_iter cheb_on tol_eig tol_x
      output_convergence time_base k iter s hc
    obtain ⟨hs, hm, u, hb, _⟩ := iteration_spec B P min_iter max_iter cheb_on tol_eig tol_x
      output_convergence time_base k iter s t b ht
    have hinc : uinc iter = iter + 1 := by
      unfold uinc
      exact Nat.mod_eq_of_lt (by omega)
    rw [hinc] at hb
    unfold powerLoop
    rw [ht]
    cases b with
    | true =>
      have := leaveLoop_true _ _ _ _ _ _ _ _ _ hb.symm
      exact ⟨t, rfl, hm, by omega, by omega, by omega⟩
    | false =>
      have hne := leaveLoop_false _ _ _ _ _ _ _ _ _ hmm hb.symm
      obtain ⟨t2, h2a, h2m, h2s, h2b, h2c⟩ := ih (iter + 1) t (by omega) (by omega)
      simp only [hinc]
      exact ⟨t2, h2a, sameMembers_trans hm h2m, by omega, by omega, by omega⟩

/-- The loop never ends in a `mooseError`, and an abort needs the accelerator switched on
without an `xdiff` postprocessor. -/
theorem powerLoop_abort (B : Backend) (P : InputParameters) (min_iter max_iter : Nat)
    (cheb_on : Bool) (tol_eig tol_x : ℚ) (output_convergence : Bool) (time_base : ℚ)
    (k : KRef) :
    ∀ (fuel iter : Nat) (s : EigenExecutionerBase) (e : Abort),
      powerLoop B P min_iter max_iter cheb_on tol_eig tol_x output_convergence time_base k
          fuel iter s = Except.error e →
        e = Abort.outOfFuel ∨ (cheb_on = true ∧ P.xdiff = false ∧ ∃ u, e = Abort.nullPointer u) := by
  intro fuel
  induction fuel with
  | zero =>
    intro iter s e h
    unfold powerLoop at h
    cases h
    exact Or.inl rfl
  | succ n ih =>
    intro iter s e h
    unfold powerLoop at h
    cases hi : iteration B P min_iter max_iter cheb_on tol_eig tol_x output_convergence
      time_base k iter s with
    | error e1 =>
      rw [hi] at h
      cases h
      exact Or.inr (iteration_abort _ _ _ _ _ _ _ _ _ _ _ _ _ hi)
    | ok r =>
      obtain ⟨t, b⟩ := r
      rw [hi] at h
      cases b with
      | true => cases h
      | false => exact ih _ _ _ h

/-- Whenever the loop returns, the saved vectors and the flags are the ones it started with. -/
theorem powerLoop_members (B : Backend) (P : InputParameters) (min_iter max_iter : Nat)
    (cheb_on : Bool) (tol_eig tol_x : ℚ) (output_convergence : Bool) (time_base : ℚ)
    (k : KRef) :
    ∀ (fuel iter : Nat) (s t : EigenExecutionerBase),
      powerLoop B P min_iter max_iter cheb_on tol_eig tol_x output_convergence time_base k
          fuel iter s = Except.ok t → sameMembers s t := by
  intro fuel
  induction fuel with
  | zero =>
    intro iter s t h
    unfold powerLoop at h
    cases h
  | succ n ih =>
    intro iter s t h
    unfold powerLoop at h
    cases hi : iteration B P min_iter max_iter cheb_on tol_eig tol_x output_convergence
      time_base k iter s with
    | error e1 =>
      rw [hi] at h
      cases h
    | ok r =>
      obtain ⟨u, b⟩ := r
      rw [hi] at h
      have hm := (iteration_spec _ _ _ _ _ _ _ _ _ _ _ _ _ _ hi).2.1
      cases b with
      | true =>
        cases h
        exact hm
      | false => exact sameMembers_trans hm (ih _ _ _ h)

/-! ## Lemmas on `inversePowerIteration` -/

theorem converged_iff (P : InputParameters) (tol_eig tol_x k_old k : ℚ)
    (s : EigenExecutionerBase) :
    converged P tol_eig tol_x k_old k s = true ↔
      |k_old - k| / k ≤ tol_eig ∧ (P.xdiff = false ∨ s.problem.xdiff ≤ tol_x) := by
  unfold converged solution_diff
  cases hx : P.xdiff
  · by_cases h1 : |k_old - k| / k > tol_eig
    · simp [h1]
    · simp [h1, not_lt.mp h1]
  · by_cases h1 : |k_old - k| / k > tol_eig
    · by_cases h2 : s.problem.xdiff > tol_x
      · simp [h1, h2]
      · simp [h1, h2]
    · by_cases h2 : s.problem.xdiff > tol_x
      · simp [h1, h2]
      · simp [h1, h2, not_lt.mp h1, not_lt.mp h2]

theorem dumpHistory_read (oc : Bool) (tb : ℚ) (m i : Nat) (k : KRef)
    (s : EigenExecutionerBase) :
    read_k k (dumpHistory oc tb m i s) = read_k k s ∧
      (dumpHistory oc tb m i s).problem = s.problem := by
  unfold dumpHistory
  cases k <;> split <;> simp [outputStepAt, read_k]

theorem inversePowerIteration_ok (B : Backend) (P : InputParameters) (fuel : Nat)
    (min_iter max_iter : Nat) (pfactor : ℚ) (cheb_on : Bool) (tol_eig tol_x : ℚ)
    (output_convergence : Bool) (time_base : ℚ) (k : KRef) (s t : EigenExecutionerBase)
    (hbx : s.bx_execflag = EXEC_TIMESTEP ∨ s.bx_execflag = EXEC_RESIDUAL)
    (hxd : s.xdiff_execflag = EXEC_TIMESTEP ∨ s.xdiff_execflag = EXEC_RESIDUAL)
    (hmax : max_iter ≠ 0)
    (h : powerLoop B P min_iter max_iter cheb_on tol_eig tol_x output_convergence time_base k
      fuel 0 (loopEntry pfactor s) = Except.ok t) :
    inversePowerIteration B P fuel min_iter max_iter pfactor cheb_on tol_eig tol_x
        output_convergence time_base k s =
      Except.ok (restore s.problem.linear_solver_tolerance
        s.problem.nonlinear_solver_maximum_iterations t) := by
  have h1 : ¬(s.bx_execflag ≠ EXEC_TIMESTEP ∧ s.bx_execflag ≠ EXEC_RESIDUAL) := by
    rcases hbx with h | h <;> simp [h]
  have h2 : ¬(s.xdiff_execflag ≠ EXEC_TIMESTEP ∧ s.xdiff_execflag ≠ EXEC_RESIDUAL) := by
    rcases hxd with h | h <;> simp [h]
  unfold inversePowerIteration
  unfold loopEntry at h
  rw [if_neg h1, if_neg h2, if_neg hmax]
  simp only [h]
  rfl

theorem inversePowerIteration_error (B : Backend) (P : InputParameters) (fuel : Nat)
    (min_iter max_iter : Nat) (pfactor : ℚ) (cheb_on : Bool) (tol_eig tol_x : ℚ)
    (output_convergence : Bool) (time_base : ℚ) (k : KRef) (s : EigenExecutionerBase) (e : Abort)
    (hbx : s.bx_execflag = EXEC_TIMESTEP ∨ s.bx_execflag = EXEC_RESIDUAL)
    (hxd : s.xdiff_execflag = EXEC_TIMESTEP ∨ s.xdiff_execflag = EXEC_RESIDUAL)
    (hmax : max_iter ≠ 0)
    (h : powerLoop B P min_iter max_iter cheb_on tol_eig tol_x output_convergence time_base k
      fuel 0 (loopEntry pfactor s) = Except.error e) :
    inversePowerIteration B P fuel min_iter max_iter pfactor cheb_on tol_eig tol_x
        output_convergence time_base k s = Except.error e := by
  have h1 : ¬(s.bx_execflag ≠ EXEC_TIMESTEP ∧ s.bx_execflag ≠ EXEC_RESIDUAL) := by
    rcases hbx with h | h <;> simp [h]
  have h2 : ¬(s.xdiff_execflag ≠ EXEC_TIMESTEP ∧ s.xdiff_execflag ≠ EXEC_RESIDUAL) := by
    rcases hxd with h | h <;> simp [h]
  unfold inversePowerIteration
  unfold loopEntry at h
  rw [if_neg h1, if_neg h2, if_neg hmax]
  simp only [h]

theorem loopEntry_solves (pfactor : ℚ) (s : EigenExecutionerBase) :
    solves (loopEntry pfactor s) = solves s := by
  simp [loopEntry, solves, saveOldSolutions, eigenKernelOnOld]

theorem restore_solves (tol1 : ℚ) (num1 : Nat) (s : EigenExecutionerBase) :
    solves (restore tol1 num1 s) = solves s := rfl

theorem inversePowerIteration_cases (B : Backend) (P : InputParameters) (fuel : Nat)
    (min_iter max_iter : Nat) (pfactor : ℚ) (cheb_on : Bool) (tol_eig tol_x : ℚ)
    (output_convergence : Bool) (time_base : ℚ) (k : KRef) (s : EigenExecutionerBase) :
    (((s.bx_execflag ≠ EXEC_TIMESTEP ∧ s.bx_execflag ≠ EXEC_RESIDUAL) ∨
        (s.xdiff_execflag ≠ EXEC_TIMESTEP ∧ s.xdiff_execflag ≠ EXEC_RESIDUAL)) ∧
      ∃ e, inversePowerIteration B P fuel min_iter max_iter pfactor cheb_on tol_eig tol_x
        output_convergence time_base k s = Except.error (Abort.mooseError e s)) ∨
    (((s.bx_execflag = EXEC_TIMESTEP ∨ s.bx_execflag = EXEC_RESIDUAL) ∧
        (s.xdiff_execflag = EXEC_TIMESTEP ∨ s.xdiff_execflag = EXEC_RESIDUAL)) ∧
      ((max_iter = 0 ∧
          inversePowerIteration B P fuel min_iter max_iter pfactor cheb_on tol_eig tol_x
            output_convergence time_base k s = Except.ok s) ∨
        (max_iter ≠ 0 ∧ ∃ t,
          powerLoop B P min_iter max_iter cheb_on tol_eig tol_x output_convergence time_base k
            fuel 0 (loopEntry pfactor s) = Except.ok t ∧
          inversePowerIteration B P fuel min_iter max_iter pfactor cheb_on tol_eig tol_x
            output_convergence time_base k s =
              Except.ok (restore s.problem.linear_solver_tolerance
                s.problem.nonlinear_solver_maximum_iterations t)) ∨
        (max_iter ≠ 0 ∧ ∃ e,
          powerLoop B P min_iter max_iter cheb_on tol_eig tol_x output_convergence time_base k
            fuel 0 (loopEntry pfactor s) = Except.error e ∧
          inversePowerIteration B P fuel min_iter max_iter pfactor cheb_on tol_eig tol_x
            output_convergence time_base k s = Except.error e))) := by
  by_cases h1 : s.bx_execflag ≠ EXEC_TIMESTEP ∧ s.bx_execflag ≠ EXEC_RESIDUAL
  · refine Or.inl ⟨Or.inl h1, Fatal.bx_execflag, ?_⟩
    unfold inversePowerIteration
    rw [if_pos h1]
  · by_cases h2 : s.xdiff_execflag ≠ EXEC_TIMESTEP ∧ s.xdiff_execflag ≠ EXEC_RESIDUAL
    · refine Or.inl ⟨Or.inr h2, Fatal.xdiff_execflag, ?_⟩
      unfold inversePowerIteration
      rw [if_neg h1, if_pos h2]
    · have hbx : s.bx_execflag = EXEC_TIMESTEP ∨ s.bx_execflag = EXEC_RESIDUAL := by
        by_contra hn
        exact h1 ⟨fun h => hn (Or.inl h), fun h => hn (Or.inr h)⟩
      have hxd : s.xdiff_execflag = EXEC_TIMESTEP ∨ s.xdiff_execflag = EXEC_RESIDUAL := by
        by_contra hn
        exact h2 ⟨fun h => hn (Or.inl h), fun h => hn (Or.inr h)⟩
      refine Or.inr ⟨⟨hbx, hxd⟩, ?_⟩
      by_cases hm : max_iter = 0
      · refine Or.inl ⟨hm, ?_⟩
        unfold inversePowerIteration
        rw [if_neg h1, if_neg h2, if_pos hm]
      · cases hp : powerLoop B P min_iter max_iter cheb_on tol_eig tol_x output_convergence
          time_base k fuel 0 (loopEntry pfactor s) with
        | error e =>
          exact Or.inr (Or.inr ⟨hm, e, rfl, inversePowerIteration_error B P fuel min_iter
            max_iter pfactor cheb_on tol_eig tol_x output_convergence time_base k s e hbx hxd hm
            hp⟩)
        | ok t =>
          exact Or.inr (Or.inl ⟨hm, t, rfl, inversePowerIteration_ok B P fuel min_iter
            max_iter pfactor cheb_on tol_eig tol_x output_convergence time_base k s t hbx hxd hm
            hp⟩)

theorem restore_restored (pfactor : ℚ) (s t : EigenExecutionerBase)
    (h : sameMembers (loopEntry pfactor s) t) :
    restored s (restore s.problem.linear_solver_tolerance
      s.problem.nonlinear_solver_maximum_iterations t) := by
  obtain ⟨h1, h2, h3, h4, _⟩ := h
  simp [restored, restore, h1, h2, h3, h4, loopEntry, saveOldSolutions, eigenKernelOnOld]

/-! ## Lemmas on `normalizeSolution` and `init` -/

theorem updateAll_members (B : Backend) (types : List ExecFlagType) :
    ∀ s : EigenExecutionerBase, sameMembers s (updateAll B types s) := by
  induction types with
  | nil => intro s; exact sameMembers_refl s
  | cons ty tys ih =>
    intro s
    have h1 : updateAll B (ty :: tys) s = updateAll B tys
        (computeUserObjects B ty GROUP.POST_AUX
          (computeAuxiliaryKernels B ty (computeUserObjects B ty GROUP.PRE_AUX s))) := rfl
    rw [h1]
    refine sameMembers_trans ?_ (ih _)
    simp [sameMembers, computeUserObjects, computeAuxiliaryKernels]

theorem initScale_members (B : Backend) (P : InputParameters) (s : EigenExecutionerBase) :
    sameMembers s (initScale B P s) := by
  have h1 : ∀ (c : ℚ) (u : EigenExecutionerBase), sameMembers u (scaleSystemSolution B c u) := by
    intro c u
    simp [sameMembers, scaleSystemSolution]
  have h3 : ∀ u : EigenExecutionerBase, sameMembers u (onTimestepEnd B u) := by
    intro u
    simp [sameMembers, onTimestepEnd]
  have h4 : ∀ u : EigenExecutionerBase, sameMembers u (outputInitialCondition P u) := by
    intro u
    unfold outputInitialCondition
    split <;> simp [sameMembers]
  exact sameMembers_trans (sameMembers_trans (sameMembers_trans (h1 _ s)
    (updateAll_members B exec_types _)) (h3 _)) (h4 _)

theorem scaleFrom_getElem? (eigen : Nat → Bool) (c : ℚ) :
    ∀ (v : NumericVector) (j i : Nat),
      (scaleFrom eigen c j v)[i]? = (v[i]?).map (fun x => if eigen (j + i) then x * c else x) := by
  intro v
  induction v with
  | nil => intro j i; simp [scaleFrom]
  | cons x xs ih =>
    intro j i
    cases i with
    | zero => simp [scaleFrom]
    | succ n =>
      simp only [scaleFrom, List.getElem?_cons_succ]
      rw [ih (j + 1) n]
      have : j + 1 + n = j + (n + 1) := by omega
      rw [this]

theorem scaleFrom_sum (c : ℚ) :
    ∀ (v : NumericVector) (j : Nat), (scaleFrom (fun _ => true) c j v).sum = c * v.sum := by
  intro v
  induction v with
  | nil => intro j; simp [scaleFrom]
  | cons x xs ih =>
    intro j
    simp only [scaleFrom, if_true, List.sum_cons, ih (j + 1)]
    ring

theorem updateAll_solution (B : Backend) (types : List ExecFlagType) :
    ∀ s : EigenExecutionerBase, (updateAll B types s).problem.solution = s.problem.solution := by
  induction types with
  | nil => intro s; rfl
  | cons ty tys ih =>
    intro s
    have h1 : updateAll B (ty :: tys) s = updateAll B tys
        (computeUserObjects B ty GROUP.POST_AUX
          (computeAuxiliaryKernels B ty (computeUserObjects B ty GROUP.PRE_AUX s))) := rfl
    rw [h1, ih]
    simp [computeUserObjects, computeAuxiliaryKernels, FEProblem.computeUserObjects]

/-- The state in which `normalizeSolution(force)` computes the scaling. -/
theorem normalizeSolution_eq (B : Backend) (P : InputParameters) (force : Bool)
    (s : EigenExecutionerBase) :
    normalizeSolution B P force s =
      if normalization P (if force = true then computeUserObjects B s.norm_execflag GROUP.ALL s
            else s) / P.normal_factor.getD s.eigenvalue ≠ 1 then
        (normalization P (if force = true then computeUserObjects B s.norm_execflag GROUP.ALL s
            else s) / P.normal_factor.getD s.eigenvalue,
          updateAll B exec_types (scaleSystemSolution B
            (normalization P (if force = true then
              computeUserObjects B s.norm_execflag GROUP.ALL s else s)
              / P.normal_factor.getD s.eigenvalue)
            (if force = true then computeUserObjects B s.norm_execflag GROUP.ALL s else s)))
      else
        (normalization P (if force = true then computeUserObjects B s.norm_execflag GROUP.ALL s
            else s) / P.normal_factor.getD s.eigenvalue,
          if force = true then computeUserObjects B s.norm_execflag GROUP.ALL s else s) := by
  unfold normalizeSolution
  cases force <;> cases hf : P.normal_factor <;> simp [computeUserObjects]

/-! ## The claims -/

/-- Claim C1.  In every pass of the loop of `inversePowerIteration`, entered in any state `s`
with any counter, the statement "update eigenvalue" sets `k` (and `_eigenvalue`) to
`k_old * _source_integral / _source_integral_old`, where `k_old` is the value `k` had when the
pass began and the two source integrals are the stored current and old value of `bx_norm` after
the solve of that pass; the rest of the pass goes on from that state.  Without Chebyshev
acceleration `k` still has that value at the end of the pass. -/
theorem C1_eigenvalue_update (B : Backend) (P : InputParameters) (min_iter max_iter : Nat)
    (cheb_on : Bool) (tol_eig tol_x : ℚ) (output_convergence : Bool) (time_base : ℚ)
    (k : KRef) (iter : Nat) (s : EigenExecutionerBase) :
    let solved := powerStep B (updateMaterials B (copyOldSolutions s))
    let updated := updateEigenvalue k iter (read_k k s) solved
    read_k k updated = read_k k s * source_integral solved / source_integral_old solved ∧
    updated.eigenvalue = read_k k s * source_integral solved / source_integral_old solved ∧
    iteration B P min_iter max_iter cheb_on tol_eig tol_x output_convergence time_base k iter s
      = (accelerate B P cheb_on iter updated >>= fun t =>
        Except.ok
          (if leaveLoop P min_iter max_iter tol_eig tol_x (read_k k s) k (uinc iter) t then
            (t, true)
          else (dumpHistory output_convergence time_base max_iter (uinc iter) t, false))) ∧
    ∃ t b, iteration B P min_iter max_iter false tol_eig tol_x output_convergence time_base
        k iter s = Except.ok (t, b) ∧
      read_k k t = read_k k s * source_integral t / source_integral_old t ∧
      source_integral t = source_integral solved ∧
      source_integral_old t = source_integral_old solved := by
  intro solved updated
  have h1 : read_k k updated
      = read_k k s * source_integral solved / source_integral_old solved := by
    simp only [updated, updateEigenvalue]
    cases k <;> split <;> simp [read_k, write_k, source_integral, source_integral_old]
  have h2 : updated.eigenvalue
      = read_k k s * source_integral solved / source_integral_old solved := by
    simp only [updated, updateEigenvalue]
    cases k <;> split <;> simp [read_k, write_k, source_integral, source_integral_old]
  have hS : source_integral updated = source_integral solved ∧
      source_integral_old updated = source_integral_old solved := by
    simp only [updated, updateEigenvalue]
    cases k <;> split <;> simp [write_k, source_integral, source_integral_old]
  refine ⟨h1, h2, iteration_eq _ _ _ _ _ _ _ _ _ _ _ _, ?_⟩
  obtain ⟨d1, d2⟩ := dumpHistory_read output_convergence time_base max_iter (uinc iter) k updated
  have d3 : source_integral (dumpHistory output_convergence time_base max_iter (uinc iter)
      updated) = source_integral updated := by
    unfold source_integral
    rw [d2]
  have d4 : source_integral_old (dumpHistory output_convergence time_base max_iter (uinc iter)
      updated) = source_integral_old updated := by
    unfold source_integral_old
    rw [d2]
  cases hl : leaveLoop P min_iter max_iter tol_eig tol_x (read_k k s) k (uinc iter) updated with
  | true =>
    refine ⟨updated, true, ?_, by rw [h1, hS.1, hS.2], hS.1, hS.2⟩
    rw [iteration_eq]
    simp only [accelerate, Bool.false_eq_true, if_false, bind, Except.bind, pure, Except.pure]
    rw [hl]
    rfl
  | false =>
    refine ⟨dumpHistory output_convergence time_base max_iter (uinc iter) updated, false, ?_,
      by rw [d1, d3, d4, h1, hS.1, hS.2], by rw [d3, hS.1], by rw [d4, hS.2]⟩
    rw [iteration_eq]
    simp only [accelerate, Bool.false_eq_true, if_false, bind, Except.bind, pure, Except.pure]
    rw [hl]
    rfl

/-- Claim C2.  A pass of the loop of `inversePowerIteration` that is the `i`-th pass with
`i = iter + 1 < max_iter` (and that does not abort in the accelerator, which needs an `xdiff`
postprocessor when it is switched on) ends the loop if and only if `min_iter <= i`,
`|k_old - k| / k <= tol_eig`, and no `xdiff` postprocessor is configured or its value is
`<= tol_x`; here `k_old` and `k` are the value of `k` at the begin and at the end of the pass.
If the pass does not end the loop, the loop goes on with the next pass.  For the source
integrals 2.0, 2.2, 2.31, 2.31 with `k0 = 1`, `tol_eig = 0.01`, `min_iter = 1`, no Chebyshev
acceleration and no `xdiff`, the values of `k` after the passes are 1.1, 1.155, 1.155 and the
run ends after three solves. -/
theorem C2_stop_rule :
    (∀ (B : Backend) (P : InputParameters) (min_iter max_iter : Nat) (cheb_on : Bool)
      (tol_eig tol_x : ℚ) (output_convergence : Bool) (time_base : ℚ) (k : KRef)
      (fuel iter : Nat) (s : EigenExecutionerBase),
      iter + 1 < max_iter → max_iter < UINT_RANGE → (cheb_on = true → P.xdiff = true) →
      ∃ t b, iteration B P min_iter max_iter cheb_on tol_eig tol_x output_convergence time_base
          k iter s = Except.ok (t, b) ∧
        (b = true ↔
          (min_iter ≤ iter + 1 ∧ |read_k k s - read_k k t| / read_k k t ≤ tol_eig ∧
            (P.xdiff = false ∨ t.problem.xdiff ≤ tol_x))) ∧
        powerLoop B P min_iter max_iter cheb_on tol_eig tol_x output_convergence time_base k
            (fuel + 1) iter s =
          if b = true then Except.ok t
          else powerLoop B P min_iter max_iter cheb_on tol_eig tol_x output_convergence
            time_base k fuel (iter + 1) t) ∧
    eigenvalues (Scenario.backend Scenario.nextB) (Scenario.params false none) 1 300 false
        (1 / 100) 1 false 0 KRef.eigenvalue 300 0
        (Scenario.executioner (Scenario.problem [2] 2 2) 1) = [11 / 10, 231 / 200, 231 / 200] ∧
    (inversePowerIteration (Scenario.backend Scenario.nextB) (Scenario.params false none)
        300 1 300 (1 / 100) false (1 / 100) 1 false 0 KRef.eigenvalue
        (Scenario.executioner (Scenario.problem [2] 2 2) 1)).toOption.map
      (fun t => (t.eigenvalue, solves t)) = some (231 / 200, 3) := by
  refine ⟨?_, by decide!, by decide!⟩
  intro B P min_iter max_iter cheb_on tol_eig tol_x output_convergence time_base k fuel iter s
    hi hU hc
  obtain ⟨t, b, ht⟩ := iteration_ok B P min_iter max_iter cheb_on tol_eig tol_x
    output_convergence time_base k iter s hc
  obtain ⟨_, _, u, hb, htu⟩ := iteration_spec B P min_iter max_iter cheb_on tol_eig tol_x
    output_convergence time_base k iter s t b ht
  have hinc : uinc iter = iter + 1 := by
    unfold uinc
    exact Nat.mod_eq_of_lt (by omega)
  rw [hinc] at hb htu
  have hread : read_k k t = read_k k u ∧ t.problem = u.problem := by
    rw [htu]
    split
    · exact ⟨rfl, rfl⟩
    · exact dumpHistory_read _ _ _ _ _ _
  refine ⟨t, b, ht, ?_, ?_⟩
  · rw [hb, hread.1, hread.2]
    unfold leaveLoop
    have hne : iter + 1 ≠ max_iter := by omega
    by_cases hm : iter + 1 ≥ min_iter
    · simp only [hm, hne, if_true, ne_eq, not_false_eq_true, true_and]
      exact converged_iff _ _ _ _ _ _
    · simp [hm]
  · conv_lhs => unfold powerLoop
    rw [ht, hinc]
    cases b <;> simp

/-- Witness of C2: the first pass of the scenario with source integrals 2.0, 2.2, 2.31, 2.31. -/
theorem C2_stop_rule_witness :
    0 + 1 < 300 ∧ 300 < UINT_RANGE ∧
    ∃ t b, iteration (Scenario.backend Scenario.nextB) (Scenario.params false none) 1 300 false
        (1 / 100) 1 false 0 KRef.eigenvalue 0
        (Scenario.executioner (Scenario.problem [2] 2 2) 1) = Except.ok (t, b) ∧
      (b = true ↔
        (1 ≤ 0 + 1 ∧
          |read_k KRef.eigenvalue (Scenario.executioner (Scenario.problem [2] 2 2) 1)
            - read_k KRef.eigenvalue t| / read_k KRef.eigenvalue t ≤ 1 / 100 ∧
          ((Scenario.params false none).xdiff = false ∨ t.problem.xdiff ≤ 1))) ∧
      powerLoop (Scenario.backend Scenario.nextB) (Scenario.params false none) 1 300 false
          (1 / 100) 1 false 0 KRef.eigenvalue (299 + 1) 0
          (Scenario.executioner (Scenario.problem [2] 2 2) 1) =
        if b = true then Except.ok t
        else powerLoop (Scenario.backend Scenario.nextB) (Scenario.params false none) 1 300
          false (1 / 100) 1 false 0 KRef.eigenvalue 299 (0 + 1) t :=
  ⟨by decide, by decide,
    C2_stop_rule.1 (Scenario.backend Scenario.nextB) (Scenario.params false none) 1 300 false
      (1 / 100) 1 false 0 KRef.eigenvalue 299 0
      (Scenario.executioner (Scenario.problem [2] 2 2) 1) (by decide) (by decide) (by decide)⟩

/-- Claim C3.  For `min_iter <= max_iter`, `1 <= max_iter` (an `unsigned int`), execution flags
that pass the two checks, and an `xdiff` postprocessor whenever the accelerator is switched on,
`inversePowerIteration` returns, whatever the collaborators and observers do, as soon as the
model follows the loop for `max_iter` passes, and the number `n` of solves it made satisfies
`max(1, min_iter) <= n <= max_iter`.  With `min_iter = max_iter = 1`, source integrals
`S0 = S1 = 2`, `k0 = 1` it makes one solve and returns `k = 1` for every tolerance. -/
theorem C3_iteration_count :
    (∀ (B : Backend) (P : InputParameters) (fuel min_iter max_iter : Nat) (pfactor : ℚ)
      (cheb_on : Bool) (tol_eig tol_x : ℚ) (output_convergence : Bool) (time_base : ℚ)
      (k : KRef) (s : EigenExecutionerBase),
      min_iter ≤ max_iter → 1 ≤ max_iter → max_iter < UINT_RANGE →
      (cheb_on = true → P.xdiff = true) →
      (s.bx_execflag = EXEC_TIMESTEP ∨ s.bx_execflag = EXEC_RESIDUAL) →
      (s.xdiff_execflag = EXEC_TIMESTEP ∨ s.xdiff_execflag = EXEC_RESIDUAL) →
      max_iter ≤ fuel →
      ∃ t, inversePowerIteration B P fuel min_iter max_iter pfactor cheb_on tol_eig tol_x
          output_convergence time_base k s = Except.ok t ∧
        max 1 min_iter ≤ solves t - solves s ∧ solves t - solves s ≤ max_iter) ∧
    (∀ (pfactor tol_eig tol_x : ℚ),
      (inversePowerIteration (Scenario.backend id) (Scenario.params false none) 1 1 1 pfactor
          false tol_eig tol_x false 0 KRef.eigenvalue
          (Scenario.executioner (Scenario.problem [2] 2 2) 1)).toOption.map
        (fun t => (t.eigenvalue, solves t)) = some (1, 1)) := by
  constructor
  · intro B P fuel min_iter max_iter pfactor cheb_on tol_eig tol_x output_convergence time_base
      k s hmm h1 hU hc hbx hxd hfuel
    obtain ⟨t, ht, _, ha, hb, hc⟩ := powerLoop_spec B P min_iter max_iter cheb_on tol_eig tol_x
      output_convergence time_base k hmm hU hc fuel 0 (loopEntry pfactor s) (by omega) (by omega)
    rw [loopEntry_solves] at ha hb hc
    refine ⟨_, inversePowerIteration_ok B P fuel min_iter max_iter pfactor cheb_on tol_eig tol_x
      output_convergence time_base k s t hbx hxd (by omega) ht, ?_, ?_⟩
    · rw [restore_solves]
      omega
    · rw [restore_solves]
      omega
  · intro pfactor tol_eig tol_x
    simp [inversePowerIteration, powerLoop, iteration, accelerate, leaveLoop, uinc, UINT_RANGE,
      updateEigenvalue, powerStep, copyOldSolutions, updateMaterials, onTimestepBegin,
      timestepSetup, computeUserObjects, computeAuxiliaryKernels, solve, onTimestepEnd,
      eigenKernelOnOld, saveOldSolutions, restore, solves, read_k, write_k, source_integral,
      source_integral_old, FEProblem.computeUserObjects, FEProblem.inGroup,
      FEProblem.copyOldSolutions, FEProblem.onTimestepBegin, Scenario.executioner,
      Scenario.params, Scenario.backend, Scenario.problem, Except.toOption, bind, Except.bind,
      pure, Except.pure]

/-- Witness of C3: `min_iter = 2`, `max_iter = 5` on the scenario with source integrals 2.0,
2.2, 2.31, 2.31. -/
theorem C3_iteration_count_witness :
    2 ≤ 5 ∧ 1 ≤ 5 ∧ 5 < UINT_RANGE ∧
    ∃ t, inversePowerIteration (Scenario.backend Scenario.nextB) (Scenario.params false none)
        5 2 5 (1 / 100) false (1 / 100) 1 false 0 KRef.eigenvalue
        (Scenario.executioner (Scenario.problem [2] 2 2) 1) = Except.ok t ∧
      max 1 2 ≤ solves t - solves (Scenario.executioner (Scenario.problem [2] 2 2) 1) ∧
      solves t - solves (Scenario.executioner (Scenario.problem [2] 2 2) 1) ≤ 5 :=
  ⟨by decide, by decide, by decide,
    C3_iteration_count.1 (Scenario.backend Scenario.nextB) (Scenario.params false none)
      5 2 5 (1 / 100) false (1 / 100) 1 false 0 KRef.eigenvalue
      (Scenario.executioner (Scenario.problem [2] 2 2) 1)
      (by decide) (by decide) (by decide) (by decide) (Or.inl rfl) (Or.inl rfl) (by decide)⟩

/-- Claim C4.  With `max_iter == 0`, `inversePowerIteration` ends in the state in which it was
called, for every input: nothing is written (not `k`, `initial_res`, a solver control or a
vector) and the log of calls is unchanged, so no solve was made.  It returns that state when the
two execution flags pass the checks, and raises the fatal error of the failing check
otherwise. -/
theorem C4_max_iter_zero (B : Backend) (P : InputParameters) (fuel min_iter : Nat)
    (pfactor : ℚ) (cheb_on : Bool) (tol_eig tol_x : ℚ) (output_convergence : Bool)
    (time_base : ℚ) (k : KRef) (s : EigenExecutionerBase) :
    finalState (inversePowerIteration B P fuel min_iter 0 pfactor cheb_on tol_eig tol_x
      output_convergence time_base k s) = some s ∧
    inversePowerIteration B P fuel min_iter 0 pfactor cheb_on tol_eig tol_x
        output_convergence time_base k s =
      if s.bx_execflag ≠ EXEC_TIMESTEP ∧ s.bx_execflag ≠ EXEC_RESIDUAL then
        Except.error (Abort.mooseError Fatal.bx_execflag s)
      else if s.xdiff_execflag ≠ EXEC_TIMESTEP ∧ s.xdiff_execflag ≠ EXEC_RESIDUAL then
        Except.error (Abort.mooseError Fatal.xdiff_execflag s)
      else Except.ok s := by
  constructor
  · unfold inversePowerIteration
    split
    · rfl
    · split
      · rfl
      · rfl
  · unfold inversePowerIteration
    split
    · rfl
    · split
      · rfl
      · rfl

/-- Claim C5.  Whenever `inversePowerIteration` returns (with any `max_iter`, so in particular
with `max_iter >= 1`), the old and older solution of the eigen system and of the auxiliary
system, the linear solver tolerance and the cap on nonlinear iterations have the values they
had on entry, whatever the collaborators, `copyOldSolutions` and the accelerator did in between.
And it does return for `1 <= max_iter`, `min_iter <= max_iter`, flags that pass the checks and
an `xdiff` postprocessor whenever the accelerator is switched on. -/
theorem C5_old_solutions_restored :
    (∀ (B : Backend) (P : InputParameters) (fuel min_iter max_iter : Nat) (pfactor : ℚ)
      (cheb_on : Bool) (tol_eig tol_x : ℚ) (output_convergence : Bool) (time_base : ℚ)
      (k : KRef) (s t : EigenExecutionerBase),
      inversePowerIteration B P fuel min_iter max_iter pfactor cheb_on tol_eig tol_x
          output_convergence time_base k s = Except.ok t →
        restored s t) ∧
    (∀ (B : Backend) (P : InputParameters) (fuel min_iter max_iter : Nat) (pfactor : ℚ)
      (cheb_on : Bool) (tol_eig tol_x : ℚ) (output_convergence : Bool) (time_base : ℚ)
      (k : KRef) (s : EigenExecutionerBase),
      min_iter ≤ max_iter → 1 ≤ max_iter → max_iter < UINT_RANGE →
      (cheb_on = true → P.xdiff = true) →
      (s.bx_execflag = EXEC_TIMESTEP ∨ s.bx_execflag = EXEC_RESIDUAL) →
      (s.xdiff_execflag = EXEC_TIMESTEP ∨ s.xdiff_execflag = EXEC_RESIDUAL) →
      max_iter ≤ fuel →
      ∃ t, inversePowerIteration B P fuel min_iter max_iter pfactor cheb_on tol_eig tol_x
          output_convergence time_base k s = Except.ok t ∧ restored s t) := by
  have key : ∀ (B : Backend) (P : InputParameters) (fuel min_iter max_iter : Nat) (pfactor : ℚ)
      (cheb_on : Bool) (tol_eig tol_x : ℚ) (output_convergence : Bool) (time_base : ℚ)
      (k : KRef) (s t : EigenExecutionerBase),
      inversePowerIteration B P fuel min_iter max_iter pfactor cheb_on tol_eig tol_x
          output_convergence time_base k s = Except.ok t →
        restored s t := by
    intro B P fuel min_iter max_iter pfactor cheb_on tol_eig tol_x output_convergence time_base
      k s t h
    rcases inversePowerIteration_cases B P fuel min_iter max_iter pfactor cheb_on tol_eig tol_x
      output_convergence time_base k s with ⟨_, e, he⟩ | ⟨_, ⟨_, h0⟩ | ⟨_, u, hu, h1⟩ | ⟨_, e, _, he⟩⟩
    · rw [he] at h
      cases h
    · rw [h0] at h
      cases h
      simp [restored]
    · rw [h1] at h
      cases h
      exact restore_restored pfactor s u (powerLoop_members _ _ _ _ _ _ _ _ _ _ _ _ _ _ hu)
    · rw [he] at h
      cases h
  refine ⟨key, ?_⟩
  intro B P fuel min_iter max_iter pfactor cheb_on tol_eig tol_x output_convergence time_base
    k s hmm h1 hU hc hbx hxd hfuel
  obtain ⟨t, ht, _⟩ := powerLoop_spec B P min_iter max_iter cheb_on tol_eig tol_x
    output_convergence time_base k hmm hU hc fuel 0 (loopEntry pfactor s) (by omega) (by omega)
  have hr := inversePowerIteration_ok B P fuel min_iter max_iter pfactor cheb_on tol_eig tol_x
    output_convergence time_base k s t hbx hxd (by omega) ht
  exact ⟨_, hr, key _ _ _ _ _ _ _ _ _ _ _ _ _ _ hr⟩

/-- Witness of C5: the run of three passes on the scenario with source integrals 2.0, 2.2,
2.31, 2.31 hands back the old solution `[7]` and the older solution `[8]`. -/
theorem C5_old_solutions_restored_witness :
    ∃ t, inversePowerIteration (Scenario.backend Scenario.nextB) (Scenario.params false none)
        300 1 300 (1 / 100) false (1 / 100) 1 false 0 KRef.eigenvalue
        (Scenario.executioner (Scenario.problem [2] 2 2) 1) = Except.ok t ∧
      restored (Scenario.executioner (Scenario.problem [2] 2 2) 1) t ∧
      t.problem.solutionOld = [7] ∧ t.problem.solutionOlder = [8] := by
  obtain ⟨t, ht, _⟩ := C5_old_solutions_restored.2 (Scenario.backend Scenario.nextB)
    (Scenario.params false none) 300 1 300 (1 / 100) false (1 / 100) 1 false 0 KRef.eigenvalue
    (Scenario.executioner (Scenario.problem [2] 2 2) 1)
    (by decide) (by decide) (by decide) (by decide) (Or.inl rfl) (Or.inl rfl) (by decide)
  have hr := C5_old_solutions_restored.1 _ _ _ _ _ _ _ _ _ _ _ _ _ t ht
  exact ⟨t, ht, hr, hr.1, hr.2.1⟩

/-- Claim C6.  `inversePowerIteration` ends in a `mooseError` if and only if `_bx_execflag` is
neither `EXEC_TIMESTEP` nor `EXEC_RESIDUAL` or `_xdiff_execflag` is neither of the two, for
every `max_iter` (0 included) and every other argument; the error is raised in the state of the
call, so before any solve and with `k`, `initial_res` and the solver controls unchanged.  And
`init`, when it returns outside recovery, has set `_bx_execflag` to the flag of `bx_norm` and
`_xdiff_execflag` to the flag of `xdiff`, or to `EXEC_TIMESTEP` when no `xdiff` is
configured. -/
theorem C6_wrong_execution_flag :
    (∀ (B : Backend) (P : InputParameters) (fuel min_iter max_iter : Nat) (pfactor : ℚ)
      (cheb_on : Bool) (tol_eig tol_x : ℚ) (output_convergence : Bool) (time_base : ℚ)
      (k : KRef) (s : EigenExecutionerBase),
      ((∃ e u, inversePowerIteration B P fuel min_iter max_iter pfactor cheb_on tol_eig tol_x
          output_convergence time_base k s = Except.error (Abort.mooseError e u)) ↔
        ((s.bx_execflag ≠ EXEC_TIMESTEP ∧ s.bx_execflag ≠ EXEC_RESIDUAL) ∨
          (s.xdiff_execflag ≠ EXEC_TIMESTEP ∧ s.xdiff_execflag ≠ EXEC_RESIDUAL))) ∧
      (((s.bx_execflag ≠ EXEC_TIMESTEP ∧ s.bx_execflag ≠ EXEC_RESIDUAL) ∨
          (s.xdiff_execflag ≠ EXEC_TIMESTEP ∧ s.xdiff_execflag ≠ EXEC_RESIDUAL)) →
        ∃ e, inversePowerIteration B P fuel min_iter max_iter pfactor cheb_on tol_eig tol_x
          output_convergence time_base k s = Except.error (Abort.mooseError e s))) ∧
    (∀ (B : Backend) (P : InputParameters) (s t : EigenExecutionerBase),
      B.isRecovering = false → init B P s = Except.ok t →
      t.bx_execflag = B.bx_execFlag ∧
        t.xdiff_execflag = if P.xdiff = true then B.xdiff_execFlag else EXEC_TIMESTEP) := by
  constructor
  · intro B P fuel min_iter max_iter pfactor cheb_on tol_eig tol_x output_convergence time_base
      k s
    rcases inversePowerIteration_cases B P fuel min_iter max_iter pfactor cheb_on tol_eig tol_x
      output_convergence time_base k s with
      ⟨hbad, e, he⟩ | ⟨⟨hbx, hxd⟩, ⟨_, h0⟩ | ⟨_, u, hu, h1⟩ | ⟨_, e, hp, he⟩⟩
    · exact ⟨⟨fun _ => hbad, fun _ => ⟨e, s, he⟩⟩, fun _ => ⟨e, he⟩⟩
    all_goals
      have hgood : ¬((s.bx_execflag ≠ EXEC_TIMESTEP ∧ s.bx_execflag ≠ EXEC_RESIDUAL) ∨
          (s.xdiff_execflag ≠ EXEC_TIMESTEP ∧ s.xdiff_execflag ≠ EXEC_RESIDUAL)) := by
        rcases hbx with h | h <;> rcases hxd with h' | h' <;> simp [h, h']
    · refine ⟨⟨?_, fun h => absurd h hgood⟩, fun h => absurd h hgood⟩
      rintro ⟨e, u, h⟩
      rw [h0] at h
      cases h
    · refine ⟨⟨?_, fun h => absurd h hgood⟩, fun h => absurd h hgood⟩
      rintro ⟨e, u, h⟩
      rw [h1] at h
      cases h
    · refine ⟨⟨?_, fun h => absurd h hgood⟩, fun h => absurd h hgood⟩
      rintro ⟨e', u, h⟩
      rw [he] at h
      cases h
      rcases powerLoop_abort _ _ _ _ _ _ _ _ _ _ _ _ _ _ hp with h | ⟨_, _, v, h⟩ <;> cases h
  · intro B P s t hrec h
    unfold init at h
    rw [hrec] at h
    simp only [Bool.false_eq_true, if_false] at h
    split at h
    · cases h
    · split at h
      · cases h
      · cases h
        have h1 := initScale_members B P (initSolution B P s)
        obtain ⟨_, _, _, _, h5, h6, _⟩ := h1
        rw [h5, h6]
        unfold initSolution captureExecFlags solution_diff
        cases P.xdiff <;> cases P.normalization <;> simp [computeUserObjects]

/-- Witness of C6: a source integral evaluated on `EXEC_CUSTOM` is refused with `max_iter = 0`,
and `init` without `xdiff` leaves `_xdiff_execflag` at `EXEC_TIMESTEP`. -/
theorem C6_wrong_execution_flag_witness :
    (∃ e, inversePowerIteration (Scenario.backend id) (Scenario.params false none) 0 0 0
        (1 / 100) false (1 / 100) 1 false 0 KRef.eigenvalue
        { Scenario.executioner (Scenario.problem [2] 2 2) 1 with bx_execflag := EXEC_CUSTOM } =
      Except.error (Abort.mooseError e
        { Scenario.executioner (Scenario.problem [2] 2 2) 1 with bx_execflag := EXEC_CUSTOM })) ∧
    (initScale (Scenario.backend id) (Scenario.params false none)
        (initSolution (Scenario.backend id) (Scenario.params false none)
          { Scenario.executioner (Scenario.problem [2] 2 2) 1 with
            xdiff_execflag := EXEC_CUSTOM })).xdiff_execflag = EXEC_TIMESTEP :=
  ⟨(C6_wrong_execution_flag.1 (Scenario.backend id) (Scenario.params false none) 0 0 0
      (1 / 100) false (1 / 100) 1 false 0 KRef.eigenvalue
      { Scenario.executioner (Scenario.problem [2] 2 2) 1 with bx_execflag := EXEC_CUSTOM }).2
      (Or.inl ⟨by decide, by decide⟩),
    (C6_wrong_execution_flag.2 (Scenario.backend id) (Scenario.params false none)
      { Scenario.executioner (Scenario.problem [2] 2 2) 1 with xdiff_execflag := EXEC_CUSTOM }
      _ rfl (by
        simp [init, checkIntegrity, initSolution, captureExecFlags, solution_diff,
          initSystemSolution, initialSetup, initSystemSolutionOld, computeUserObjects,
          FEProblem.computeUserObjects, FEProblem.inGroup, initFrom, source_integral,
          Scenario.backend, Scenario.params, Scenario.executioner, Scenario.problem, pure,
          Except.pure])).2⟩

/-- Claim C7.  `normalizeSolution(force)` returns `scaling = _normalization / factor`, where
`_normalization` is read after the optional forced evaluation and `factor` is the parameter
`normal_factor` when it is valid and `_eigenvalue` otherwise; when `scaling != 1` the solution
after the call is the solution before it with every degree of freedom of an eigen variable
multiplied by `scaling` and the other ones unchanged.  With `_normalization = 4`, no
`normal_factor` and `_eigenvalue = 2` it returns 2 and doubles the solution. -/
theorem C7_normalize_scale :
    (∀ (B : Backend) (P : InputParameters) (force : Bool) (s : EigenExecutionerBase),
      (normalizeSolution B P force s).1 =
        normalization P (if force = true then computeUserObjects B s.norm_execflag GROUP.ALL s
          else s) / P.normal_factor.getD s.eigenvalue ∧
      ((normalizeSolution B P force s).1 ≠ 1 →
        (normalizeSolution B P force s).2.problem.solution =
          scaleFrom B.eigen_var_indices (normalizeSolution B P force s).1 0 s.problem.solution ∧
        ∀ i : Nat, (normalizeSolution B P force s).2.problem.solution[i]? =
          (s.problem.solution[i]?).map
            (fun x => if B.eigen_var_indices i = true then x * (normalizeSolution B P force s).1
              else x))) ∧
    ((normalizeSolution (Scenario.backend id) (Scenario.params true none) false
        (Scenario.executioner (Scenario.problem [1, 3] 4 4) 2)).1 = 2 ∧
      (normalizeSolution (Scenario.backend id) (Scenario.params true none) false
        (Scenario.executioner (Scenario.problem [1, 3] 4 4) 2)).2.problem.solution = [2, 6]) := by
  refine ⟨?_, by decide!, by decide!⟩
  intro B P force s
  have h1 : (normalizeSolution B P force s).1 =
      normalization P (if force = true then computeUserObjects B s.norm_execflag GROUP.ALL s
        else s) / P.normal_factor.getD s.eigenvalue := by
    rw [normalizeSolution_eq]
    by_cases hc : normalization P (if force = true then
        computeUserObjects B s.norm_execflag GROUP.ALL s else s)
        / P.normal_factor.getD s.eigenvalue ≠ 1
    · rw [if_pos hc]
    · rw [if_neg hc]
  refine ⟨h1, fun hne => ?_⟩
  have h2 : (normalizeSolution B P force s).2.problem.solution =
      scaleFrom B.eigen_var_indices (normalizeSolution B P force s).1 0 s.problem.solution := by
    rw [h1] at hne ⊢
    rw [normalizeSolution_eq, if_pos hne]
    simp only [updateAll_solution]
    cases force <;> simp [scaleSystemSolution, computeUserObjects, FEProblem.computeUserObjects]
  refine ⟨h2, fun i => ?_⟩
  rw [h2, scaleFrom_getElem?]
  simp

/-- Witness of C7: degree of freedom 1 of the solution `[1, 3]`, scaled by 2. -/
theorem C7_normalize_scale_witness :
    (normalizeSolution (Scenario.backend id) (Scenario.params true none) false
      (Scenario.executioner (Scenario.problem [1, 3] 4 4) 2)).1 ≠ 1 ∧
    (normalizeSolution (Scenario.backend id) (Scenario.params true none) false
      (Scenario.executioner (Scenario.problem [1, 3] 4 4) 2)).2.problem.solution[1]? =
      ((Scenario.executioner (Scenario.problem [1, 3] 4 4) 2).problem.solution[1]?).map
        (fun x => if (Scenario.backend id).eigen_var_indices 1 = true then
          x * (normalizeSolution (Scenario.backend id) (Scenario.params true none) false
            (Scenario.executioner (Scenario.problem [1, 3] 4 4) 2)).1
          else x) :=
  ⟨by decide!,
    ((C7_normalize_scale.1 (Scenario.backend id) (Scenario.params true none) false
      (Scenario.executioner (Scenario.problem [1, 3] 4 4) 2)).2 (by decide!)).2 1⟩

/-- Claim C8, evaluated on the code.  The observer of the scenario backend (the sum of the
solution) is homogeneous of degree one and its stored value is current; with
`normal_factor = 4` and `|x| = 2`, `normalizeSolution` returns `2 / 4` and leaves a solution
whose `|x|` is `1`, not the `4` the parameter asks for. -/
theorem C8_normal_factor_missed :
    (∀ (c : ℚ) (p : FEProblem),
      (Scenario.backend id).normalization
          { p with solution := scaleFrom (Scenario.backend id).eigen_var_indices c 0 p.solution }
        = c * (Scenario.backend id).normalization p) ∧
    (Scenario.backend id).normalization (Scenario.problem [2] 2 2) = 2 ∧
    (normalizeSolution (Scenario.backend id) (Scenario.params true (some 4)) false
      (Scenario.executioner (Scenario.problem [2] 2 2) 1)).1 = 1 / 2 ∧
    (normalizeSolution (Scenario.backend id) (Scenario.params true (some 4)) false
      (Scenario.executioner (Scenario.problem [2] 2 2) 1)).2.problem.solution = [1] ∧
    (Scenario.backend id).normalization
      (normalizeSolution (Scenario.backend id) (Scenario.params true (some 4)) false
        (Scenario.executioner (Scenario.problem [2] 2 2) 1)).2.problem = 1 ∧
    normalization (Scenario.params true (some 4))
      (normalizeSolution (Scenario.backend id) (Scenario.params true (some 4)) false
        (Scenario.executioner (Scenario.problem [2] 2 2) 1)).2 = 1 := by
  refine ⟨?_, by decide!, by decide!, by decide!, by decide!, by decide!⟩
  intro c p
  simp only [Scenario.backend]
  exact scaleFrom_sum c p.solution 0

/-- Claim C9, evaluated on the code.  With `normal_factor = 6` and the solution `[1, 2]`, whose
`|x|` is `3`, a first `normalizeSolution(false)` returns `1 / 2`, and a second one right after
it returns `1 / 4`, not `1`, and scales the solution again. -/
theorem C9_second_call_rescales :
    (normalizeSolution (Scenario.backend id) (Scenario.params true (some 6)) false
      (Scenario.executioner (Scenario.problem [1, 2] 3 3) 1)).1 = 1 / 2 ∧
    (normalizeSolution (Scenario.backend id) (Scenario.params true (some 6)) false
      (normalizeSolution (Scenario.backend id) (Scenario.params true (some 6)) false
        (Scenario.executioner (Scenario.problem [1, 2] 3 3) 1)).2).1 = 1 / 4 ∧
    (normalizeSolution (Scenario.backend id) (Scenario.params true (some 6)) false
      (normalizeSolution (Scenario.backend id) (Scenario.params true (some 6)) false
        (Scenario.executioner (Scenario.problem [1, 2] 3 3) 1)).2).2.problem.solution
      = [1 / 8, 1 / 4] := by
  refine ⟨by decide!, by decide!, by decide!⟩

/-- Claim C10.  When the scaling that `normalizeSolution(force)` computes is exactly 1, the call
returns 1 and the state after it is the state after the optional forced evaluation of the
normalization postprocessor: the solution is not scaled and nothing is added to the log of
calls, so no auxiliary kernel and no user object is evaluated; with `force = false` the state is
the state of the call. -/
theorem C10_unit_scale_is_noop (B : Backend) (P : InputParameters) (force : Bool)
    (s : EigenExecutionerBase)
    (h : normalization P (if force = true then computeUserObjects B s.norm_execflag GROUP.ALL s
        else s) / P.normal_factor.getD s.eigenvalue = 1) :
    normalizeSolution B P force s =
      (1, if force = true then computeUserObjects B s.norm_execflag GROUP.ALL s else s) := by
  rw [normalizeSolution_eq, if_neg (by rw [h]; simp), h]

/-- Witness of C10: `_normalization = 2` and `_eigenvalue = 2` without `normal_factor`. -/
theorem C10_unit_scale_is_noop_witness :
    normalization (Scenario.params false none)
        (Scenario.executioner (Scenario.problem [2] 2 2) 2)
      / (Scenario.params false none).normal_factor.getD
        (Scenario.executioner (Scenario.problem [2] 2 2) 2).eigenvalue = 1 ∧
    normalizeSolution (Scenario.backend id) (Scenario.params false none) false
        (Scenario.executioner (Scenario.problem [2] 2 2) 2) =
      (1, Scenario.executioner (Scenario.problem [2] 2 2) 2) :=
  ⟨by decide!,
    C10_unit_scale_is_noop (Scenario.backend id) (Scenario.params false none) false
      (Scenario.executioner (Scenario.problem [2] 2 2) 2) (by decide!)⟩

/-! ## Lemmas on `init` and on the inactive branch of `chebyshev` -/

theorem init_cases (B : Backend) (P : InputParameters) (s : EigenExecutionerBase)
    (hr : B.isRecovering = false) (ht : B.containsTimeKernel = false) :
    init B P s =
      if source_integral (initSolution B P s) = 0 then
        Except.error (Abort.mooseError Fatal.zero_source (initSolution B P s))
      else Except.ok (initScale B P (initSolution B P s)) := by
  unfold init checkIntegrity
  rw [hr, ht]
  rfl

theorem initSolution_calls (B : Backend) (P : InputParameters) (s : EigenExecutionerBase) :
    ∀ c : ℚ, Call.scaleSystemSolution c ∈ (initSolution B P s).calls →
      Call.scaleSystemSolution c ∈ s.calls := by
  intro c
  unfold initSolution
  cases P.auto_initialization <;>
    simp [computeUserObjects, captureExecFlags, initSystemSolutionOld, initialSetup,
      initSystemSolution] <;>
    (split <;> split <;> simp)

theorem initSolution_eigenvalue (B : Backend) (P : InputParameters) (s : EigenExecutionerBase) :
    (initSolution B P s).eigenvalue = s.eigenvalue := by
  unfold initSolution
  cases P.auto_initialization <;>
    simp [computeUserObjects, captureExecFlags, initSystemSolutionOld, initialSetup,
      initSystemSolution] <;>
    (split <;> split <;> rfl)

theorem combineFrom_two_getElem? (eigen : Nat → Bool) (a b : ℚ) (old older : NumericVector) :
    ∀ (v : NumericVector) (j i : Nat),
      (combineFrom eigen [a, b] old older j v)[i]? =
        (v[i]?).map (fun x => if eigen (j + i) then x * a + old.getD (j + i) 0 * b else x) := by
  intro v
  induction v with
  | nil => intro j i; simp [combineFrom]
  | cons x xs ih =>
    intro j i
    cases i with
    | zero => simp [combineFrom]
    | succ n =>
      simp only [combineFrom, List.getElem?_cons_succ]
      rw [ih (j + 1) n]
      have : j + 1 + n = j + (n + 1) := by omega
      rw [this]

theorem refreshAfterCombine_solution (B : Backend) (s : EigenExecutionerBase) :
    (refreshAfterCombine B s).problem.solution = s.problem.solution ∧
    (refreshAfterCombine B s).chebyshev_parameters = s.chebyshev_parameters := by
  simp [refreshAfterCombine, computeUserObjects, computeAuxiliaryKernels,
    FEProblem.computeUserObjects]

theorem chebyshevInactive_arm (B : Backend) (P : InputParameters) (iter : Nat)
    (s : EigenExecutionerBase) (hx : P.xdiff = true) (ha : arms iter s) :
    chebyshevInactive B P iter s =
      Except.ok
        { refreshAfterCombine B (combineSystemSolution B
            [2 / (2 - inactiveRatio s), 1 - 2 / (2 - inactiveRatio s)]
            (setCheb { s.chebyshev_parameters with
              ratio := inactiveRatio s, icho := 0, lgac := 1, icheb := 1
              error_begin := s.problem.xdiff, iter_begin := iter } s)) with
          eigenvalue := source_integral (refreshAfterCombine B (combineSystemSolution B
            [2 / (2 - inactiveRatio s), 1 - 2 / (2 - inactiveRatio s)]
            (setCheb { s.chebyshev_parameters with
              ratio := inactiveRatio s, icho := 0, lgac := 1, icheb := 1
              error_begin := s.problem.xdiff, iter_begin := iter } s))) } := by
  unfold arms inactiveRatio at ha
  unfold chebyshevInactive inactiveRatio
  simp only [deref_ok P hx, bind, Except.bind, pure, Except.pure]
  by_cases h0 : s.chebyshev_parameters.icho = 0
  · simp only [h0, if_true] at ha ⊢
    simp only [setCheb]
    rw [if_pos ha]
  · simp only [h0, if_false] at ha ⊢
    simp only [setCheb]
    rw [if_pos ha]

theorem chebyshevInactive_stay (B : Backend) (P : InputParameters) (iter : Nat)
    (s : EigenExecutionerBase) (hx : P.xdiff = true) (ha : ¬arms iter s) :
    chebyshevInactive B P iter s =
      Except.ok (setCheb { s.chebyshev_parameters with
        ratio := inactiveRatio s, icho := 0 } s) := by
  unfold arms inactiveRatio at ha
  unfold chebyshevInactive inactiveRatio
  simp only [deref_ok P hx, bind, Except.bind, pure, Except.pure]
  by_cases h0 : s.chebyshev_parameters.icho = 0
  · simp only [h0, if_true] at ha ⊢
    simp only [setCheb]
    rw [if_neg ha]
  · simp only [h0, if_false] at ha ⊢
    simp only [setCheb]
    rw [if_neg ha]

theorem chebyshev_of_inactive (B : Backend) (P : InputParameters) (iter : Nat)
    (s u : EigenExecutionerBase) (hx : P.xdiff = true) (hl : s.chebyshev_parameters.lgac = 0)
    (h : chebyshevInactive B P iter s = Except.ok u) :
    chebyshev B P iter s =
      Except.ok (setCheb { u.chebyshev_parameters with flux_error_norm_old := u.problem.xdiff }
        u) := by
  rw [chebyshev_eq, if_pos hl, h]
  exact (bind_eq_ok _ _ _).2 ⟨_, rfl, (bind_eq_ok _ _ _).2 ⟨_, deref_ok P hx _, rfl⟩⟩

/-! ## The claims on `init`, on the divisions and on the inactive accelerator -/

/-- Claim C12, as the code has it: `init()` called while the application is recovering returns
at once without a fatal error, in the state it was called in; none of the initialization steps
is performed (the call log is the one of the call). -/
theorem C12_init_recovering (B : Backend) (P : InputParameters) (s : EigenExecutionerBase)
    (h : B.isRecovering = true) : init B P s = Except.ok s := by
  unfold init
  rw [if_pos h]

/-- Witness of C12: a recovering application with the solution `[2]`. -/
theorem C12_init_recovering_witness :
    init { Scenario.backend id with isRecovering := true } (Scenario.params false none)
        (Scenario.executioner (Scenario.problem [2] 2 2) 1) =
      Except.ok (Scenario.executioner (Scenario.problem [2] 2 2) 1) :=
  C12_init_recovering { Scenario.backend id with isRecovering := true }
    (Scenario.params false none) (Scenario.executioner (Scenario.problem [2] 2 2) 1) rfl

/-- Counterexample to C12 as stated: for a recovering application with a time kernel and a zero
source integral, `init()` does not end in any fatal error: it returns, and no call was made. -/
theorem C12_recovering_is_not_fatal :
    (∀ (e : Fatal) (u : EigenExecutionerBase),
      init { Scenario.backend id with isRecovering := true, containsTimeKernel := true }
        (Scenario.params false none) (Scenario.executioner (Scenario.problem [0] 0 0) 1) ≠
      Except.error (Abort.mooseError e u)) ∧
    (init { Scenario.backend id with isRecovering := true, containsTimeKernel := true }
        (Scenario.params false none)
        (Scenario.executioner (Scenario.problem [0] 0 0) 1)).toOption.map (fun t => t.calls) =
      some [] := by
  have h : init { Scenario.backend id with isRecovering := true, containsTimeKernel := true }
        (Scenario.params false none) (Scenario.executioner (Scenario.problem [0] 0 0) 1) =
      Except.ok (Scenario.executioner (Scenario.problem [0] 0 0) 1) := rfl
  refine ⟨fun e u hc => ?_, ?_⟩
  · rw [h] at hc
    cases hc
  · rw [h]
    rfl

/-- Claim C13: `init()` of an application that is not recovering and has no time kernel ends in
a fatal error if and only if the source integral is 0 after the refresh of the observers; when
it is not 0 the eigen variables of the solution are scaled by `eigenvalue / source_integral`, and
when it is 0 the error is raised in the state after the refresh, with no scaling call made. -/
theorem C13_zero_source_integral (B : Backend) (P : InputParameters) (s : EigenExecutionerBase)
    (hr : B.isRecovering = false) (ht : B.containsTimeKernel = false) :
    ((∃ e u, init B P s = Except.error (Abort.mooseError e u)) ↔
      source_integral (initSolution B P s) = 0) ∧
    (source_integral (initSolution B P s) ≠ 0 →
      init B P s = Except.ok (initScale B P (initSolution B P s)) ∧
      initScale B P (initSolution B P s) =
        outputInitialCondition P (onTimestepEnd B (updateAll B exec_types
          (scaleSystemSolution B
            ((initSolution B P s).eigenvalue / source_integral (initSolution B P s))
            (initSolution B P s)))) ∧
      (scaleSystemSolution B
          ((initSolution B P s).eigenvalue / source_integral (initSolution B P s))
          (initSolution B P s)).problem.solution =
        scaleFrom B.eigen_var_indices
          ((initSolution B P s).eigenvalue / source_integral (initSolution B P s)) 0
          (initSolution B P s).problem.solution ∧
      (initSolution B P s).eigenvalue = s.eigenvalue) ∧
    (source_integral (initSolution B P s) = 0 →
      init B P s = Except.error (Abort.mooseError Fatal.zero_source (initSolution B P s)) ∧
      ∀ c : ℚ, Call.scaleSystemSolution c ∈ (initSolution B P s).calls →
        Call.scaleSystemSolution c ∈ s.calls) := by
  have hi := init_cases B P s hr ht
  refine ⟨?_, ?_, ?_⟩
  · constructor
    · rintro ⟨e, u, h⟩
      by_contra hne
      rw [hi, if_neg hne] at h
      cases h
    · intro h0
      rw [hi, if_pos h0]
      exact ⟨_, _, rfl⟩
  · intro hne
    exact ⟨by rw [hi, if_neg hne], rfl, rfl, initSolution_eigenvalue B P s⟩
  · intro h0
    exact ⟨by rw [hi, if_pos h0], initSolution_calls B P s⟩

/-- Witness of C13: with the solution `[0]` and no automatic initialization the source integral
is 0 and `init()` ends in the fatal error. -/
theorem C13_zero_source_integral_witness :
    (Scenario.backend id).isRecovering = false ∧
    (Scenario.backend id).containsTimeKernel = false ∧
    ∃ e u, init (Scenario.backend id)
      { Scenario.params false none with auto_initialization := false }
      (Scenario.executioner (Scenario.problem [0] 0 0) 1) =
        Except.error (Abort.mooseError e u) :=
  ⟨rfl, rfl,
    (C13_zero_source_integral (Scenario.backend id)
      { Scenario.params false none with auto_initialization := false }
      (Scenario.executioner (Scenario.problem [0] 0 0) 1) rfl rfl).1.2 (by decide!)⟩

/-- Claim C14, as the code has it: only `init()` guards its division.  The fatal errors of
`inversePowerIteration` are the two checks of the execution flags at its entry; a pass that
reaches the eigenvalue update with `source_integral_old = 0` performs the division and goes on
(the quotient is written `/ 0` here; in the program it is an infinity or a NaN), and
`normalizeSolution` called with `factor = 0` returns the quotient `normalization / 0`. -/
theorem C14_unguarded_divisions :
    (∀ (B : Backend) (P : InputParameters) (fuel min_iter max_iter : Nat) (pfactor : ℚ)
      (cheb_on : Bool) (tol_eig tol_x : ℚ) (output_convergence : Bool) (time_base : ℚ)
      (k : KRef) (s u : EigenExecutionerBase) (e : Fatal),
      inversePowerIteration B P fuel min_iter max_iter pfactor cheb_on tol_eig tol_x
          output_convergence time_base k s = Except.error (Abort.mooseError e u) →
        (e = Fatal.bx_execflag ∨ e = Fatal.xdiff_execflag) ∧ u = s) ∧
    (∀ (B : Backend) (P : InputParameters) (min_iter max_iter : Nat) (tol_eig tol_x : ℚ)
      (output_convergence : Bool) (time_base : ℚ) (k : KRef) (iter : Nat)
      (s : EigenExecutionerBase),
      source_integral_old (powerStep B (updateMaterials B (copyOldSolutions s))) = 0 →
      ∃ t b, iteration B P min_iter max_iter false tol_eig tol_x output_convergence time_base
          k iter s = Except.ok (t, b) ∧
        read_k k t = read_k k s *
          source_integral (powerStep B (updateMaterials B (copyOldSolutions s))) / 0) ∧
    (∀ (B : Backend) (P : InputParameters) (force : Bool) (s : EigenExecutionerBase),
      P.normal_factor.getD s.eigenvalue = 0 →
      (normalizeSolution B P force s).1 =
        normalization P (if force = true then computeUserObjects B s.norm_execflag GROUP.ALL s
          else s) / 0) := by
  refine ⟨?_, ?_, ?_⟩
  · intro B P fuel min_iter max_iter pfactor cheb_on tol_eig tol_x output_convergence time_base
      k s u e h
    rcases inversePowerIteration_cases B P fuel min_iter max_iter pfactor cheb_on tol_eig tol_x
      output_convergence time_base k s with
      ⟨hbad, e', he⟩ | ⟨_, ⟨_, h0⟩ | ⟨_, t, _, h1⟩ | ⟨_, e', hp, he⟩⟩
    · have h2 : inversePowerIteration B P fuel min_iter max_iter pfactor cheb_on tol_eig tol_x
          output_convergence time_base k s =
          if s.bx_execflag ≠ EXEC_TIMESTEP ∧ s.bx_execflag ≠ EXEC_RESIDUAL then
            Except.error (Abort.mooseError Fatal.bx_execflag s)
          else Except.error (Abort.mooseError Fatal.xdiff_execflag s) := by
        unfold inversePowerIteration
        split
        · rfl
        · rcases hbad with hb | hb
          · contradiction
          · rw [if_pos hb]
      rw [h2] at h
      split at h
      · cases h
        exact ⟨Or.inl rfl, rfl⟩
      · cases h
        exact ⟨Or.inr rfl, rfl⟩
    · rw [h0] at h
      cases h
    · rw [h1] at h
      cases h
    · rw [he] at h
      cases h
      rcases powerLoop_abort _ _ _ _ _ _ _ _ _ _ _ _ _ _ hp with h | ⟨_, _, v, h⟩ <;> cases h
  · intro B P min_iter max_iter tol_eig tol_x output_convergence time_base k iter s h0
    obtain ⟨t, b, ht⟩ := iteration_ok B P min_iter max_iter false tol_eig tol_x
      output_convergence time_base k iter s (by simp)
    refine ⟨t, b, ht, ?_⟩
    rw [iteration_eq, bind_eq_ok] at ht
    obtain ⟨u, hu, ht⟩ := ht
    have hu' : u = updateEigenvalue k iter (read_k k s)
        (powerStep B (updateMaterials B (copyOldSolutions s))) := by
      simp only [accelerate, Bool.false_eq_true, if_false, pure, Except.pure] at hu
      cases hu
      rfl
    have hk : read_k k u = read_k k s *
        source_integral (powerStep B (updateMaterials B (copyOldSolutions s))) / 0 := by
      rw [hu', ← h0]
      simp only [updateEigenvalue]
      cases k <;> split <;> simp [read_k, write_k, source_integral, source_integral_old]
    have ht := Except.ok.inj ht
    split at ht
    · rw [Prod.mk.injEq] at ht
      rw [← ht.1, hk]
    · rw [Prod.mk.injEq] at ht
      rw [← ht.1, (dumpHistory_read _ _ _ _ _ _).1, hk]
  · intro B P force s h0
    rw [← h0]
    rw [normalizeSolution_eq]
    by_cases hc : normalization P (if force = true then
        computeUserObjects B s.norm_execflag GROUP.ALL s else s)
        / P.normal_factor.getD s.eigenvalue ≠ 1
    · rw [if_pos hc]
    · rw [if_neg hc]

/-- Witness of C14: `normalizeSolution` with `_eigenvalue = 0` and no `normal_factor`. -/
theorem C14_unguarded_divisions_witness :
    (Scenario.params false none).normal_factor.getD
        (Scenario.executioner (Scenario.problem [2] 2 2) 0).eigenvalue = 0 ∧
    (normalizeSolution (Scenario.backend id) (Scenario.params false none) false
        (Scenario.executioner (Scenario.problem [2] 2 2) 0)).1 =
      normalization (Scenario.params false none)
        (Scenario.executioner (Scenario.problem [2] 2 2) 0) / 0 :=
  ⟨by decide!,
    C14_unguarded_divisions.2.2 (Scenario.backend id) (Scenario.params false none) false
      (Scenario.executioner (Scenario.problem [2] 2 2) 0) (by decide!)⟩

/-- Counterexample to C14 as stated: a run of `inversePowerIteration` whose first pass updates
the eigenvalue with `source_integral_old = 0` returns after its solve instead of failing, and
`normalizeSolution` with `_eigenvalue = 0` scales the solution by the quotient `2 / 0`. -/
theorem C14_division_by_zero_is_performed :
    source_integral_old (powerStep (Scenario.backend id)
      (updateMaterials (Scenario.backend id)
        (copyOldSolutions (Scenario.executioner (Scenario.problem [2] 0 0) 1)))) = 0 ∧
    (inversePowerIteration (Scenario.backend id) (Scenario.params false none) 1 1 1 (1 / 100)
        false (1 / 100) 1 false 0 KRef.eigenvalue
        (Scenario.executioner (Scenario.problem [2] 0 0) 1)).toOption.map
      (fun t => solves t) = some 1 ∧
    (Scenario.params false none).normal_factor.getD
        (Scenario.executioner (Scenario.problem [2] 2 2) 0).eigenvalue = 0 ∧
    Call.scaleSystemSolution (2 / 0) ∈
      (normalizeSolution (Scenario.backend id) (Scenario.params false none) false
        (Scenario.executioner (Scenario.problem [2] 2 2) 0)).2.calls := by
  refine ⟨by decide!, by decide!, by decide!, by decide!⟩

/-- Claim C20: a call `chebyshev(iter)` in the inactive state (`lgac = 0`, with an observer of
the solution difference) returns; it works with `ratio = solution_diff / flux_error_norm_old`, or
with `ratio_new` when the hold flag `icho` is set, and clears `icho`; it arms if and only if
`iter > finit` and `0.4 <= ratio <= 1`.  When it arms, `lgac = 1`, `icheb = 1`,
`error_begin = solution_diff`, `iter_begin = iter`, every eigen-variable entry of the solution is
`alpha * current + (1 - alpha) * old` with `alpha = 2 / (2 - ratio)`, and the eigenvalue is the
source integral after the refresh; when it does not arm, `lgac`, `icheb`, the solution and the
eigenvalue are unchanged. -/
theorem C20_chebyshev_inactive (B : Backend) (P : InputParameters) (iter : Nat)
    (s : EigenExecutionerBase) (hx : P.xdiff = true) (hl : s.chebyshev_parameters.lgac = 0) :
    ∃ t, chebyshev B P iter s = Except.ok t ∧
      t.chebyshev_parameters.ratio = inactiveRatio s ∧
      t.chebyshev_parameters.icho = 0 ∧
      (t.chebyshev_parameters.lgac = 1 ↔ arms iter s) ∧
      (arms iter s →
        t.chebyshev_parameters.lgac = 1 ∧ t.chebyshev_parameters.icheb = 1 ∧
        t.chebyshev_parameters.error_begin = s.problem.xdiff ∧
        t.chebyshev_parameters.iter_begin = iter ∧
        t.problem.solution =
          combineFrom B.eigen_var_indices
            [2 / (2 - inactiveRatio s), 1 - 2 / (2 - inactiveRatio s)]
            s.problem.solutionOld s.problem.solutionOlder 0 s.problem.solution ∧
        (∀ i : Nat, t.problem.solution[i]? =
          (s.problem.solution[i]?).map (fun x =>
            if B.eigen_var_indices i = true then
              x * (2 / (2 - inactiveRatio s))
                + s.problem.solutionOld.getD i 0 * (1 - 2 / (2 - inactiveRatio s))
            else x)) ∧
        t.eigenvalue = source_integral t) ∧
      (¬arms iter s →
        t.chebyshev_parameters.lgac = 0 ∧
        t.chebyshev_parameters.icheb = s.chebyshev_parameters.icheb ∧
        t.problem.solution = s.problem.solution ∧ t.eigenvalue = s.eigenvalue) := by
  by_cases ha : arms iter s
  · have h1 := chebyshevInactive_arm B P iter s hx ha
    refine ⟨_, chebyshev_of_inactive B P iter s _ hx hl h1, ?_⟩
    · simp only [setCheb, (refreshAfterCombine_solution B _).1,
        (refreshAfterCombine_solution B _).2, combineSystemSolution, source_integral]
      refine ⟨trivial, trivial, ⟨fun _ => ha, fun _ => trivial⟩, fun _ => ?_,
        fun hn => absurd ha hn⟩
      refine ⟨trivial, trivial, trivial, trivial, trivial, fun i => ?_, trivial⟩
      rw [combineFrom_two_getElem?]
      simp
  · have h1 := chebyshevInactive_stay B P iter s hx ha
    refine ⟨_, chebyshev_of_inactive B P iter s _ hx hl h1, ?_⟩
    · simp only [setCheb]
      refine ⟨trivial, trivial, ⟨fun h => ?_, fun h => absurd h ha⟩, fun h => absurd h ha,
        fun _ => ⟨hl, trivial, trivial, trivial⟩⟩
      rw [hl] at h
      cases h

/-- Witness of C20: at `iter = 7 > finit = 6` with `solution_diff = 1/2` and
`flux_error_norm_old = 1` the ratio is `1/2` and the call arms. -/
theorem C20_chebyshev_inactive_witness :
    ({ Scenario.params false none with xdiff := true } : InputParameters).xdiff = true ∧
    Scenario.inactive.chebyshev_parameters.lgac = 0 ∧
    arms 7 Scenario.inactive ∧
    ∃ t, chebyshev (Scenario.backend id) { Scenario.params false none with xdiff := true } 7
        Scenario.inactive = Except.ok t ∧
      t.chebyshev_parameters.lgac = 1 := by
  have ha : arms 7 Scenario.inactive := ⟨by decide, by decide!, by decide!⟩
  obtain ⟨t, h, _, _, h3, _⟩ := C20_chebyshev_inactive (Scenario.backend id)
    { Scenario.params false none with xdiff := true } 7 Scenario.inactive rfl rfl
  exact ⟨rfl, rfl, ha, t, h, h3.2 ha⟩

end EigenExecutionerBase

namespace InversePowerMethod

open EigenExecutionerBase

/-! ## The claim on the final output of `execute` -/

/-- Claim C11, as the code has it: in `execute` the final output step is made exactly when
`output_on_final` is set or the scale factor `s` returned by `normalizeSolution` has
`|s - 1| > epsilon`, the machine epsilon: then `outputStep` for the step `FINAL` is the last
call, and otherwise `execute` ends in the state `normalizeSolution` left, with no output. -/
theorem C11_final_output (B : Backend) (P : InputParameters) (I : InversePowerMethod)
    (s : EigenExecutionerBase) :
    (∀ (fuel : Nat) (u : EigenExecutionerBase), executeSolve B P I fuel s = Except.ok u →
      execute B P I fuel s = Except.ok (executeFinish B P I u)) ∧
    (I.output_on_final = true ∨
        |(normalizeSolution B P (forceNormalization s) s).1 - 1| > REAL_EPSILON →
      (executeFinish B P I s).calls =
        Call.outputStep (I.FINAL : ℚ) ::
          (normalizeSolution B P (forceNormalization s) s).2.calls) ∧
    (I.output_on_final = false →
      |(normalizeSolution B P (forceNormalization s) s).1 - 1| ≤ REAL_EPSILON →
      executeFinish B P I s = (normalizeSolution B P (forceNormalization s) s).2) := by
  refine ⟨?_, ?_, ?_⟩
  · intro fuel u h
    unfold execute
    rw [h]
  · intro h
    unfold executeFinish
    simp only [if_pos h]
    rfl
  · intro h1 h2
    unfold executeFinish
    have : ¬(I.output_on_final = true ∨
        |(normalizeSolution B P (forceNormalization s) s).1 - 1| > REAL_EPSILON) := by
      rintro (h | h)
      · rw [h1] at h
        cases h
      · exact absurd h2 (not_le.mpr h)
    simp only [if_neg this]

/-- Witness of C11: with `output_on_final` set the final output is the last call. -/
theorem C11_final_output_witness :
    (Scenario.method 0 true).output_on_final = true ∧
    (executeFinish (Scenario.backend id) (Scenario.params true none) (Scenario.method 0 true)
        (Scenario.executioner (Scenario.problem [2] 2 2) 2)).calls =
      Call.outputStep ((Scenario.method 0 true).FINAL : ℚ) ::
        (normalizeSolution (Scenario.backend id) (Scenario.params true none)
          (forceNormalization (Scenario.executioner (Scenario.problem [2] 2 2) 2))
          (Scenario.executioner (Scenario.problem [2] 2 2) 2)).2.calls :=
  ⟨rfl,
    (C11_final_output (Scenario.backend id) (Scenario.params true none) (Scenario.method 0 true)
      (Scenario.executioner (Scenario.problem [2] 2 2) 2)).2.1 (Or.inl rfl)⟩

/-- Counterexample to C11 as stated: with `max_power_iterations = 0`, `output_on_final` unset,
the solution `[1 + 2^-52]` and `_eigenvalue = 1`, `normalizeSolution` returns
`s = 1 + 2^-52`, which is not 1, and rescales the solution by it, and `execute` makes no final
output (`FINAL` is step 2). -/
theorem C11_rescale_without_final_output :
    (execute (Scenario.backend id) (Scenario.params true none) (Scenario.method 0 false) 0
        (Scenario.executioner (Scenario.problem [1 + 1 / 2 ^ 52] 0 0) 1)).toOption.map
      (fun t => (decide (Call.scaleSystemSolution (1 + 1 / 2 ^ 52) ∈ t.calls),
        decide (Call.outputStep 2 ∈ t.calls), t.problem.solution))
      = some (true, false, [(1 + 1 / 2 ^ 52) * (1 + 1 / 2 ^ 52)]) ∧
    (1 + 1 / 2 ^ 52 : ℚ) ≠ 1 := by
  refine ⟨by decide!, by decide!⟩

end InversePowerMethod

namespace TransientMultiApp


/-! ## Lemmas on the transfers and on `computeDT` -/

theorem interpolateFrom_getElem? (dofs : List Nat) (p : ℚ)
    (transfer_old transfer : NumericVector) :
    ∀ (v : NumericVector) (j d : Nat),
      (interpolateFrom dofs p transfer_old transfer j v)[d]? =
        (v[d]?).map (fun x =>
          if j + d ∈ dofs then
            transfer_old.getD (j + d) 0 * (1 - p) + transfer.getD (j + d) 0 * p
          else x) := by
  intro v
  induction v with
  | nil => intro j d; simp [interpolateFrom]
  | cons x xs ih =>
    intro j d
    cases d with
    | zero => simp [interpolateFrom]
    | succ n =>
      simp only [interpolateFrom, List.getElem?_cons_succ]
      rw [ih (j + 1) n]
      have : j + 1 + n = j + (n + 1) := by omega
      rw [this]

theorem smallestDT_le_init (B : TransientBackend) :
    ∀ (apps : List Transient) (d : ℚ), (smallestDT B apps d).1 ≤ d := by
  intro apps
  induction apps with
  | nil => intro d; exact le_refl _
  | cons ex rest ih =>
    intro d
    simp only [smallestDT]
    exact le_trans (ih _) (min_le_right _ _)

theorem smallestDT_le (B : TransientBackend) :
    ∀ (apps : List Transient) (d : ℚ) (ex : Transient), ex ∈ apps →
      (smallestDT B apps d).1 ≤ (B.computeDT ex).dt := by
  intro apps
  induction apps with
  | nil => intro d ex h; cases h
  | cons a rest ih =>
    intro d ex h
    simp only [smallestDT]
    rcases List.mem_cons.1 h with h | h
    · rw [h]
      exact le_trans (smallestDT_le_init B rest _) (min_le_left _ _)
    · exact ih _ ex h

theorem smallestDT_mem (B : TransientBackend) :
    ∀ (apps : List Transient) (d : ℚ),
      (smallestDT B apps d).1 = d ∨
        ∃ ex ∈ apps, (smallestDT B apps d).1 = (B.computeDT ex).dt := by
  intro apps
  induction apps with
  | nil => intro d; exact Or.inl rfl
  | cons a rest ih =>
    intro d
    simp only [smallestDT]
    rcases ih (min (B.computeDT a).dt d) with h | ⟨ex, hex, h⟩
    · rw [h]
      rcases min_choice (B.computeDT a).dt d with h1 | h1
      · exact Or.inr ⟨a, List.mem_cons_self _ _, h1⟩
      · exact Or.inl h1
    · exact Or.inr ⟨ex, List.mem_cons_of_mem _ hex, h⟩

theorem smallestDT_apps (B : TransientBackend) :
    ∀ (apps : List Transient) (d : ℚ), (smallestDT B apps d).2 = apps.map B.computeDT := by
  intro apps
  induction apps with
  | nil => intro d; rfl
  | cons a rest ih =>
    intro d
    simp only [smallestDT, List.map_cons]
    rw [ih]

/-! ## The claims on the transfers and on `computeDT` -/

/-- Claim C19: in sub-cycling mode with `interpolate_transfers` the sub-step of a pass is taken
after `computeDT` on the interpolated auxiliary solution: every transferred degree of freedom
`d` is `transfer_old(d) * (1 - p) + transfer(d) * p` with
`p = (time + offset + dt - time_old) / (target_time - time_old)`, hence `transfer_old(d)` when
`p = 0` and `transfer(d)` when `p = 1`; the other degrees of freedom, the two transfer vectors,
the time and the step keep their value. -/
theorem C19_interpolated_transfers (B : TransientBackend) (Q : TransientMultiAppParameters)
    (app_time_offset time_old target_time : ℚ) (m : TransientMultiApp) (ex : Transient) :
    (Q.interpolate_transfers = true →
      subCycleSolve B Q app_time_offset time_old target_time m ex =
        B.takeStep none
          (interpolateTransfers app_time_offset time_old target_time m (B.computeDT ex))) ∧
    step_percent app_time_offset time_old target_time ex =
      (ex.time + app_time_offset + ex.dt - time_old) / (target_time - time_old) ∧
    (∀ d : Nat,
      (interpolateTransfers app_time_offset time_old target_time m ex).solution[d]? =
        (ex.solution[d]?).map (fun x =>
          if d ∈ m.transferred_dofs then
            ex.transfer_old.getD d 0 * (1 - step_percent app_time_offset time_old target_time ex)
              + ex.transfer.getD d 0 * step_percent app_time_offset time_old target_time ex
          else x)) ∧
    (∀ d : Nat, d ∈ m.transferred_dofs → d < ex.solution.length →
      (step_percent app_time_offset time_old target_time ex = 0 →
        (interpolateTransfers app_time_offset time_old target_time m ex).solution[d]? =
          some (ex.transfer_old.getD d 0)) ∧
      (step_percent app_time_offset time_old target_time ex = 1 →
        (interpolateTransfers app_time_offset time_old target_time m ex).solution[d]? =
          some (ex.transfer.getD d 0))) ∧
    (∀ d : Nat, d ∉ m.transferred_dofs →
      (interpolateTransfers app_time_offset time_old target_time m ex).solution[d]? =
        ex.solution[d]?) ∧
    (interpolateTransfers app_time_offset time_old target_time m ex).transfer = ex.transfer ∧
    (interpolateTransfers app_time_offset time_old target_time m ex).transfer_old =
      ex.transfer_old ∧
    (interpolateTransfers app_time_offset time_old target_time m ex).time = ex.time ∧
    (interpolateTransfers app_time_offset time_old target_time m ex).dt = ex.dt := by
  have hg : ∀ d : Nat,
      (interpolateTransfers app_time_offset time_old target_time m ex).solution[d]? =
        (ex.solution[d]?).map (fun x =>
          if d ∈ m.transferred_dofs then
            ex.transfer_old.getD d 0 * (1 - step_percent app_time_offset time_old target_time ex)
              + ex.transfer.getD d 0 * step_percent app_time_offset time_old target_time ex
          else x) := by
    intro d
    simp only [interpolateTransfers]
    rw [interpolateFrom_getElem?]
    simp
  refine ⟨?_, rfl, hg, ?_, ?_, rfl, rfl, rfl, rfl⟩
  · intro h
    simp only [subCycleSolve, h, if_true]
  · intro d hd hl
    have hs : ex.solution[d]? = some (ex.solution[d]) := List.getElem?_eq_getElem hl
    constructor
    · intro hp
      rw [hg, hs, hp]
      simp [hd]
    · intro hp
      rw [hg, hs, hp]
      simp [hd]
  · intro d hd
    rw [hg]
    cases ex.solution[d]? <;> simp [hd]

/-- Witness of C19: half way to the target the transferred entry 1 of the solution `[0, 0]` is
the mean 7 of `transfer_old(1) = 6` and `transfer(1) = 8`, and entry 0 keeps its value. -/
theorem C19_interpolated_transfers_witness :
    (1 : Nat) ∈
      ({ Scenario.multiapp with transferred_dofs := [1] } : TransientMultiApp).transferred_dofs ∧
    step_percent 0 0 2 (Scenario.app 1) = 1 / 2 ∧
    (interpolateTransfers 0 0 2 { Scenario.multiapp with transferred_dofs := [1] }
      (Scenario.app 1)).solution = [0, 7] ∧
    (interpolateTransfers 0 0 2 { Scenario.multiapp with transferred_dofs := [1] }
      (Scenario.app 1)).transfer = (Scenario.app 1).transfer :=
  ⟨by decide, by decide!, by decide!,
    (C19_interpolated_transfers (Scenario.stepper 1) (Scenario.multiParams true false 0 2) 0 0 2
      { Scenario.multiapp with transferred_dofs := [1] } (Scenario.app 1)).2.2.2.2.2.1⟩

/-- Claim C17: `computeDT` returns the largest finite real when `sub_cycling` or
`tolerate_failure` is set; otherwise it returns the global reduction of the local minimum, which
is at most the real maximum and at most the step of every local sub-application after its own
`computeDT`, is the step of one of them when there is one (and none exceeds the largest real),
and is the largest real when there is none. -/
theorem C17_computeDT (B : TransientBackend) (Q : TransientMultiAppParameters)
    (apps : List Transient) (m : TransientMultiApp) :
    (Q.sub_cycling = true ∨ Q.tolerate_failure = true → (computeDT B Q apps m).1 = REAL_MAX) ∧
    (Q.sub_cycling = false → Q.tolerate_failure = false →
      (computeDT B Q apps m).1 = B.parallel_min (localDT B apps m).1) ∧
    (localDT B apps m).1 ≤ REAL_MAX ∧
    (m.has_an_app = true → ∀ ex ∈ apps, (localDT B apps m).1 ≤ (B.computeDT ex).dt) ∧
    (m.has_an_app = true → apps ≠ [] → (∀ ex ∈ apps, (B.computeDT ex).dt ≤ REAL_MAX) →
      ∃ ex ∈ apps, (localDT B apps m).1 = (B.computeDT ex).dt) ∧
    (m.has_an_app = false ∨ apps = [] → (localDT B apps m).1 = REAL_MAX) := by
  refine ⟨?_, ?_, ?_, ?_, ?_, ?_⟩
  · intro h
    unfold computeDT
    by_cases hs : Q.sub_cycling = true
    · rw [if_pos hs]
    · rw [if_neg hs]
      rcases h with h | h
      · exact absurd h hs
      · simp only [h, if_true]
  · intro hs ht
    unfold computeDT
    simp [hs, ht]
  · unfold localDT
    split
    · exact smallestDT_le_init B apps REAL_MAX
    · exact le_refl _
  · intro h ex hex
    unfold localDT
    rw [if_pos h]
    exact smallestDT_le B apps REAL_MAX ex hex
  · intro h hne hall
    unfold localDT
    rw [if_pos h]
    rcases smallestDT_mem B apps REAL_MAX with h1 | h1
    · cases apps with
      | nil => exact absurd rfl hne
      | cons a rest =>
        refine ⟨a, List.mem_cons_self _ _, ?_⟩
        exact le_antisymm (smallestDT_le B _ REAL_MAX a (List.mem_cons_self _ _))
          (by rw [h1]; exact hall a (List.mem_cons_self _ _))
    · exact h1
  · intro h
    unfold localDT
    rcases h with h | h
    · simp [h]
    · rw [h]
      split <;> rfl

/-- Witness of C17: two sub-applications that want the steps 3 and 2 give 2. -/
theorem C17_computeDT_witness :
    (Scenario.multiParams false false 0 2).sub_cycling = false ∧
    (Scenario.multiParams false false 0 2).tolerate_failure = false ∧
    (computeDT (Scenario.stepper 1) (Scenario.multiParams false false 0 2)
      [Scenario.app 3, Scenario.app 2] Scenario.multiapp).1 = 2 ∧
    (computeDT (Scenario.stepper 1) (Scenario.multiParams false false 0 2)
      [Scenario.app 3, Scenario.app 2] Scenario.multiapp).1 =
      (Scenario.stepper 1).parallel_min
        (localDT (Scenario.stepper 1) [Scenario.app 3, Scenario.app 2] Scenario.multiapp).1 :=
  ⟨rfl, rfl, by decide!,
    (C17_computeDT (Scenario.stepper 1) (Scenario.multiParams false false 0 2)
      [Scenario.app 3, Scenario.app 2] Scenario.multiapp).2.1 rfl rfl⟩

theorem subCycleSolve_congr (B : TransientBackend) (Q : TransientMultiAppParameters)
    (app_time_offset time_old target_time : ℚ) (m1 m2 : TransientMultiApp) (ex : Transient)
    (h : m1.transferred_dofs = m2.transferred_dofs) :
    subCycleSolve B Q app_time_offset time_old target_time m1 ex =
      subCycleSolve B Q app_time_offset time_old target_time m2 ex := by
  simp only [subCycleSolve, interpolateTransfers, h]

theorem subCycleMembers_eq (i : Nat) (m : TransientMultiApp) :
    (subCycleMembers i m).failures = m.failures ∧
    (subCycleMembers i m).first_local_app = m.first_local_app ∧
    (subCycleMembers i m).transferred_dofs = m.transferred_dofs := by
  unfold subCycleMembers
  split <;> exact ⟨rfl, rfl, rfl⟩

theorem subCyclePass_eq (B : TransientBackend) (Q : TransientMultiAppParameters) (i : Nat)
    (app_time_offset time_old target_time : ℚ) (at_steady : Bool) (ex : Transient)
    (m : TransientMultiApp)
    (hloop : at_steady = false ∧
      (subCycleEnter B ex m).time + app_time_offset + 2e-14 < target_time) :
    subCyclePass B Q i app_time_offset time_old target_time at_steady ex m =
      if (subCycleSolve B Q app_time_offset time_old target_time m
          (subCycleEnter B ex m)).last_solve_converged = false then
        if uinc m.failures > Q.max_failures then
          Except.error (MultiAbort.mooseError
            (MultiFatal.really_failed (m.first_local_app + i))
            (some (subCycleSolve B Q app_time_offset time_old target_time m
              (subCycleEnter B ex m)))
            { note (MultiCall.warning_sub_cycling (m.first_local_app + i))
                (note (MultiCall.takeStep i none)
                  (note (MultiCall.computeDT i) (subCycleMembers i m))) with
              failures := uinc m.failures })
        else
          Except.ok (SubCyclePass.next at_steady
            (B.endStep none (subCycleSolve B Q app_time_offset time_old target_time m
              (subCycleEnter B ex m)))
            (note (MultiCall.endStep i none)
              { note (MultiCall.warning_sub_cycling (m.first_local_app + i))
                  (note (MultiCall.takeStep i none)
                    (note (MultiCall.computeDT i) (subCycleMembers i m))) with
                failures := uinc m.failures }))
      else if Q.detect_steady_state = true ∧
          (subCycleSolve B Q app_time_offset time_old target_time m
            (subCycleEnter B ex m)).solution_change_norm < Q.steady_state_tol then
        Except.ok (SubCyclePass.next true
          (B.endStep (some (target_time - app_time_offset))
            (subCycleSolve B Q app_time_offset time_old target_time m (subCycleEnter B ex m)))
          (note (MultiCall.endStep i (some (target_time - app_time_offset)))
            (note (MultiCall.ow_forceOutput i) (note (MultiCall.forceOutput i)
              (note (MultiCall.takeStep i none)
                (note (MultiCall.computeDT i) (subCycleMembers i m)))))))
      else
        Except.ok (SubCyclePass.next at_steady
          (B.endStep none
            (subCycleSolve B Q app_time_offset time_old target_time m (subCycleEnter B ex m)))
          (note (MultiCall.endStep i none)
            (note (MultiCall.takeStep i none)
              (note (MultiCall.computeDT i) (subCycleMembers i m))))) := by
  unfold subCyclePass subCycleMembers
  by_cases hf : m.first = true
  · have hc := subCycleSolve_congr B Q app_time_offset time_old target_time
      { m with first := false } m (subCycleEnter B ex m) rfl
    cases hconv : (subCycleSolve B Q app_time_offset time_old target_time m
        (subCycleEnter B ex m)).last_solve_converged <;>
      simp [hf, hloop.1, hloop.2, hc, hconv, note]
  · have hc := subCycleSolve_congr B Q app_time_offset time_old target_time
      { note (MultiCall.incrementStepOrReject i) m with first := false } m
      (subCycleEnter B ex m) rfl
    simp only [note] at hc
    cases hconv : (subCycleSolve B Q app_time_offset time_old target_time m
        (subCycleEnter B ex m)).last_solve_converged <;>
      simp [hf, hloop.1, hloop.2, hc, hconv, note]

theorem subCyclePass_leave (B : TransientBackend) (Q : TransientMultiAppParameters) (i : Nat)
    (app_time_offset time_old target_time : ℚ) (at_steady : Bool) (ex : Transient)
    (m : TransientMultiApp)
    (hloop : ¬(at_steady = false ∧
      (subCycleEnter B ex m).time + app_time_offset + 2e-14 < target_time)) :
    subCyclePass B Q i app_time_offset time_old target_time at_steady ex m =
      Except.ok (SubCyclePass.leave (subCycleEnter B ex m) (subCycleMembers i m)) := by
  unfold subCyclePass subCycleMembers
  have h : ¬((!at_steady) = true ∧
      (subCycleEnter B ex m).time + app_time_offset + 2e-14 < target_time) := by
    intro h
    exact hloop ⟨by simpa using h.1, h.2⟩
  simp only [h, not_false_eq_true, if_true]

theorem subCyclingWarnings_cons (c : MultiCall) (l : List MultiCall) :
    subCyclingWarnings (c :: l) =
      subCyclingWarnings l + (if isSubCyclingWarning c = true then 1 else 0) := by
  unfold subCyclingWarnings
  by_cases h : isSubCyclingWarning c = true
  · simp [List.filter_cons, h]
  · simp [List.filter_cons, h]

theorem tally_refl (m : TransientMultiApp) : tally m m := ⟨0, rfl, rfl⟩

theorem tally_trans (a b c : TransientMultiApp) (h1 : tally a b) (h2 : tally b c) :
    tally a c := by
  obtain ⟨n1, hw1, hf1⟩ := h1
  obtain ⟨n2, hw2, hf2⟩ := h2
  refine ⟨n2 + n1, ?_, ?_⟩
  · rw [hw2, hw1]
    omega
  · rw [hf2, hf1, Function.iterate_add_apply]

theorem tally_of_eq (m t : TransientMultiApp) (hf : t.failures = m.failures)
    (hw : subCyclingWarnings t.log = subCyclingWarnings m.log) : tally m t :=
  ⟨0, hw, hf⟩

theorem tally_subCycleMembers (i : Nat) (m : TransientMultiApp) :
    tally m (subCycleMembers i m) := by
  apply tally_of_eq
  · exact (subCycleMembers_eq i m).1
  · unfold subCycleMembers
    split <;> simp [note, subCyclingWarnings_cons, isSubCyclingWarning]

theorem tally_warning (m t : TransientMultiApp)
    (hf : t.failures = uinc m.failures)
    (hw : subCyclingWarnings t.log = subCyclingWarnings m.log + 1) : tally m t :=
  ⟨1, hw, hf⟩

theorem tally_note (c : MultiCall) (m : TransientMultiApp)
    (h : isSubCyclingWarning c = false) : tally m (note c m) := by
  apply tally_of_eq
  · rfl
  · simp [note, subCyclingWarnings_cons, h]

theorem subCyclePass_tally (B : TransientBackend) (Q : TransientMultiAppParameters) (i : Nat)
    (app_time_offset time_old target_time : ℚ) (at_steady : Bool) (ex : Transient)
    (m : TransientMultiApp) :
    (∀ ex1 m1, subCyclePass B Q i app_time_offset time_old target_time at_steady ex m =
        Except.ok (SubCyclePass.leave ex1 m1) → tally m m1) ∧
    (∀ a ex1 m1, subCyclePass B Q i app_time_offset time_old target_time at_steady ex m =
        Except.ok (SubCyclePass.next a ex1 m1) → tally m m1) ∧
    (∀ e x m1, subCyclePass B Q i app_time_offset time_old target_time at_steady ex m =
        Except.error (MultiAbort.mooseError e x m1) → tally m m1) := by
  have hM := tally_subCycleMembers i m
  by_cases hloop : at_steady = false ∧
      (subCycleEnter B ex m).time + app_time_offset + 2e-14 < target_time
  · rw [subCyclePass_eq B Q i app_time_offset time_old target_time at_steady ex m hloop]
    have hfail : tally m
        { note (MultiCall.warning_sub_cycling (m.first_local_app + i))
            (note (MultiCall.takeStep i none)
              (note (MultiCall.computeDT i) (subCycleMembers i m))) with
          failures := uinc m.failures } := by
      obtain ⟨n, hn, hf⟩ := hM
      refine ⟨n + 1, ?_, ?_⟩
      · simp only [note, subCyclingWarnings_cons, isSubCyclingWarning, hn]
        simp
        omega
      · simp only [Function.iterate_succ_apply', ← hf, (subCycleMembers_eq i m).1]
    have hstep : tally m (note (MultiCall.takeStep i none)
        (note (MultiCall.computeDT i) (subCycleMembers i m))) :=
      tally_trans _ _ _ hM
        (tally_of_eq _ _ (by simp [note])
          (by simp [note, subCyclingWarnings_cons, isSubCyclingWarning]))
    refine ⟨?_, ?_, ?_⟩
    · intro ex1 m1 h
      split at h
      · split at h <;> cases h
      · split at h <;> cases h
    · intro a ex1 m1 h
      split at h
      · split at h
        · cases h
        · cases h
          exact tally_trans _ _ _ hfail
            (tally_of_eq _ _ (by simp [note])
              (by simp [note, subCyclingWarnings_cons, isSubCyclingWarning]))
      · split at h
        · cases h
          exact tally_trans _ _ _ hstep
            (tally_of_eq _ _ (by simp [note])
              (by simp [note, subCyclingWarnings_cons, isSubCyclingWarning]))
        · cases h
          exact tally_trans _ _ _ hstep
            (tally_of_eq _ _ (by simp [note])
              (by simp [note, subCyclingWarnings_cons, isSubCyclingWarning]))
    · intro e x m1 h
      split at h
      · split at h
        · cases h
          exact hfail
        · cases h
      · split at h <;> cases h
  · rw [subCyclePass_leave B Q i app_time_offset time_old target_time at_steady ex m hloop]
    refine ⟨?_, ?_, ?_⟩
    · intro ex1 m1 h
      cases h
      exact hM
    · intro a ex1 m1 h
      cases h
    · intro e x m1 h
      cases h

theorem subCycleLoop_tally (B : TransientBackend) (Q : TransientMultiAppParameters) (i : Nat)
    (app_time_offset time_old target_time : ℚ) :
    ∀ (fuel : Nat) (at_steady : Bool) (ex : Transient) (m : TransientMultiApp),
      tallies (fun r => r.2.2) m
        (subCycleLoop B Q i app_time_offset time_old target_time fuel at_steady ex m) := by
  intro fuel
  induction fuel with
  | zero => intro at_steady ex m; trivial
  | succ fuel ih =>
    intro at_steady ex m
    have hp := subCyclePass_tally B Q i app_time_offset time_old target_time at_steady ex m
    unfold subCycleLoop
    cases hr : subCyclePass B Q i app_time_offset time_old target_time at_steady ex m with
    | error e =>
      cases e with
      | mooseError e x m1 => exact hp.2.2 e x m1 hr
      | outOfFuel => trivial
    | ok r =>
      cases r with
      | leave ex1 m1 => exact hp.1 ex1 m1 hr
      | next a ex1 m1 =>
        have h1 := hp.2.1 a ex1 m1 hr
        have h2 := ih a ex1 m1
        simp only []
        cases hl : subCycleLoop B Q i app_time_offset time_old target_time fuel a ex1 m1 with
        | error e =>
          rw [hl] at h2
          cases e with
          | mooseError e x m2 => exact tally_trans _ _ _ h1 h2
          | outOfFuel => trivial
        | ok r2 =>
          rw [hl] at h2
          exact tally_trans _ _ _ h1 h2

theorem tallies_of_tally {α : Type} (members : α → TransientMultiApp)
    (m t : TransientMultiApp) (r : Except MultiAbort α) (h : tally m t)
    (hr : tallies members t r) : tallies members m r := by
  cases r with
  | ok a => exact tally_trans _ _ _ h hr
  | error e =>
    cases e with
    | mooseError e x m2 => exact tally_trans _ _ _ h hr
    | outOfFuel => trivial

theorem tallies_ok {α : Type} {members : α → TransientMultiApp} {m : TransientMultiApp}
    {r : Except MultiAbort α} {a : α} (h : r = Except.ok a) (ht : tallies members m r) :
    tally m (members a) := by
  rw [h] at ht
  exact ht

theorem tallies_error {α : Type} {members : α → TransientMultiApp} {m : TransientMultiApp}
    {r : Except MultiAbort α} {e : MultiFatal} {x : Option Transient} {t : TransientMultiApp}
    (h : r = Except.error (MultiAbort.mooseError e x t)) (ht : tallies members m r) :
    tally m t := by
  rw [h] at ht
  exact ht

theorem subCycle_tally (B : TransientBackend) (Q : TransientMultiAppParameters) (fuel i : Nat)
    (app_time_offset target_time : ℚ) (ex : Transient) (m : TransientMultiApp) :
    tallies (fun r => r.2) m (subCycle B Q fuel i app_time_offset target_time ex m) := by
  unfold subCycle
  simp only []
  split
  · rename_i e heq
    cases e with
    | outOfFuel => trivial
    | mooseError e x t =>
      have h2 := tallies_error heq (subCycleLoop_tally _ _ _ _ _ _ _ _ _ _)
      refine tally_trans _ _ _ ?_ h2
      apply tally_of_eq
      · split <;> rfl
      · split <;> simp [note, subCyclingWarnings_cons, isSubCyclingWarning]
  · rename_i a ex1 m1 heq
    have h2 := tallies_ok heq (subCycleLoop_tally _ _ _ _ _ _ _ _ _ _)
    have h1 : tally m m1 := by
      refine tally_trans _ _ _ ?_ h2
      apply tally_of_eq
      · split <;> rfl
      · split <;> simp [note, subCyclingWarnings_cons, isSubCyclingWarning]
    split
    · exact tally_trans _ _ _ h1
        (tally_of_eq _ _ (by simp [note])
          (by simp [note, subCyclingWarnings_cons, isSubCyclingWarning]))
    · exact h1

theorem catchUpPass_eq (B : TransientBackend) (i : Nat) (app_time_offset target_time : ℚ)
    (c : CatchUp) :
    catchUpPass B i app_time_offset target_time c =
      { caught_up := if catchesUp B app_time_offset target_time c = true then true
          else c.caught_up
        catch_up_step := uinc c.catch_up_step
        catch_up_dt :=
          if (catchUpSolve B c).last_solve_converged = true then c.catch_up_dt
          else c.catch_up_dt / 2
        ex := B.endStep none (catchUpSolve B c)
        m := note (MultiCall.endStep i none)
          (if catchesUp B app_time_offset target_time c = true then
            note (MultiCall.ow_outputStep i) (note (MultiCall.ow_forceOutput i)
              (note (MultiCall.forceOutput i) (note (MultiCall.takeStep i (some c.catch_up_dt))
                (note (MultiCall.computeDT i) (note (MultiCall.incrementStepOrReject i) c.m)))))
          else
            note (MultiCall.takeStep i (some c.catch_up_dt))
              (note (MultiCall.computeDT i) (note (MultiCall.incrementStepOrReject i) c.m))) } := by
  unfold catchesUp
  cases hc : (catchUpSolve B c).last_solve_converged
  · unfold catchUpSolve at hc
    simp [catchUpPass, hc, catchUpSolve]
  · by_cases hr : (catchUpSolve B c).time + app_time_offset
        + (catchUpSolve B c).timestep_tol * |(catchUpSolve B c).time| ≥ target_time
    · unfold catchUpSolve at hc hr
      simp [catchUpPass, hc, hr, catchUpSolve]
    · unfold catchUpSolve at hc hr
      simp [catchUpPass, hc, hr, catchUpSolve]

theorem catchUpPass_tally (B : TransientBackend) (i : Nat) (app_time_offset target_time : ℚ)
    (c : CatchUp) : tally c.m (catchUpPass B i app_time_offset target_time c).m := by
  rw [catchUpPass_eq]
  cases h : catchesUp B app_time_offset target_time c
  · exact tally_of_eq _ _ (by simp [note])
      (by simp [note, subCyclingWarnings_cons, isSubCyclingWarning])
  · exact tally_of_eq _ _ (by simp [note])
      (by simp [note, subCyclingWarnings_cons, isSubCyclingWarning])

theorem catchUpLoop_tally (B : TransientBackend) (Q : TransientMultiAppParameters) (i : Nat)
    (app_time_offset target_time : ℚ) :
    ∀ (fuel : Nat) (c : CatchUp),
      tallies (fun r => r.m) c.m (catchUpLoop B Q i app_time_offset target_time fuel c) := by
  intro fuel
  induction fuel with
  | zero => intro c; trivial
  | succ fuel ih =>
    intro c
    unfold catchUpLoop
    split
    · exact tallies_of_tally _ _ _ _ (catchUpPass_tally B i app_time_offset target_time c)
        (ih _)
    · exact tally_refl _

theorem catchUp_tally (B : TransientBackend) (Q : TransientMultiAppParameters) (fuel i : Nat)
    (dt app_time_offset target_time : ℚ) (ex : Transient) (m : TransientMultiApp) :
    tallies (fun r => r.2) m (catchUp B Q fuel i dt app_time_offset target_time ex m) := by
  have h0 : tally m (note (MultiCall.allowOutput i false) m) := tally_note _ _ rfl
  unfold catchUp
  simp only []
  split
  · rename_i e heq
    cases e with
    | outOfFuel => trivial
    | mooseError e x t =>
      exact tally_trans _ _ _ h0 (tallies_error heq (catchUpLoop_tally _ _ _ _ _ _ _))
  · rename_i c heq
    have h1 : tally m c.m :=
      tally_trans _ _ _ h0 (tallies_ok heq (catchUpLoop_tally _ _ _ _ _ _ _))
    split
    · exact h1
    · exact tally_trans _ _ _ h1
        (tally_of_eq _ _ (by simp [note])
          (by simp [note, subCyclingWarnings_cons, isSubCyclingWarning]))

theorem normalStep_eq (B : TransientBackend) (Q : TransientMultiAppParameters) (fuel i : Nat)
    (dt app_time_offset target_time : ℚ) (ex : Transient) (m : TransientMultiApp)
    (hfail : (B.endStep none (B.takeStep (some dt)
      (if m.first ≠ true then B.incrementStepOrReject ex else ex))).last_solve_converged
        = false) :
    normalStep B Q fuel i dt app_time_offset target_time true ex m =
      if Q.catch_up = true then
        catchUp B Q fuel i dt app_time_offset target_time
          (B.endStep none (B.takeStep (some dt)
            (if m.first ≠ true then B.incrementStepOrReject ex else ex)))
          (note (MultiCall.warning_failed (m.first_local_app + i))
            (note (MultiCall.endStep i none) (note (MultiCall.takeStep i (some dt))
              (note (MultiCall.ow_allowOutput i true)
                (if m.first ≠ true then note (MultiCall.incrementStepOrReject i) m else m)))))
      else
        Except.ok
          (B.endStep none (B.takeStep (some dt)
            (if m.first ≠ true then B.incrementStepOrReject ex else ex)),
          note (MultiCall.warning_failed (m.first_local_app + i))
            (note (MultiCall.endStep i none) (note (MultiCall.takeStep i (some dt))
              (note (MultiCall.ow_allowOutput i true)
                (if m.first ≠ true then note (MultiCall.incrementStepOrReject i) m
                  else m))))) := by
  cases hf : m.first
  · simp only [hf, ne_eq, Bool.false_eq_true, not_false_eq_true, if_true] at hfail ⊢
    simp [normalStep, hf, hfail, note]
  · simp only [hf, ne_eq, not_true_eq_false, if_false] at hfail ⊢
    simp [normalStep, hf, hfail, note]

theorem normalStep_tally (B : TransientBackend) (Q : TransientMultiAppParameters) (fuel i : Nat)
    (dt app_time_offset target_time : ℚ) (auto_advance : Bool) (ex : Transient)
    (m : TransientMultiApp) :
    tallies (fun r => r.2) m
      (normalStep B Q fuel i dt app_time_offset target_time auto_advance ex m) := by
  cases auto_advance
  · simp only [normalStep, Bool.false_eq_true, false_and, if_false]
    exact tally_note _ _ rfl
  · cases hc : (B.endStep none (B.takeStep (some dt)
      (if m.first ≠ true then B.incrementStepOrReject ex else ex))).last_solve_converged
    · rw [normalStep_eq B Q fuel i dt app_time_offset target_time ex m hc]
      have h0 : tally m (note (MultiCall.warning_failed (m.first_local_app + i))
          (note (MultiCall.endStep i none) (note (MultiCall.takeStep i (some dt))
            (note (MultiCall.ow_allowOutput i true)
              (if m.first ≠ true then note (MultiCall.incrementStepOrReject i) m
                else m))))) := by
        by_cases hf : m.first = true
        · exact tally_of_eq _ _ (by simp [note, hf])
            (by simp [note, hf, subCyclingWarnings_cons, isSubCyclingWarning])
        · exact tally_of_eq _ _ (by simp [note, hf])
            (by simp [note, hf, subCyclingWarnings_cons, isSubCyclingWarning])
      split
      · exact tallies_of_tally _ _ _ _ h0 (catchUp_tally _ _ _ _ _ _ _ _ _)
      · exact h0
    · cases hf : m.first
      · simp only [hf, ne_eq, Bool.false_eq_true, not_false_eq_true, if_true] at hc
        simp only [normalStep, hf, hc, ne_eq, not_false_eq_true, and_true, if_true,
          Bool.not_true, Bool.false_eq_true, if_false]
        exact tally_of_eq _ _ (by simp [note])
          (by simp [note, subCyclingWarnings_cons, isSubCyclingWarning])
      · simp only [hf, ne_eq, not_true_eq_false, if_false] at hc
        simp only [normalStep, hf, hc, ne_eq, not_true_eq_false, and_false, if_false, if_true,
          Bool.not_true, Bool.false_eq_true]
        exact tally_of_eq _ _ (by simp [note])
          (by simp [note, subCyclingWarnings_cons, isSubCyclingWarning])

theorem solveApp_tally (B : TransientBackend) (Q : TransientMultiAppParameters) (fuel i : Nat)
    (dt target_time : ℚ) (auto_advance : Bool) (ex : Transient) (m : TransientMultiApp) :
    tallies (fun r => r.2) m (solveApp B Q fuel i dt target_time auto_advance ex m) := by
  have h0 : tally m (note (MultiCall.ow_timestepSetup i) m) := tally_note _ _ rfl
  unfold solveApp
  simp only []
  split
  · exact h0
  · split
    · exact tallies_of_tally _ _ _ _ h0 (subCycle_tally _ _ _ _ _ _ _ _)
    · split
      · have h1 : tally (note (MultiCall.ow_timestepSetup i) m)
            (tolerateFailure B i dt ex.global_time_offset target_time ex
              (note (MultiCall.ow_timestepSetup i) m)).2 :=
          tally_of_eq _ _ rfl
            (by simp [tolerateFailure, note, subCyclingWarnings_cons, isSubCyclingWarning])
        exact tally_trans _ _ _ h0 h1
      · exact tallies_of_tally _ _ _ _ h0 (normalStep_tally _ _ _ _ _ _ _ _ _ _)

theorem solveApps_tally (B : TransientBackend) (Q : TransientMultiAppParameters) (fuel : Nat)
    (dt target_time : ℚ) (auto_advance : Bool) :
    ∀ (apps : List Transient) (i : Nat) (m : TransientMultiApp),
      tallies (fun r => r.2) m (solveApps B Q fuel dt target_time auto_advance i apps m) := by
  intro apps
  induction apps with
  | nil => intro i m; exact tally_refl _
  | cons ex rest ih =>
    intro i m
    unfold solveApps
    split
    · rename_i e heq
      cases e with
      | outOfFuel => trivial
      | mooseError e x t => exact tallies_error heq (solveApp_tally _ _ _ _ _ _ _ _ _)
    · rename_i ex1 m1 heq
      have h1 : tally m m1 := tallies_ok heq (solveApp_tally _ _ _ _ _ _ _ _ _)
      split
      · rename_i e heq2
        cases e with
        | outOfFuel => trivial
        | mooseError e x t => exact tally_trans _ _ _ h1 (tallies_error heq2 (ih _ _))
      · rename_i rest1 m2 heq2
        have h2 : tally m1 m2 := tallies_ok heq2 (ih _ _)
        exact tally_trans _ _ _ h1 h2

theorem solveStep_tally (B : TransientBackend) (Q : TransientMultiAppParameters) (fuel : Nat)
    (dt target_time : ℚ) (auto_advance : Bool) (apps : List Transient)
    (m : TransientMultiApp) :
    tallies (fun r => r.2) m (solveStep B Q fuel dt target_time auto_advance apps m) := by
  unfold solveStep
  split
  · exact tally_refl _
  · split
    · exact tally_refl _
    · split
      · exact tally_refl _
      · simp only []
        have h0 : tally m { m with auto_advance := auto_advance } :=
          tally_of_eq _ _ rfl rfl
        split
        · rename_i e heq
          cases e with
          | outOfFuel => trivial
          | mooseError e x t =>
            exact tally_trans _ _ _ h0 (tallies_error heq (solveApps_tally _ _ _ _ _ _ _ _ _))
        · rename_i apps1 m1 heq
          have h1 : tally _ m1 := tallies_ok heq (solveApps_tally _ _ _ _ _ _ _ _ _)
          exact tally_trans _ _ _ (tally_trans _ _ _ h0 h1) (tally_of_eq _ _ rfl rfl)

theorem setupApp_failures (B : TransientBackend) (Q : TransientMultiAppParameters) (i : Nat)
    (output_initial : Bool) (app : Transient) (m : TransientMultiApp) :
    tallies (fun r => r.2) m (setupApp B Q i output_initial app m) := by
  unfold setupApp
  split
  · exact tally_refl _
  · simp only []
    apply tally_of_eq
    · simp only [note]
      split <;> split <;> rfl
    · simp only [note]
      split <;> split <;> simp [subCyclingWarnings_cons, isSubCyclingWarning]

theorem resetApp_tally (B : TransientBackend) (Q : TransientMultiAppParameters)
    (global_app : Nat) (apps : List Transient) (m : TransientMultiApp) :
    tallies (fun r => r.2) m (resetApp B Q global_app apps m) := by
  unfold resetApp
  split
  · exact tally_refl _
  · split
    · exact tally_refl _
    · simp only []
      have h0 : ∀ (a : Nat) (t : ℚ), tally m (note (MultiCall.setFileNumbers a)
          (note (MultiCall.resetApp a t) m)) := fun a t =>
        tally_of_eq _ _ (by simp [note])
          (by simp [note, subCyclingWarnings_cons, isSubCyclingWarning])
      split
      · rename_i e heq
        cases e with
        | outOfFuel => trivial
        | mooseError e x t =>
          exact tally_trans _ _ _ (h0 _ _) (tallies_error heq (setupApp_failures _ _ _ _ _ _))
      · rename_i ex1 m1 heq
        have h2 : tally _ m1 := tallies_ok heq (setupApp_failures _ _ _ _ _ _)
        exact tally_trans _ _ _ (h0 _ _) h2

theorem setupApp_members (B : TransientBackend) (Q : TransientMultiAppParameters) (i : Nat)
    (output_initial : Bool) (app : Transient) (m : TransientMultiApp) :
    (∀ ex1 m1, setupApp B Q i output_initial app m = Except.ok (ex1, m1) →
      m1.failures = m.failures) ∧
    (∀ e x m1,
      setupApp B Q i output_initial app m = Except.error (MultiAbort.mooseError e x m1) →
        m1.failures = m.failures) := by
  unfold setupApp
  constructor
  · intro ex1 m1 h
    split at h
    · cases h
    · simp only [Except.ok.injEq, Prod.mk.injEq] at h
      rw [← h.2]
      simp only [note]
      split <;> split <;> rfl
  · intro e x m1 h
    split at h
    · cases h
      rfl
    · cases h

theorem resetApp_members (B : TransientBackend) (Q : TransientMultiAppParameters)
    (global_app : Nat) (apps : List Transient) (m : TransientMultiApp) :
    (∀ apps1 m1, resetApp B Q global_app apps m = Except.ok (apps1, m1) →
      m1.failures = m.failures) ∧
    (∀ e x m1, resetApp B Q global_app apps m = Except.error (MultiAbort.mooseError e x m1) →
      m1.failures = m.failures) := by
  unfold resetApp
  constructor
  · intro apps1 m1 h
    split at h
    · cases h
      rfl
    · split at h
      · cases h
        rfl
      · simp only [] at h
        split at h
        · cases h
        · rename_i ex2 m2 heq
          cases h
          have h2 := (setupApp_members _ _ _ _ _ _).1 _ _ heq
          rw [h2]
          rfl
  · intro e x m1 h
    split at h
    · cases h
    · split at h
      · cases h
      · simp only [] at h
        split at h
        · rename_i e2 heq
          cases h
          have h2 := (setupApp_members _ _ _ _ _ _).2 _ _ _ heq
          rw [h2]
          rfl
        · cases h

theorem catchUpLoop_spec (B : TransientBackend) (Q : TransientMultiAppParameters) (i : Nat)
    (app_time_offset target_time : ℚ) (N : Nat) (hN : Q.max_catch_up_steps ≤ N)
    (hu : N < UINT_RANGE) :
    ∀ (fuel : Nat) (c : CatchUp), c.catch_up_step ≤ N → N < fuel + c.catch_up_step →
      ∃ n : Nat,
        catchUpLoop B Q i app_time_offset target_time fuel c =
          Except.ok ((catchUpPass B i app_time_offset target_time)^[n] c) ∧
        c.catch_up_step + n ≤ N ∧
        (∀ j < n, ((catchUpPass B i app_time_offset target_time)^[j] c).caught_up = false ∧
          ((c.catch_up_step + j : Nat) : ℚ) < Q.max_catch_up_steps) ∧
        (((catchUpPass B i app_time_offset target_time)^[n] c).caught_up = true ∨
          ¬(((c.catch_up_step + n : Nat) : ℚ) < Q.max_catch_up_steps)) := by
  intro fuel
  induction fuel with
  | zero =>
    intro c h1 h2
    omega
  | succ fuel ih =>
    intro c h1 h2
    unfold catchUpLoop
    by_cases hc : (!c.caught_up) = true ∧ (c.catch_up_step : ℚ) < Q.max_catch_up_steps
    · rw [if_pos hc]
      have hlt : c.catch_up_step < N := by
        have : (c.catch_up_step : ℚ) < (N : ℚ) := lt_of_lt_of_le hc.2 hN
        exact_mod_cast this
      have hs : (catchUpPass B i app_time_offset target_time c).catch_up_step
          = c.catch_up_step + 1 := by
        rw [catchUpPass_eq]
        simp only [uinc]
        exact Nat.mod_eq_of_lt (by omega)
      obtain ⟨n, hn1, hn2, hn3, hn4⟩ := ih (catchUpPass B i app_time_offset target_time c)
        (by omega) (by omega)
      refine ⟨n + 1, ?_, ?_, ?_, ?_⟩
      · rw [Function.iterate_succ_apply]
        exact hn1
      · omega
      · intro j hj
        cases j with
        | zero =>
          refine ⟨?_, by simpa using hc.2⟩
          simpa using hc.1
        | succ j =>
          rw [Function.iterate_succ_apply]
          have := hn3 j (by omega)
          rw [hs] at this
          have he : c.catch_up_step + 1 + j = c.catch_up_step + (j + 1) := by omega
          rw [he] at this
          exact this
      · rw [Function.iterate_succ_apply]
        rw [hs] at hn4
        have he : c.catch_up_step + 1 + n = c.catch_up_step + (n + 1) := by omega
        rw [he] at hn4
        exact hn4
    · rw [if_neg hc]
      refine ⟨0, rfl, by omega, fun j hj => by omega, ?_⟩
      by_cases h : c.caught_up = true
      · exact Or.inl h
      · right
        intro hlt
        apply hc
        refine ⟨?_, by simpa using hlt⟩
        simpa using h

/-! ## The claims on the failures of the sub-applications -/

/-- Claim C15: in a pass through the sub-cycling loop whose sub-step is taken, a solve that did
not converge issues the warning and increments the failure count by one; the fatal error
"REALLY failed" is raised if and only if the incremented count exceeds `max_failures`, and
otherwise the pass ends with `endStep` and the loop goes on with the next pass.  A solve that
converged leaves the count alone and raises nothing. -/
theorem C15_failure_budget (B : TransientBackend) (Q : TransientMultiAppParameters) (i : Nat)
    (app_time_offset time_old target_time : ℚ) (at_steady : Bool) (ex : Transient)
    (m : TransientMultiApp)
    (hloop : at_steady = false ∧
      (subCycleEnter B ex m).time + app_time_offset + 2e-14 < target_time) :
    ((subCycleSolve B Q app_time_offset time_old target_time m
        (subCycleEnter B ex m)).last_solve_converged = false →
      (uinc m.failures > Q.max_failures →
        ∃ t, subCyclePass B Q i app_time_offset time_old target_time at_steady ex m =
            Except.error (MultiAbort.mooseError
              (MultiFatal.really_failed (m.first_local_app + i))
              (some (subCycleSolve B Q app_time_offset time_old target_time m
                (subCycleEnter B ex m))) t) ∧
          t.failures = uinc m.failures ∧
          t.log.head? = some (MultiCall.warning_sub_cycling (m.first_local_app + i))) ∧
      (uinc m.failures ≤ Q.max_failures →
        ∃ t, subCyclePass B Q i app_time_offset time_old target_time at_steady ex m =
            Except.ok (SubCyclePass.next false
              (B.endStep none (subCycleSolve B Q app_time_offset time_old target_time m
                (subCycleEnter B ex m))) t) ∧
          t.failures = uinc m.failures ∧
          t.log.head? = some (MultiCall.endStep i none) ∧
          MultiCall.warning_sub_cycling (m.first_local_app + i) ∈ t.log ∧
          ∀ fuel : Nat,
            subCycleLoop B Q i app_time_offset time_old target_time (fuel + 1) at_steady ex m =
              subCycleLoop B Q i app_time_offset time_old target_time fuel false
                (B.endStep none (subCycleSolve B Q app_time_offset time_old target_time m
                  (subCycleEnter B ex m))) t)) ∧
    ((subCycleSolve B Q app_time_offset time_old target_time m
        (subCycleEnter B ex m)).last_solve_converged = true →
      ∃ a ex1 t, subCyclePass B Q i app_time_offset time_old target_time at_steady ex m =
          Except.ok (SubCyclePass.next a ex1 t) ∧
        t.failures = m.failures ∧
        subCyclingWarnings t.log = subCyclingWarnings m.log) ∧
    (m.failures + 1 < UINT_RANGE → uinc m.failures = m.failures + 1) := by
  have hp := subCyclePass_eq B Q i app_time_offset time_old target_time at_steady ex m hloop
  refine ⟨fun hc => ⟨fun hgt => ?_, fun hle => ?_⟩, fun hc => ?_, fun h => ?_⟩
  · rw [if_pos hc, if_pos hgt] at hp
    exact ⟨_, hp, rfl, rfl⟩
  · rw [if_pos hc, if_neg (not_lt.mpr hle), hloop.1] at hp
    refine ⟨_, by rw [hloop.1]; exact hp, ?_, ?_, ?_, ?_⟩
    · rfl
    · rfl
    · simp [note]
    · intro fuel
      conv_lhs => unfold subCycleLoop
      rw [hloop.1, hp]
  · have hc2 : ¬((subCycleSolve B Q app_time_offset time_old target_time m
        (subCycleEnter B ex m)).last_solve_converged = false) := by
      rw [hc]
      simp
    rw [if_neg hc2] at hp
    have hM := subCycleMembers_eq i m
    have hW : subCyclingWarnings (subCycleMembers i m).log = subCyclingWarnings m.log := by
      unfold subCycleMembers
      split <;> simp [note, subCyclingWarnings_cons, isSubCyclingWarning]
    split at hp
    · exact ⟨_, _, _, hp, by simp [note, hM.1],
        by simp [note, subCyclingWarnings_cons, isSubCyclingWarning, hW]⟩
    · exact ⟨_, _, _, hp, by simp [note, hM.1],
        by simp [note, subCyclingWarnings_cons, isSubCyclingWarning, hW]⟩
  · exact Nat.mod_eq_of_lt h

/-- Witness of C15, Scenario D: with `max_failures = 1` and a sub-application whose solves
never converge, the first failed sub-step only warns (the count becomes 1) and the run of
`solveStep` ends in the fatal error at the second, after two warnings; with one failure alone
the run returns after one warning. -/
theorem C15_failure_budget_witness :
    (∃ t, subCyclePass (Scenario.stepper (-1)) (Scenario.multiParams true false 1 2) 0 0 0 1
        false (Scenario.app 1) Scenario.multiapp =
        Except.ok (SubCyclePass.next false
          ((Scenario.stepper (-1)).endStep none
            (subCycleSolve (Scenario.stepper (-1)) (Scenario.multiParams true false 1 2) 0 0 1
              Scenario.multiapp
              (subCycleEnter (Scenario.stepper (-1)) (Scenario.app 1) Scenario.multiapp))) t) ∧
      t.failures = uinc Scenario.multiapp.failures) ∧
    (Scenario.outcome (solveStep (Scenario.stepper (-1)) (Scenario.multiParams true false 1 2)
        10 1 1 true [Scenario.app 1] Scenario.multiapp)).map
      (fun r => (r.1, r.2.failures, subCyclingWarnings r.2.log)) =
      some (some (MultiFatal.really_failed 0), 2, 2) ∧
    (Scenario.outcome (solveStep (Scenario.stepper (1 / 2))
        (Scenario.multiParams true false 1 2) 10 1 1 true [Scenario.app 1]
        Scenario.multiapp)).map
      (fun r => (r.1, r.2.failures, subCyclingWarnings r.2.log)) = some (none, 1, 1) := by
  refine ⟨?_, by decide!, by decide!⟩
  obtain ⟨t, h1, h2, _⟩ := ((C15_failure_budget (Scenario.stepper (-1))
    (Scenario.multiParams true false 1 2) 0 0 0 1 false (Scenario.app 1) Scenario.multiapp
    ⟨rfl, by decide!⟩).1 (by decide!)).2 (by decide!)
  exact ⟨t, h1, h2⟩

/-- Claim C16, as the code has it: the failure count is the one member `_failures` of the
multi-app, shared by all its sub-applications and never reset.  After `solveStep`, whether it
returns or ends in a fatal error, the count is the one before the call incremented once for
every sub-cycling warning issued in between, whatever the sub-application; `resetApp` leaves
the count as it is. -/
theorem C16_shared_failure_count (B : TransientBackend) (Q : TransientMultiAppParameters)
    (apps : List Transient) (m : TransientMultiApp) :
    (∀ (fuel : Nat) (dt target_time : ℚ) (auto_advance : Bool) (apps1 : List Transient)
      (t : TransientMultiApp),
      solveStep B Q fuel dt target_time auto_advance apps m = Except.ok (apps1, t) →
        tally m t) ∧
    (∀ (fuel : Nat) (dt target_time : ℚ) (auto_advance : Bool) (e : MultiFatal)
      (x : Option Transient) (t : TransientMultiApp),
      solveStep B Q fuel dt target_time auto_advance apps m =
          Except.error (MultiAbort.mooseError e x t) →
        tally m t) ∧
    (∀ (global_app : Nat) (apps1 : List Transient) (t : TransientMultiApp),
      resetApp B Q global_app apps m = Except.ok (apps1, t) → t.failures = m.failures) ∧
    (∀ (global_app : Nat) (e : MultiFatal) (x : Option Transient) (t : TransientMultiApp),
      resetApp B Q global_app apps m = Except.error (MultiAbort.mooseError e x t) →
        t.failures = m.failures) := by
  refine ⟨?_, ?_, ?_, ?_⟩
  · intro fuel dt target_time auto_advance apps1 t h
    exact tallies_ok h (solveStep_tally B Q fuel dt target_time auto_advance apps m)
  · intro fuel dt target_time auto_advance e x t h
    exact tallies_error h (solveStep_tally B Q fuel dt target_time auto_advance apps m)
  · intro global_app apps1 t h
    exact (resetApp_members B Q global_app apps m).1 apps1 t h
  · intro global_app e x t h
    exact (resetApp_members B Q global_app apps m).2 e x t h

/-- Witness of C16: the run of the counterexample ends in a fatal error with members that
tally with the ones of the call. -/
theorem C16_shared_failure_count_witness :
    ∃ e x t, solveStep (Scenario.stepper (1 / 2)) (Scenario.multiParams true false 1 2) 10 1 1
        true [Scenario.app 1, Scenario.app 1] Scenario.multiapp =
        Except.error (MultiAbort.mooseError e x t) ∧
      tally Scenario.multiapp t := by
  have hd : (Scenario.outcome (solveStep (Scenario.stepper (1 / 2))
      (Scenario.multiParams true false 1 2) 10 1 1 true [Scenario.app 1, Scenario.app 1]
      Scenario.multiapp)).map (fun r => r.1.isSome) = some true := by decide!
  cases h : solveStep (Scenario.stepper (1 / 2)) (Scenario.multiParams true false 1 2) 10 1 1
      true [Scenario.app 1, Scenario.app 1] Scenario.multiapp with
  | ok r =>
    rw [h] at hd
    simp [Scenario.outcome] at hd
  | error a =>
    cases a with
    | outOfFuel =>
      rw [h] at hd
      simp [Scenario.outcome] at hd
    | mooseError e x t =>
      exact ⟨e, x, t, rfl,
        (C16_shared_failure_count (Scenario.stepper (1 / 2))
          (Scenario.multiParams true false 1 2) [Scenario.app 1, Scenario.app 1]
          Scenario.multiapp).2.1 10 1 1 true e x t h⟩

/-- Counterexample to C16 as stated: with `max_failures = 1` and two sub-applications that each
fail once (one warning for application 0, one for application 1), `solveStep` ends in the fatal
error for application 1 with the count 2; and `resetApp` of the only sub-application of a
multi-app whose count is 1 leaves the count 1. -/
theorem C16_failures_are_shared :
    (Scenario.outcome (solveStep (Scenario.stepper (1 / 2))
        (Scenario.multiParams true false 1 2) 10 1 1 true [Scenario.app 1, Scenario.app 1]
        Scenario.multiapp)).map
      (fun r => (r.1, r.2.failures, r.2.log.count (MultiCall.warning_sub_cycling 0),
        r.2.log.count (MultiCall.warning_sub_cycling 1))) =
      some (some (MultiFatal.really_failed 1), 2, 1, 1) ∧
    (Scenario.outcome (resetApp (Scenario.stepper (1 / 2))
        (Scenario.multiParams true false 1 2) 0 [Scenario.app 1]
        { Scenario.multiapp with failures := 1 })).map
      (fun r => (r.1, r.2.failures)) = some (none, 1) := by
  refine ⟨by decide!, by decide!⟩

/-- Claim C18, as the code has it: `max_catch_up_steps` is a real number and attempt number
`j` (from 0) of the catch-up loop is made when no earlier attempt has caught up and
`j < max_catch_up_steps`; so for every whole number `N >= max_catch_up_steps` at most `N`
attempts are made (`max_catch_up_steps` itself when it is whole, the next whole number
otherwise).  Every attempt ends with its own `endStep`; the loop stops at the first attempt
that converges with the time at `target_time` within the tolerance; `catchUp` ends in the fatal
error "Failed to catch up!" if and only if no attempt has done so; and after a first step that
failed, the normal step with `auto_advance` runs the catch-up when `catch_up` is set and only
warns when it is not. -/
theorem C18_catch_up (B : TransientBackend) (Q : TransientMultiAppParameters) (fuel i : Nat)
    (dt app_time_offset target_time : ℚ) (ex : Transient) (m : TransientMultiApp) (N : Nat)
    (hN : Q.max_catch_up_steps ≤ N) (hu : N < UINT_RANGE) (hf : N < fuel) :
    (∃ n : Nat, n ≤ N ∧
      (∀ j < n,
        ((catchUpPass B i app_time_offset target_time)^[j] (catchUpEntry i dt ex m)).caught_up
          = false ∧ (j : ℚ) < Q.max_catch_up_steps) ∧
      (((catchUpPass B i app_time_offset target_time)^[n] (catchUpEntry i dt ex m)).caught_up
          = true ∨ ¬((n : ℚ) < Q.max_catch_up_steps)) ∧
      catchUp B Q fuel i dt app_time_offset target_time ex m =
        if ((catchUpPass B i app_time_offset target_time)^[n]
            (catchUpEntry i dt ex m)).caught_up = true then
          Except.ok
            (((catchUpPass B i app_time_offset target_time)^[n] (catchUpEntry i dt ex m)).ex,
              note (MultiCall.allowOutput i true) (note (MultiCall.ow_allowOutput i true)
                ((catchUpPass B i app_time_offset target_time)^[n]
                  (catchUpEntry i dt ex m)).m))
        else
          Except.error (MultiAbort.mooseError MultiFatal.failed_to_catch_up
            (some ((catchUpPass B i app_time_offset target_time)^[n]
              (catchUpEntry i dt ex m)).ex)
            ((catchUpPass B i app_time_offset target_time)^[n] (catchUpEntry i dt ex m)).m)) ∧
    (∀ c : CatchUp,
      (catchUpPass B i app_time_offset target_time c).caught_up =
        (catchesUp B app_time_offset target_time c || c.caught_up) ∧
      (catchUpPass B i app_time_offset target_time c).ex = B.endStep none (catchUpSolve B c) ∧
      (catchUpPass B i app_time_offset target_time c).m.log.head? =
        some (MultiCall.endStep i none) ∧
      (catchUpPass B i app_time_offset target_time c).catch_up_dt =
        if (catchUpSolve B c).last_solve_converged = true then c.catch_up_dt
        else c.catch_up_dt / 2) ∧
    ((B.endStep none (B.takeStep (some dt)
        (if m.first ≠ true then B.incrementStepOrReject ex else ex))).last_solve_converged
          = false →
      (Q.catch_up = true →
        normalStep B Q fuel i dt app_time_offset target_time true ex m =
          catchUp B Q fuel i dt app_time_offset target_time
            (B.endStep none (B.takeStep (some dt)
              (if m.first ≠ true then B.incrementStepOrReject ex else ex)))
            (note (MultiCall.warning_failed (m.first_local_app + i))
              (note (MultiCall.endStep i none) (note (MultiCall.takeStep i (some dt))
                (note (MultiCall.ow_allowOutput i true)
                  (if m.first ≠ true then note (MultiCall.incrementStepOrReject i) m
                    else m)))))) ∧
      (Q.catch_up = false →
        normalStep B Q fuel i dt app_time_offset target_time true ex m =
          Except.ok
            (B.endStep none (B.takeStep (some dt)
              (if m.first ≠ true then B.incrementStepOrReject ex else ex)),
            note (MultiCall.warning_failed (m.first_local_app + i))
              (note (MultiCall.endStep i none) (note (MultiCall.takeStep i (some dt))
                (note (MultiCall.ow_allowOutput i true)
                  (if m.first ≠ true then note (MultiCall.incrementStepOrReject i) m
                    else m))))))) := by
  refine ⟨?_, ?_, ?_⟩
  · obtain ⟨n, h1, h2, h3, h4⟩ := catchUpLoop_spec B Q i app_time_offset target_time N hN hu
      fuel (catchUpEntry i dt ex m) (Nat.zero_le _) (by simpa [catchUpEntry] using hf)
    have h0 : (catchUpEntry i dt ex m).catch_up_step = 0 := rfl
    rw [h0] at h2 h3 h4
    simp only [zero_add] at h2 h3 h4
    refine ⟨n, h2, h3, h4, ?_⟩
    unfold catchUp
    simp only []
    have h1b : catchUpLoop B Q i app_time_offset target_time fuel
        { caught_up := false, catch_up_step := 0, catch_up_dt := dt / 2, ex := ex
          m := note (MultiCall.allowOutput i false) m } =
        Except.ok ((catchUpPass B i app_time_offset target_time)^[n]
          (catchUpEntry i dt ex m)) := h1
    rw [h1b]
    simp only []
    cases hcu : ((catchUpPass B i app_time_offset target_time)^[n]
        (catchUpEntry i dt ex m)).caught_up <;> simp
  · intro c
    rw [catchUpPass_eq]
    refine ⟨?_, rfl, rfl, rfl⟩
    cases catchesUp B app_time_offset target_time c <;> simp
  · intro hfail
    have hn := normalStep_eq B Q fuel i dt app_time_offset target_time ex m hfail
    constructor
    · intro hq
      rw [hn, if_pos hq]
    · intro hq
      rw [hn, if_neg (by rw [hq]; simp)]

/-- Witness of C18: with `max_catch_up_steps = 2` and solves that converge for steps of at
most 1/2, at most two attempts are made. -/
theorem C18_catch_up_witness :
    (Scenario.multiParams false true 1 2).max_catch_up_steps ≤ ((2 : Nat) : ℚ) ∧
    ∃ n : Nat, n ≤ 2 ∧
      (((catchUpPass (Scenario.stepper (1 / 2)) 0 0 1)^[n]
          (catchUpEntry 0 1 (Scenario.app 1) Scenario.multiapp)).caught_up = true ∨
        ¬((n : ℚ) < (Scenario.multiParams false true 1 2).max_catch_up_steps)) := by
  have hN : (Scenario.multiParams false true 1 2).max_catch_up_steps ≤ ((2 : Nat) : ℚ) := by
    decide!
  obtain ⟨n, h1, _, h3, _⟩ := (C18_catch_up (Scenario.stepper (1 / 2))
    (Scenario.multiParams false true 1 2) 10 0 1 0 1 (Scenario.app 1) Scenario.multiapp 2 hN
    (by decide) (by decide)).1
  exact ⟨hN, n, h1, h3⟩

/-- Counterexample to C18 as stated: with `max_catch_up_steps = 5/2` and solves that never
converge, three catch-up attempts are made (three calls of `computeDT`, three of `endStep`
after the one of the first step) before the fatal error, and 3 is more than 5/2; with
`max_catch_up_steps = 2` the same run makes two. -/
theorem C18_three_attempts_for_five_halves :
    (Scenario.outcome (solveStep (Scenario.stepper (-1))
        (Scenario.multiParams false true 1 (5 / 2)) 10 1 1 true [Scenario.app 1]
        Scenario.multiapp)).map
      (fun r => (r.1, r.2.log.count (MultiCall.computeDT 0),
        r.2.log.count (MultiCall.endStep 0 none))) =
      some (some MultiFatal.failed_to_catch_up, 3, 4) ∧
    ¬(((3 : Nat) : ℚ) ≤ (Scenario.multiParams false true 1 (5 / 2)).max_catch_up_steps) ∧
    (Scenario.outcome (solveStep (Scenario.stepper (-1))
        (Scenario.multiParams false true 1 2) 10 1 1 true [Scenario.app 1]
        Scenario.multiapp)).map
      (fun r => (r.1, r.2.log.count (MultiCall.computeDT 0))) =
      some (some MultiFatal.failed_to_catch_up, 2) := by
  refine ⟨by decide!, by decide!, by decide!⟩

end TransientMultiApp

namespace EigenExecutionerBase

/-! ## Lemmas on the active branch of `chebyshev` -/

theorem combineFrom_three_getElem? (eigen : Nat → Bool) (a b c : ℚ)
    (old older : NumericVector) :
    ∀ (v : NumericVector) (j i : Nat),
      (combineFrom eigen [a, b, c] old older j v)[i]? =
        (v[i]?).map (fun x =>
          if eigen (j + i) then x * a + old.getD (j + i) 0 * b + older.getD (j + i) 0 * c
          else x) := by
  intro v
  induction v with
  | nil => intro j i; simp [combineFrom]
  | cons x xs ih =>
    intro j i
    cases i with
    | zero => simp [combineFrom]
    | succ n =>
      simp only [combineFrom, List.getElem?_cons_succ]
      rw [ih (j + 1) n]
      have : j + 1 + n = j + (n + 1) := by omega
      rw [this]

theorem chebyshevActive_disarm (B : Backend) (P : InputParameters) (iter : Nat)
    (s : EigenExecutionerBase) (hx : P.xdiff = true) (hg : activeGammaNew B s > 1.01) :
    chebyshevActive B P iter s =
      Except.ok (setCheb
        (if uinc s.chebyshev_parameters.icheb > 0 then
          { s.chebyshev_parameters with
            icheb := uinc s.chebyshev_parameters.icheb, ratio_new := activeRatioNew B s
            lgac := 0, icho := 1, finit := iter }
        else
          { s.chebyshev_parameters with
            icheb := uinc s.chebyshev_parameters.icheb, ratio_new := activeRatioNew B s
            lgac := 0, icho := 0, finit := uadd iter s.chebyshev_parameters.fsmooth }) s) := by
  unfold activeGammaNew at hg
  unfold chebyshevActive activeRatioNew activeGammaNew
  simp only [deref_ok P hx, setCheb, bind, Except.bind, pure, Except.pure]
  simp only [] at hg
  rw [if_pos hg]
  split <;> rfl

theorem chebyshevActive_stay (B : Backend) (P : InputParameters) (iter : Nat)
    (s : EigenExecutionerBase) (hx : P.xdiff = true) (hg : ¬activeGammaNew B s > 1.01) :
    chebyshevActive B P iter s =
      Except.ok
        { refreshAfterCombine B (combineSystemSolution B
            [activeAlpha B s, 1 - activeAlpha B s + activeBeta B s, -activeBeta B s]
            (setCheb { s.chebyshev_parameters with
              icheb := uinc s.chebyshev_parameters.icheb
              ratio_new := activeRatioNew B s } s)) with
          eigenvalue := source_integral (refreshAfterCombine B (combineSystemSolution B
            [activeAlpha B s, 1 - activeAlpha B s + activeBeta B s, -activeBeta B s]
            (setCheb { s.chebyshev_parameters with
              icheb := uinc s.chebyshev_parameters.icheb
              ratio_new := activeRatioNew B s } s))) } := by
  unfold activeGammaNew at hg
  unfold chebyshevActive activeRatioNew activeGammaNew activeBeta activeAlpha
  simp only [deref_ok P hx, setCheb, bind, Except.bind, pure, Except.pure]
  simp only [] at hg
  rw [if_neg hg]

theorem chebyshev_of_active (B : Backend) (P : InputParameters) (iter : Nat)
    (s u : EigenExecutionerBase) (hx : P.xdiff = true) (hl : s.chebyshev_parameters.lgac ≠ 0)
    (h : chebyshevActive B P iter s = Except.ok u) :
    chebyshev B P iter s =
      Except.ok (setCheb { u.chebyshev_parameters with flux_error_norm_old := u.problem.xdiff }
        u) := by
  rw [chebyshev_eq, if_neg hl, h]
  exact (bind_eq_ok _ _ _).2 ⟨_, rfl, (bind_eq_ok _ _ _).2 ⟨_, deref_ok P hx _, rfl⟩⟩

/-! ## The claims on the active accelerator and on the coefficients -/

/-- Claim C21: a call `chebyshev(iter)` in the active state (`lgac` not 0, with an observer of
the solution difference) returns, with `icheb` incremented and `ratio_new` re-estimated.  When
`gamma_new`, clamped below at 1, exceeds 1.01 it disarms: `lgac = 0`, the problem (so the
solution) and the eigenvalue are unchanged, and `icho = 1`, `finit = iter` when the incremented
`icheb` is positive, else `icho = 0`, `finit = iter + fsmooth`.  Otherwise it stays active:
`lgac`, `icho` and `finit` are unchanged, every eigen-variable entry of the solution is
`alpha * current + (1 - alpha + beta) * old - beta * older`, and the eigenvalue is the source
integral after the refresh. -/
theorem C21_chebyshev_active (B : Backend) (P : InputParameters) (iter : Nat)
    (s : EigenExecutionerBase) (hx : P.xdiff = true) (hl : s.chebyshev_parameters.lgac ≠ 0) :
    ∃ t, chebyshev B P iter s = Except.ok t ∧
      t.chebyshev_parameters.icheb = uinc s.chebyshev_parameters.icheb ∧
      t.chebyshev_parameters.ratio_new = activeRatioNew B s ∧
      t.chebyshev_parameters.ratio = s.chebyshev_parameters.ratio ∧
      (activeGammaNew B s > 1.01 →
        t.chebyshev_parameters.lgac = 0 ∧ t.problem = s.problem ∧
        t.eigenvalue = s.eigenvalue ∧
        (uinc s.chebyshev_parameters.icheb > 0 →
          t.chebyshev_parameters.icho = 1 ∧ t.chebyshev_parameters.finit = iter) ∧
        (uinc s.chebyshev_parameters.icheb = 0 →
          t.chebyshev_parameters.icho = 0 ∧
          t.chebyshev_parameters.finit = uadd iter s.chebyshev_parameters.fsmooth)) ∧
      (¬activeGammaNew B s > 1.01 →
        t.chebyshev_parameters.lgac = s.chebyshev_parameters.lgac ∧
        t.chebyshev_parameters.icho = s.chebyshev_parameters.icho ∧
        t.chebyshev_parameters.finit = s.chebyshev_parameters.finit ∧
        t.problem.solution =
          combineFrom B.eigen_var_indices
            [activeAlpha B s, 1 - activeAlpha B s + activeBeta B s, -activeBeta B s]
            s.problem.solutionOld s.problem.solutionOlder 0 s.problem.solution ∧
        (∀ i : Nat, t.problem.solution[i]? =
          (s.problem.solution[i]?).map (fun x =>
            if B.eigen_var_indices i = true then
              x * activeAlpha B s
                + s.problem.solutionOld.getD i 0 * (1 - activeAlpha B s + activeBeta B s)
                + s.problem.solutionOlder.getD i 0 * (-activeBeta B s)
            else x)) ∧
        t.eigenvalue = source_integral t) := by
  by_cases hg : activeGammaNew B s > 1.01
  · have h1 := chebyshevActive_disarm B P iter s hx hg
    refine ⟨_, chebyshev_of_active B P iter s _ hx hl h1, ?_⟩
    by_cases hi : uinc s.chebyshev_parameters.icheb > 0
    · simp only [setCheb, if_pos hi]
      exact ⟨trivial, trivial, trivial, fun _ => ⟨trivial, trivial, trivial,
        fun _ => ⟨trivial, trivial⟩, fun h0 => absurd h0 (Nat.pos_iff_ne_zero.1 hi)⟩,
        fun hn => absurd hg hn⟩
    · simp only [setCheb, if_neg hi]
      exact ⟨trivial, trivial, trivial, fun _ => ⟨trivial, trivial, trivial,
        fun h0 => absurd h0 hi, fun _ => ⟨trivial, trivial⟩⟩,
        fun hn => absurd hg hn⟩
  · have h1 := chebyshevActive_stay B P iter s hx hg
    refine ⟨_, chebyshev_of_active B P iter s _ hx hl h1, ?_⟩
    simp only [setCheb, (refreshAfterCombine_solution B _).1,
      (refreshAfterCombine_solution B _).2, combineSystemSolution, source_integral]
    refine ⟨trivial, trivial, trivial, fun h => absurd h hg, fun _ => ?_⟩
    refine ⟨trivial, trivial, trivial, trivial, fun i => ?_, trivial⟩
    rw [combineFrom_three_getElem?]
    simp

/-- Witness of C21: with `cosh` and `acosh` the identity, `ratio = 1/2`, `error_begin = 1`
and `icheb = 1`, a solution difference of `1/2` gives `gamma_new = 3/2 > 1.01` and the call
`chebyshev(9)` disarms with `icho = 1`, `finit = 9` and `icheb = 2`. -/
theorem C21_chebyshev_active_witness :
    ({ Scenario.params false none with xdiff := true } : InputParameters).xdiff = true ∧
    (Scenario.active (1 / 2)).chebyshev_parameters.lgac ≠ 0 ∧
    activeGammaNew (Scenario.backend id) (Scenario.active (1 / 2)) = 3 / 2 ∧
    ∃ t, chebyshev (Scenario.backend id) { Scenario.params false none with xdiff := true } 9
        (Scenario.active (1 / 2)) = Except.ok t ∧
      t.chebyshev_parameters.icheb = uinc (Scenario.active (1 / 2)).chebyshev_parameters.icheb ∧
      t.chebyshev_parameters.lgac = 0 ∧ t.chebyshev_parameters.icho = 1 ∧
      t.chebyshev_parameters.finit = 9 := by
  obtain ⟨t, h, h1, _, _, h4, _⟩ := C21_chebyshev_active (Scenario.backend id)
    { Scenario.params false none with xdiff := true } 9 (Scenario.active (1 / 2)) rfl
    (by decide)
  have hg : activeGammaNew (Scenario.backend id) (Scenario.active (1 / 2)) > 1.01 := by
    decide!
  obtain ⟨h5, _, _, h6, _⟩ := h4 hg
  exact ⟨rfl, by decide, by decide!, t, h, h1, h5, h6 (by decide)⟩

theorem combineFrom_fixed_two (eigen : Nat → Bool) (a b : ℚ) (h : a + b = 1)
    (older v : NumericVector) : combineFrom eigen [a, b] v older 0 v = v := by
  apply List.ext_getElem?
  intro i
  rw [combineFrom_two_getElem?]
  cases hv : v[i]? with
  | none => rfl
  | some x =>
    have hd : v.getD (0 + i) 0 = x := by
      simp [List.getD_eq_getElem?_getD, hv]
    simp only [Option.map_some', hd]
    split
    · congr 1
      rw [← mul_add, h, mul_one]
    · rfl

theorem combineFrom_fixed_three (eigen : Nat → Bool) (a b c : ℚ) (h : a + b + c = 1)
    (v : NumericVector) : combineFrom eigen [a, b, c] v v 0 v = v := by
  apply List.ext_getElem?
  intro i
  rw [combineFrom_three_getElem?]
  cases hv : v[i]? with
  | none => rfl
  | some x =>
    have hd : v.getD (0 + i) 0 = x := by
      simp [List.getD_eq_getElem?_getD, hv]
    simp only [Option.map_some', hd]
    split
    · congr 1
      rw [← mul_add, ← mul_add, h, mul_one]
    · rfl

theorem refreshAfterCombine_calls (B : Backend) (s : EigenExecutionerBase) (c : List ℚ) :
    Call.combineSystemSolution c ∈ (refreshAfterCombine B s).calls ↔
      Call.combineSystemSolution c ∈ s.calls := by
  simp [refreshAfterCombine, computeUserObjects, computeAuxiliaryKernels]

/-- Claim C26: every list of coefficients that a call of `chebyshev` passes to
`combineSystemSolution` sums to 1 (`[alpha, 1 - alpha]` when it arms,
`[alpha, 1 - alpha + beta, -beta]` when it stays active, for every ratio and `icheb`); and when
the old and the older solution equal the current one, the solution after the call is the one
before. -/
theorem C26_coefficients_sum_to_one (B : Backend) (P : InputParameters) (iter : Nat)
    (s t : EigenExecutionerBase) (h : chebyshev B P iter s = Except.ok t) :
    (∀ coef : List ℚ, Call.combineSystemSolution coef ∈ t.calls →
      Call.combineSystemSolution coef ∈ s.calls ∨
        (coef.sum = 1 ∧
          (coef = [2 / (2 - inactiveRatio s), 1 - 2 / (2 - inactiveRatio s)] ∨
            coef = [activeAlpha B s, 1 - activeAlpha B s + activeBeta B s,
              -activeBeta B s]))) ∧
    (s.problem.solutionOld = s.problem.solution →
      s.problem.solutionOlder = s.problem.solution →
      t.problem.solution = s.problem.solution) := by
  have hx : P.xdiff = true := by
    cases hP : P.xdiff
    · obtain ⟨u, hu⟩ := chebyshev_null B P iter s hP
      rw [hu] at h
      cases h
    · rfl
  by_cases hl : s.chebyshev_parameters.lgac = 0
  · by_cases ha : arms iter s
    · have h1 := chebyshev_of_inactive B P iter s _ hx hl
        (chebyshevInactive_arm B P iter s hx ha)
      rw [h1] at h
      have ht := Except.ok.inj h
      subst ht
      constructor
      · intro coef hc
        simp only [setCheb, refreshAfterCombine_calls] at hc
        simp only [combineSystemSolution, List.mem_cons, Call.combineSystemSolution.injEq] at hc
        rcases hc with hc | hc
        · right
          subst hc
          exact ⟨by simp, Or.inl rfl⟩
        · exact Or.inl hc
      · intro ho _
        simp only [setCheb, (refreshAfterCombine_solution B _).1, combineSystemSolution]
        rw [ho]
        exact combineFrom_fixed_two _ _ _ (by ring) _ _
    · have h1 := chebyshev_of_inactive B P iter s _ hx hl
        (chebyshevInactive_stay B P iter s hx ha)
      rw [h1] at h
      have ht := Except.ok.inj h
      subst ht
      exact ⟨fun coef hc => Or.inl hc, fun _ _ => rfl⟩
  · by_cases hg : activeGammaNew B s > 1.01
    · have h1 := chebyshev_of_active B P iter s _ hx hl
        (chebyshevActive_disarm B P iter s hx hg)
      rw [h1] at h
      have ht := Except.ok.inj h
      subst ht
      exact ⟨fun coef hc => Or.inl hc, fun _ _ => rfl⟩
    · have h1 := chebyshev_of_active B P iter s _ hx hl
        (chebyshevActive_stay B P iter s hx hg)
      rw [h1] at h
      have ht := Except.ok.inj h
      subst ht
      constructor
      · intro coef hc
        simp only [setCheb, refreshAfterCombine_calls] at hc
        simp only [combineSystemSolution, List.mem_cons, Call.combineSystemSolution.injEq] at hc
        rcases hc with hc | hc
        · right
          subst hc
          exact ⟨by simp, Or.inr rfl⟩
        · exact Or.inl hc
      · intro ho hoo
        simp only [setCheb, (refreshAfterCombine_solution B _).1, combineSystemSolution]
        rw [ho, hoo]
        exact combineFrom_fixed_three _ _ _ _ (by ring) _

/-- Witness of C26: the arming call of the scenario, made on a solution `[3]` whose old and
older solutions are `[3]` too, passes coefficients that sum to 1 and leaves the solution
`[3]`. -/
theorem C26_coefficients_sum_to_one_witness :
    ∃ t, chebyshev (Scenario.backend id) { Scenario.params false none with xdiff := true } 7
        { Scenario.inactive with
          problem := { Scenario.inactive.problem with
            solutionOld := [3], solutionOlder := [3] } } = Except.ok t ∧
      t.problem.solution = [3] ∧ t.chebyshev_parameters.lgac = 1 := by
  obtain ⟨t, ht⟩ := chebyshev_ok (Scenario.backend id)
    { Scenario.params false none with xdiff := true } 7
    { Scenario.inactive with
      problem := { Scenario.inactive.problem with solutionOld := [3], solutionOlder := [3] } }
    rfl
  have h2 := (C26_coefficients_sum_to_one _ _ _ _ t ht).2 rfl rfl
  refine ⟨t, ht, h2, ?_⟩
  have hd : (finalState (chebyshev (Scenario.backend id)
      { Scenario.params false none with xdiff := true } 7
      { Scenario.inactive with
        problem := { Scenario.inactive.problem with
          solutionOld := [3], solutionOlder := [3] } })).map
      (fun u => u.chebyshev_parameters.lgac) = some 1 := by decide!
  rw [ht] at hd
  simpa [finalState] using hd

/-! ## Lemmas on sequences of calls of `chebyshev` -/

theorem chebyshev_step (B : Backend) (P : InputParameters) (iter : Nat)
    (s t : EigenExecutionerBase) (h : chebyshev B P iter s = Except.ok t) :
    (s.chebyshev_parameters.lgac = 0 →
      t.chebyshev_parameters.finit = s.chebyshev_parameters.finit ∧
      (arms iter s → t.chebyshev_parameters.lgac = 1 ∧ t.chebyshev_parameters.icheb = 1) ∧
      (¬arms iter s → t.chebyshev_parameters.lgac = 0 ∧
        t.chebyshev_parameters.icheb = s.chebyshev_parameters.icheb)) ∧
    (s.chebyshev_parameters.lgac ≠ 0 →
      t.chebyshev_parameters.icheb = uinc s.chebyshev_parameters.icheb ∧
      (t.chebyshev_parameters.lgac = 0 ∨
        t.chebyshev_parameters.lgac = s.chebyshev_parameters.lgac) ∧
      (t.chebyshev_parameters.lgac = 0 → uinc s.chebyshev_parameters.icheb > 0 →
        t.chebyshev_parameters.icho = 1 ∧ t.chebyshev_parameters.finit = iter)) := by
  have hx : P.xdiff = true := by
    cases hP : P.xdiff
    · obtain ⟨u, hu⟩ := chebyshev_null B P iter s hP
      rw [hu] at h
      cases h
    · rfl
  constructor
  · intro hl
    by_cases ha : arms iter s
    · have h1 := chebyshev_of_inactive B P iter s _ hx hl
        (chebyshevInactive_arm B P iter s hx ha)
      rw [h1] at h
      have ht := Except.ok.inj h
      subst ht
      simp only [setCheb, (refreshAfterCombine_solution B _).2, combineSystemSolution]
      exact ⟨trivial, fun _ => ⟨trivial, trivial⟩, fun hn => absurd ha hn⟩
    · have h1 := chebyshev_of_inactive B P iter s _ hx hl
        (chebyshevInactive_stay B P iter s hx ha)
      rw [h1] at h
      have ht := Except.ok.inj h
      subst ht
      exact ⟨rfl, fun h2 => absurd h2 ha, fun _ => ⟨hl, rfl⟩⟩
  · intro hl
    by_cases hg : activeGammaNew B s > 1.01
    · have h1 := chebyshev_of_active B P iter s _ hx hl
        (chebyshevActive_disarm B P iter s hx hg)
      rw [h1] at h
      have ht := Except.ok.inj h
      subst ht
      by_cases hi : uinc s.chebyshev_parameters.icheb > 0
      · simp only [setCheb, if_pos hi]
        exact ⟨trivial, Or.inl trivial, fun _ _ => ⟨trivial, trivial⟩⟩
      · simp only [setCheb, if_neg hi]
        exact ⟨trivial, Or.inl trivial, fun _ h2 => absurd h2 hi⟩
    · have h1 := chebyshev_of_active B P iter s _ hx hl
        (chebyshevActive_stay B P iter s hx hg)
      rw [h1] at h
      have ht := Except.ok.inj h
      subst ht
      simp only [setCheb, (refreshAfterCombine_solution B _).2, combineSystemSolution]
      exact ⟨trivial, Or.inr trivial, fun h0 => absurd h0 hl⟩

theorem chebyshevCalls_cons (B : Backend) (P : InputParameters) (iter : Nat)
    (s t : EigenExecutionerBase) (rest : List (Nat × EigenExecutionerBase))
    (cp : Chebyshev_Parameters) (h : chebyshev B P iter (setCheb cp s) = Except.ok t) :
    chebyshevCalls B P ((iter, s) :: rest) cp =
      t.chebyshev_parameters :: chebyshevCalls B P rest t.chebyshev_parameters := by
  simp only [chebyshevCalls, h]

theorem chebyshevCalls_length (B : Backend) (P : InputParameters) (hx : P.xdiff = true) :
    ∀ (calls : List (Nat × EigenExecutionerBase)) (cp : Chebyshev_Parameters),
      (chebyshevCalls B P calls cp).length = calls.length := by
  intro calls
  induction calls with
  | nil => intro cp; rfl
  | cons c rest ih =>
    intro cp
    obtain ⟨iter, s⟩ := c
    obtain ⟨t, ht⟩ := chebyshev_ok B P iter (setCheb cp s) hx
    rw [chebyshevCalls_cons B P iter s t rest cp ht]
    simp [ih]

theorem chebyshevCalls_append (B : Backend) (P : InputParameters) (hx : P.xdiff = true) :
    ∀ (l1 l2 : List (Nat × EigenExecutionerBase)) (cp : Chebyshev_Parameters),
      chebyshevCalls B P (l1 ++ l2) cp =
        chebyshevCalls B P l1 cp ++ chebyshevCalls B P l2 (chebyshevAfter B P l1 cp) := by
  intro l1
  induction l1 with
  | nil => intro l2 cp; rfl
  | cons c rest ih =>
    intro l2 cp
    obtain ⟨iter, s⟩ := c
    obtain ⟨t, ht⟩ := chebyshev_ok B P iter (setCheb cp s) hx
    rw [List.cons_append, chebyshevCalls_cons B P iter s t _ cp ht,
      chebyshevCalls_cons B P iter s t _ cp ht, ih l2 t.chebyshev_parameters]
    have : chebyshevAfter B P ((iter, s) :: rest) cp =
        chebyshevAfter B P rest t.chebyshev_parameters := by
      unfold chebyshevAfter
      rw [chebyshevCalls_cons B P iter s t _ cp ht]
      cases chebyshevCalls B P rest t.chebyshev_parameters <;> rfl
    rw [this]
    rfl

theorem activations_append :
    ∀ (l1 l2 : List Chebyshev_Parameters) (cp : Chebyshev_Parameters),
      activations cp (l1 ++ l2) = activations cp l1 + activations (l1.getLastD cp) l2 := by
  intro l1
  induction l1 with
  | nil => intro l2 cp; simp [activations]
  | cons c rest ih =>
    intro l2 cp
    rw [List.cons_append]
    simp only [activations]
    rw [ih l2 c]
    have : (c :: rest).getLastD cp = rest.getLastD c := by
      cases rest <;> rfl
    rw [this]
    omega

theorem chebyshevCalls_inactive (B : Backend) (P : InputParameters) (hx : P.xdiff = true) :
    ∀ (pre : List (Nat × EigenExecutionerBase)) (cp : Chebyshev_Parameters),
      cp.lgac = 0 → (∀ c ∈ pre, c.1 ≤ cp.finit) →
        (∀ c ∈ chebyshevCalls B P pre cp, c.lgac = 0 ∧ c.icheb = cp.icheb) ∧
        (chebyshevAfter B P pre cp).lgac = 0 ∧
        (chebyshevAfter B P pre cp).finit = cp.finit ∧
        activations cp (chebyshevCalls B P pre cp) = 0 := by
  intro pre
  induction pre with
  | nil =>
    intro cp h0 _
    exact ⟨fun c hc => (by cases hc), h0, rfl, rfl⟩
  | cons c rest ih =>
    intro cp h0 hpre
    obtain ⟨iter, s⟩ := c
    obtain ⟨t, ht⟩ := chebyshev_ok B P iter (setCheb cp s) hx
    have hs := (chebyshev_step B P iter (setCheb cp s) t ht).1 h0
    have hna : ¬arms iter (setCheb cp s) := by
      intro ha
      have h1 : iter ≤ cp.finit := hpre (iter, s) (List.mem_cons_self _ _)
      have h2 : iter > cp.finit := ha.1
      omega
    obtain ⟨hf, _, hst⟩ := hs
    obtain ⟨hl, hi⟩ := hst hna
    have hf' : t.chebyshev_parameters.finit = cp.finit := hf
    have hi' : t.chebyshev_parameters.icheb = cp.icheb := hi
    obtain ⟨i1, i2, i3, i4⟩ := ih t.chebyshev_parameters hl (by
      intro c hc
      rw [hf']
      exact hpre c (List.mem_cons_of_mem _ hc))
    have hA : chebyshevAfter B P ((iter, s) :: rest) cp =
        chebyshevAfter B P rest t.chebyshev_parameters := by
      unfold chebyshevAfter
      rw [chebyshevCalls_cons B P iter s t _ cp ht]
      cases chebyshevCalls B P rest t.chebyshev_parameters <;> rfl
    rw [chebyshevCalls_cons B P iter s t _ cp ht, hA]
    refine ⟨?_, i2, by rw [i3, hf'], ?_⟩
    · intro c hc
      rcases List.mem_cons.1 hc with hc | hc
      · rw [hc]
        exact ⟨hl, hi'⟩
      · rw [← hi']
        exact i1 c hc
    · simp only [activations, i4]
      simp [hl]

theorem chebyshevCalls_active (B : Backend) (P : InputParameters) (hx : P.xdiff = true) :
    ∀ (post : List (Nat × EigenExecutionerBase)) (cp : Chebyshev_Parameters),
      cp.lgac = 1 → cp.icheb + post.length < UINT_RANGE →
      (∀ c ∈ (chebyshevCalls B P post cp).dropLast, c.lgac = 1) →
        (chebyshevCalls B P post cp).map (fun c => c.icheb) =
          List.range' (cp.icheb + 1) post.length ∧
        activations cp (chebyshevCalls B P post cp) = 0 := by
  intro post
  induction post with
  | nil =>
    intro cp _ _ _
    exact ⟨rfl, rfl⟩
  | cons c rest ih =>
    intro cp h1 hn hw
    obtain ⟨iter, s⟩ := c
    obtain ⟨t, ht⟩ := chebyshev_ok B P iter (setCheb cp s) hx
    have hne : (setCheb cp s).chebyshev_parameters.lgac ≠ 0 := by
      show cp.lgac ≠ 0
      rw [h1]
      decide
    obtain ⟨hi, _, _⟩ := (chebyshev_step B P iter (setCheb cp s) t ht).2 hne
    have hi' : t.chebyshev_parameters.icheb = cp.icheb + 1 := by
      rw [hi]
      show uinc cp.icheb = cp.icheb + 1
      simp only [List.length_cons] at hn
      exact Nat.mod_eq_of_lt (by omega)
    rw [chebyshevCalls_cons B P iter s t _ cp ht] at hw ⊢
    have hact : activations cp
        (t.chebyshev_parameters :: chebyshevCalls B P rest t.chebyshev_parameters) =
        activations t.chebyshev_parameters
          (chebyshevCalls B P rest t.chebyshev_parameters) := by
      simp [activations, h1]
    cases hrest : rest with
    | nil =>
      simp [chebyshevCalls, activations, hi', List.range', h1]
    | cons c2 rest2 =>
      have hlen := chebyshevCalls_length B P hx rest t.chebyshev_parameters
      have hnn : chebyshevCalls B P rest t.chebyshev_parameters ≠ [] := by
        intro h0
        rw [h0, hrest] at hlen
        simp at hlen
      rw [List.dropLast_cons_of_ne_nil hnn] at hw
      have hl1 : t.chebyshev_parameters.lgac = 1 := hw _ (List.mem_cons_self _ _)
      obtain ⟨j1, j2⟩ := ih t.chebyshev_parameters hl1 (by
        rw [hi']
        simp only [List.length_cons] at hn
        omega) (fun c hc => hw c (List.mem_cons_of_mem _ hc))
      rw [← hrest, hact]
      refine ⟨?_, j2⟩
      simp only [List.map_cons, List.length_cons, List.range'_succ, j1, hi']

/-! ## The claims on sequences of calls of `chebyshev` -/

/-- Claim C22: take a sequence of calls of `chebyshev` started with the accelerator inactive:
first calls with `iter <= finit`, then a call with `iter > finit` whose ratio is within
`[0.4, 1]`, then further calls of which none but possibly the last disarms.  Every call
returns; the accelerator stays inactive in the first calls, becomes active with `icheb = 1` at
the first call with `iter > finit`, which is its only change from inactive to active in the
sequence, and `icheb` is `2, 3, ...` after the calls that follow, the disarming one
included. -/
theorem C22_arms_once (B : Backend) (P : InputParameters) (hx : P.xdiff = true)
    (pre post : List (Nat × EigenExecutionerBase)) (a : Nat × EigenExecutionerBase)
    (cp : Chebyshev_Parameters) (h0 : cp.lgac = 0)
    (hpre : ∀ c ∈ pre, c.1 ≤ cp.finit) (ha : a.1 > cp.finit)
    (hr : inactiveRatio (setCheb (chebyshevAfter B P pre cp) a.2) ≥ 0.4 ∧
      inactiveRatio (setCheb (chebyshevAfter B P pre cp) a.2) ≤ 1)
    (hn : post.length + 1 < UINT_RANGE)
    (hw : ∀ c ∈ ((chebyshevCalls B P (pre ++ a :: post) cp).drop (pre.length + 1)).dropLast,
      c.lgac = 1) :
    (chebyshevCalls B P (pre ++ a :: post) cp).length = pre.length + 1 + post.length ∧
    (∀ c ∈ (chebyshevCalls B P (pre ++ a :: post) cp).take pre.length, c.lgac = 0) ∧
    (∃ c, (chebyshevCalls B P (pre ++ a :: post) cp)[pre.length]? = some c ∧
      c.lgac = 1 ∧ c.icheb = 1) ∧
    ((chebyshevCalls B P (pre ++ a :: post) cp).drop (pre.length + 1)).map
      (fun c => c.icheb) = List.range' 2 post.length ∧
    activations cp (chebyshevCalls B P (pre ++ a :: post) cp) = 1 := by
  obtain ⟨iter, s⟩ := a
  obtain ⟨p1, p2, p3, p4⟩ := chebyshevCalls_inactive B P hx pre cp h0 hpre
  obtain ⟨t, ht⟩ := chebyshev_ok B P iter (setCheb (chebyshevAfter B P pre cp) s) hx
  have harm : arms iter (setCheb (chebyshevAfter B P pre cp) s) := by
    refine ⟨?_, hr.1, hr.2⟩
    show iter > (chebyshevAfter B P pre cp).finit
    rw [p3]
    exact ha
  obtain ⟨_, hst, _⟩ := (chebyshev_step B P iter _ t ht).1 p2
  obtain ⟨hl, hi⟩ := hst harm
  have hlen := chebyshevCalls_length B P hx pre cp
  have hR : chebyshevCalls B P (pre ++ (iter, s) :: post) cp =
      chebyshevCalls B P pre cp ++
        (t.chebyshev_parameters :: chebyshevCalls B P post t.chebyshev_parameters) := by
    rw [chebyshevCalls_append B P hx, chebyshevCalls_cons B P iter s t post _ ht]
  rw [hR] at hw ⊢
  have hdrop : (chebyshevCalls B P pre cp ++
      (t.chebyshev_parameters :: chebyshevCalls B P post t.chebyshev_parameters)).drop
        (pre.length + 1) = chebyshevCalls B P post t.chebyshev_parameters := by
    rw [← hlen, List.drop_append_eq_append_drop]
    simp
  rw [hdrop] at hw ⊢
  obtain ⟨q1, q2⟩ := chebyshevCalls_active B P hx post t.chebyshev_parameters hl
    (by rw [hi]; omega) hw
  refine ⟨?_, ?_, ?_, ?_, ?_⟩
  · simp [hlen, chebyshevCalls_length B P hx post]
    omega
  · intro c hc
    rw [← hlen, List.take_left'] at hc
    · exact (p1 c hc).1
    · rfl
  · refine ⟨t.chebyshev_parameters, ?_, hl, hi⟩
    rw [← hlen, List.getElem?_append_right (le_refl _)]
    simp
  · rw [q1, hi]
  · rw [activations_append, p4, zero_add]
    have hA : (chebyshevCalls B P pre cp).getLastD cp = chebyshevAfter B P pre cp := rfl
    rw [hA]
    simp only [activations, q2, p2, hl]
    simp

/-- Witness of C22: calls at `iter = 6, 7, 8, 9` with `finit = 6`: the call at 7 arms, the call
at 8 stays active and the call at 9 disarms; one activation, `icheb = 2, 3` after the last
two. -/
theorem C22_arms_once_witness :
    (∀ c ∈ ((chebyshevCalls (Scenario.backend id)
        { Scenario.params false none with xdiff := true }
        ([(6, Scenario.inactive)] ++ (7, Scenario.inactive) ::
          [(8, Scenario.inactive), (9, Scenario.inactive)])
        Scenario.inactive.chebyshev_parameters).drop
          ([(6, Scenario.inactive)].length + 1)).dropLast, c.lgac = 1) ∧
    ((chebyshevCalls (Scenario.backend id) { Scenario.params false none with xdiff := true }
        ([(6, Scenario.inactive)] ++ (7, Scenario.inactive) ::
          [(8, Scenario.inactive), (9, Scenario.inactive)])
        Scenario.inactive.chebyshev_parameters).drop
          ([(6, Scenario.inactive)].length + 1)).map (fun c => c.icheb) =
      List.range' 2 [(8, Scenario.inactive), (9, Scenario.inactive)].length ∧
    activations Scenario.inactive.chebyshev_parameters
      (chebyshevCalls (Scenario.backend id) { Scenario.params false none with xdiff := true }
        ([(6, Scenario.inactive)] ++ (7, Scenario.inactive) ::
          [(8, Scenario.inactive), (9, Scenario.inactive)])
        Scenario.inactive.chebyshev_parameters) = 1 := by
  have hw : ∀ c ∈ ((chebyshevCalls (Scenario.backend id)
      { Scenario.params false none with xdiff := true }
      ([(6, Scenario.inactive)] ++ (7, Scenario.inactive) ::
        [(8, Scenario.inactive), (9, Scenario.inactive)])
      Scenario.inactive.chebyshev_parameters).drop
        ([(6, Scenario.inactive)].length + 1)).dropLast, c.lgac = 1 := by decide!
  obtain ⟨_, _, _, h4, h5⟩ := C22_arms_once (Scenario.backend id)
    { Scenario.params false none with xdiff := true } rfl [(6, Scenario.inactive)]
    [(8, Scenario.inactive), (9, Scenario.inactive)] (7, Scenario.inactive)
    Scenario.inactive.chebyshev_parameters rfl (by decide) (by decide)
    ⟨by decide!, by decide!⟩ (by decide) hw
  exact ⟨hw, h4, h5⟩

/-- Claim C27: in every state of the accelerator reached from the state of the constructor, or
from `reinit()`, by a sequence of fewer than `2^32 - 1` calls of `chebyshev`, `lgac` is 0 or 1
and `lgac = 1` implies `icheb >= 1`.  Hence in a call made in such a state with `lgac = 1`, the
divisor `icheb - 1` of `ratio_new`, taken after the increment, is at least 1 and not zero, the
test `icheb > 0` of the disarm branch is true, and a call that disarms sets `icho = 1` and
`finit = iter`: the branch with `finit = iter + fsmooth` is not taken. -/
theorem C27_active_implies_icheb (B : Backend) (P : InputParameters)
    (calls : List (Nat × EigenExecutionerBase)) (cp0 garbage : Chebyshev_Parameters)
    (h0 : cp0 = Chebyshev_Parameters.ctor garbage ∨ cp0 = Chebyshev_Parameters.reinit garbage)
    (hn : calls.length + 1 < UINT_RANGE) :
    ∀ (j : Nat) (cp : Chebyshev_Parameters), (chebyshevCalls B P calls cp0)[j]? = some cp →
      (cp.lgac = 0 ∨ cp.lgac = 1) ∧ (cp.lgac = 1 → 1 ≤ cp.icheb) ∧ cp.icheb ≤ j + 1 ∧
      (cp.lgac = 1 →
        1 ≤ udec (uinc cp.icheb) ∧ ((udec (uinc cp.icheb) : Nat) : ℚ) ≠ 0 ∧
        uinc cp.icheb > 0 ∧
        ∀ (iter : Nat) (s t : EigenExecutionerBase),
          chebyshev B P iter (setCheb cp s) = Except.ok t →
            t.chebyshev_parameters.icheb = cp.icheb + 1 ∧
            (t.chebyshev_parameters.lgac = 0 →
              t.chebyshev_parameters.icho = 1 ∧ t.chebyshev_parameters.finit = iter)) := by
  have key : ∀ (calls : List (Nat × EigenExecutionerBase)) (n : Nat)
      (c0 : Chebyshev_Parameters),
      (c0.lgac = 0 ∨ c0.lgac = 1) → (c0.lgac = 1 → 1 ≤ c0.icheb) → c0.icheb ≤ n →
      n + calls.length + 1 < UINT_RANGE →
      ∀ (j : Nat) (cp : Chebyshev_Parameters), (chebyshevCalls B P calls c0)[j]? = some cp →
        (cp.lgac = 0 ∨ cp.lgac = 1) ∧ (cp.lgac = 1 → 1 ≤ cp.icheb) ∧
          cp.icheb ≤ n + j + 1 := by
    intro calls
    induction calls with
    | nil =>
      intro n c0 _ _ _ _ j cp h
      simp [chebyshevCalls] at h
    | cons c rest ih =>
      intro n c0 i1 i2 i3 hlen j cp h
      obtain ⟨iter, s⟩ := c
      simp only [List.length_cons] at hlen
      cases hc : chebyshev B P iter (setCheb c0 s) with
      | error e =>
        simp [chebyshevCalls, hc] at h
      | ok t =>
        rw [chebyshevCalls_cons B P iter s t rest c0 hc] at h
        have hstep := chebyshev_step B P iter (setCheb c0 s) t hc
        have hinv : (t.chebyshev_parameters.lgac = 0 ∨ t.chebyshev_parameters.lgac = 1) ∧
            (t.chebyshev_parameters.lgac = 1 → 1 ≤ t.chebyshev_parameters.icheb) ∧
            t.chebyshev_parameters.icheb ≤ n + 1 := by
          rcases i1 with hl | hl
          · obtain ⟨_, harm, hstay⟩ := hstep.1 hl
            by_cases ha : arms iter (setCheb c0 s)
            · obtain ⟨a1, a2⟩ := harm ha
              exact ⟨Or.inr a1, fun _ => by omega, by omega⟩
            · obtain ⟨a1, a2⟩ := hstay ha
              have a3 : t.chebyshev_parameters.icheb = c0.icheb := a2
              refine ⟨Or.inl a1, fun h1 => ?_, by omega⟩
              rw [a1] at h1
              cases h1
          · have hne : (setCheb c0 s).chebyshev_parameters.lgac ≠ 0 := by
              show c0.lgac ≠ 0
              rw [hl]
              decide
            obtain ⟨b1, b2, _⟩ := hstep.2 hne
            have b3 : t.chebyshev_parameters.icheb = c0.icheb + 1 := by
              rw [b1]
              show uinc c0.icheb = c0.icheb + 1
              exact Nat.mod_eq_of_lt (by omega)
            refine ⟨?_, fun _ => by omega, by omega⟩
            rcases b2 with b2 | b2
            · exact Or.inl b2
            · right
              rw [b2]
              exact hl
        cases j with
        | zero =>
          simp only [List.getElem?_cons_zero, Option.some.injEq] at h
          rw [← h]
          exact ⟨hinv.1, hinv.2.1, by omega⟩
        | succ j =>
          simp only [List.getElem?_cons_succ] at h
          have := ih (n + 1) t.chebyshev_parameters hinv.1 hinv.2.1 hinv.2.2 (by omega) j cp h
          refine ⟨this.1, this.2.1, ?_⟩
          have h3 := this.2.2
          omega
  intro j cp h
  have hstart : (cp0.lgac = 0 ∨ cp0.lgac = 1) ∧ (cp0.lgac = 1 → 1 ≤ cp0.icheb) ∧
      cp0.icheb ≤ 0 := by
    rcases h0 with h0 | h0
    · rw [h0]
      exact ⟨Or.inl rfl, fun h1 => (by cases h1), le_refl _⟩
    · rw [h0]
      exact ⟨Or.inl rfl, fun h1 => (by cases h1), le_refl _⟩
  have hk := key calls 0 cp0 hstart.1 hstart.2.1 hstart.2.2 (by omega) j cp h
  have hj : j < calls.length := by
    have h1 : j < (chebyshevCalls B P calls cp0).length := by
      by_contra hge
      rw [List.getElem?_eq_none (not_lt.1 hge)] at h
      cases h
    have h2 : (chebyshevCalls B P calls cp0).length ≤ calls.length := by
      clear h h1 hk hstart hn h0
      induction calls generalizing cp0 with
      | nil => simp [chebyshevCalls]
      | cons c rest ih =>
        obtain ⟨iter, s⟩ := c
        cases hc : chebyshev B P iter (setCheb cp0 s) with
        | error e => simp [chebyshevCalls, hc]
        | ok t =>
          rw [chebyshevCalls_cons B P iter s t rest cp0 hc]
          simp only [List.length_cons]
          have := ih t.chebyshev_parameters
          omega
    omega
  refine ⟨hk.1, hk.2.1, by omega, fun hl => ?_⟩
  have hi1 := hk.2.1 hl
  have hi2 := hk.2.2
  have hu : uinc cp.icheb = cp.icheb + 1 := Nat.mod_eq_of_lt (by omega)
  have hd : udec (uinc cp.icheb) = cp.icheb := by
    rw [hu]
    unfold udec
    have : cp.icheb + 1 + UINT_RANGE - 1 = cp.icheb + UINT_RANGE := by omega
    rw [this, Nat.add_mod_right]
    exact Nat.mod_eq_of_lt (by omega)
  refine ⟨by omega, ?_, by omega, ?_⟩
  · rw [hd]
    exact_mod_cast (by omega : cp.icheb ≠ 0)
  · intro iter s t ht
    have hne : (setCheb cp s).chebyshev_parameters.lgac ≠ 0 := by
      show cp.lgac ≠ 0
      rw [hl]
      decide
    obtain ⟨b1, _, b3⟩ := (chebyshev_step B P iter (setCheb cp s) t ht).2 hne
    refine ⟨by rw [b1]; exact hu, fun h0 => b3 h0 ?_⟩
    show uinc cp.icheb > 0
    omega

/-- Witness of C27: after the calls at `iter = 6, 7, 8` of the scenario, started from the state
of the constructor, the accelerator is active with `icheb = 2`. -/
theorem C27_active_implies_icheb_witness :
    ∃ cp, (chebyshevCalls (Scenario.backend id)
        { Scenario.params false none with xdiff := true }
        [(6, Scenario.inactive), (7, Scenario.inactive), (8, Scenario.inactive)]
        (Chebyshev_Parameters.ctor ⟨0, 0, 0, 0, 0, 0, 0, 0, 0, 1, 0⟩))[2]? = some cp ∧
      cp.lgac = 1 ∧ 1 ≤ cp.icheb := by
  have hd : ((chebyshevCalls (Scenario.backend id)
      { Scenario.params false none with xdiff := true }
      [(6, Scenario.inactive), (7, Scenario.inactive), (8, Scenario.inactive)]
      (Chebyshev_Parameters.ctor ⟨0, 0, 0, 0, 0, 0, 0, 0, 0, 1, 0⟩))[2]?).map
      (fun c => c.lgac) = some 1 := by decide!
  cases h : (chebyshevCalls (Scenario.backend id)
      { Scenario.params false none with xdiff := true }
      [(6, Scenario.inactive), (7, Scenario.inactive), (8, Scenario.inactive)]
      (Chebyshev_Parameters.ctor ⟨0, 0, 0, 0, 0, 0, 0, 0, 0, 1, 0⟩))[2]? with
  | none =>
    rw [h] at hd
    cases hd
  | some cp =>
    rw [h] at hd
    have hl : cp.lgac = 1 := by simpa using hd
    exact ⟨cp, rfl, hl,
      (C27_active_implies_icheb (Scenario.backend id)
        { Scenario.params false none with xdiff := true }
        [(6, Scenario.inactive), (7, Scenario.inactive), (8, Scenario.inactive)]
        (Chebyshev_Parameters.ctor ⟨0, 0, 0, 0, 0, 0, 0, 0, 0, 1, 0⟩)
        ⟨0, 0, 0, 0, 0, 0, 0, 0, 0, 1, 0⟩ (Or.inl rfl) (by decide) 2 cp h).2.1 hl⟩

/-! ## Lemmas on the source integral along the power iteration -/

theorem powerStep_source_integral_old (B : Backend) (hk : keepsSourceIntegral B)
    (s : EigenExecutionerBase) :
    source_integral_old (powerStep B (updateMaterials B (copyOldSolutions s))) =
      source_integral s := by
  obtain ⟨h1, h2, h3, h4⟩ := hk
  simp [source_integral_old, source_integral, powerStep, onTimestepEnd, computeUserObjects,
    computeAuxiliaryKernels, solve, timestepSetup, onTimestepBegin, updateMaterials,
    copyOldSolutions, FEProblem.computeUserObjects, FEProblem.onTimestepBegin,
    FEProblem.copyOldSolutions, h1, h2, h3, h4]

theorem updateEigenvalue_read (k : KRef) (iter : Nat) (k_old : ℚ) (s : EigenExecutionerBase) :
    read_k k (updateEigenvalue k iter k_old s) =
        k_old * source_integral s / source_integral_old s ∧
      (updateEigenvalue k iter k_old s).eigenvalue =
        k_old * source_integral s / source_integral_old s ∧
      (updateEigenvalue k iter k_old s).problem = s.problem := by
  unfold updateEigenvalue
  cases k <;> split <;> simp [read_k, write_k, source_integral, source_integral_old]

theorem iteration_free (B : Backend) (P : InputParameters) (min_iter max_iter : Nat)
    (tol_eig tol_x : ℚ) (output_convergence : Bool) (time_base : ℚ) (k : KRef) (iter : Nat)
    (s t : EigenExecutionerBase) (b : Bool) (hk : keepsSourceIntegral B)
    (h : iteration B P min_iter max_iter false tol_eig tol_x output_convergence time_base k
      iter s = Except.ok (t, b)) :
    read_k k t = read_k k s * source_integral t / source_integral s ∧
      t.eigenvalue = read_k k t ∧
      source_integral t =
        source_integral (powerStep B (updateMaterials B (copyOldSolutions s))) := by
  rw [iteration_eq, bind_eq_ok] at h
  obtain ⟨u, hu, h⟩ := h
  have hu' : u = updateEigenvalue k iter (read_k k s)
      (powerStep B (updateMaterials B (copyOldSolutions s))) := by
    simp only [accelerate, Bool.false_eq_true, if_false, pure, Except.pure] at hu
    cases hu
    rfl
  obtain ⟨r1, r2, r3⟩ := updateEigenvalue_read k iter (read_k k s)
    (powerStep B (updateMaterials B (copyOldSolutions s)))
  rw [powerStep_source_integral_old B hk s] at r1 r2
  have hS : source_integral u =
      source_integral (powerStep B (updateMaterials B (copyOldSolutions s))) := by
    rw [hu']
    unfold source_integral
    rw [r3]
  have h := Except.ok.inj h
  split at h
  · rw [Prod.mk.injEq] at h
    rw [← h.1, hS, hu']
    exact ⟨r1, by rw [r2, r1], rfl⟩
  · rw [Prod.mk.injEq] at h
    obtain ⟨d1, d2⟩ := dumpHistory_read output_convergence time_base max_iter (uinc iter) k u
    have d3 : (dumpHistory output_convergence time_base max_iter (uinc iter) u).eigenvalue =
        u.eigenvalue := by
      unfold dumpHistory
      split <;> rfl
    rw [← h.1]
    unfold source_integral
    rw [d1, d2, d3]
    have hS' : u.problem.bx_norm =
        (powerStep B (updateMaterials B (copyOldSolutions s))).problem.bx_norm := hS
    rw [hS', hu']
    exact ⟨r1, by rw [r2, r1], rfl⟩

/-! ## The claims on the source integral -/

/-- Claim C23: when the collaborators leave the stored values of `bx_norm` alone, the
`source_integral_old` that the eigenvalue update of a pass reads is the `source_integral` of the
state in which the pass was entered; for a pass after the first that state is the one at the end
of the pass before, whose source integral is the one the accelerator left.  And after every
call of `chebyshev` that returns, `flux_error_norm_old` is the value of the solution difference
at the return of the call, which that call read last. -/
theorem C23_source_integral_old (B : Backend) (P : InputParameters)
    (hk : keepsSourceIntegral B) :
    (∀ s : EigenExecutionerBase,
      source_integral_old (powerStep B (updateMaterials B (copyOldSolutions s))) =
        source_integral s) ∧
    (∀ (min_iter max_iter : Nat) (cheb_on : Bool) (tol_eig tol_x : ℚ)
      (output_convergence : Bool) (time_base : ℚ) (k : KRef) (iter fuel : Nat)
      (s t : EigenExecutionerBase),
      iteration B P min_iter max_iter cheb_on tol_eig tol_x output_convergence time_base k
          iter s = Except.ok (t, false) →
        (∃ u, accelerate B P cheb_on iter (updateEigenvalue k iter (read_k k s)
            (powerStep B (updateMaterials B (copyOldSolutions s)))) = Except.ok u ∧
          source_integral t = source_integral u ∧ read_k k t = read_k k u) ∧
        powerLoop B P min_iter max_iter cheb_on tol_eig tol_x output_convergence time_base k
            (fuel + 1) iter s =
          powerLoop B P min_iter max_iter cheb_on tol_eig tol_x output_convergence time_base k
            fuel (uinc iter) t ∧
        source_integral_old (powerStep B (updateMaterials B (copyOldSolutions t))) =
          source_integral t ∧
        read_k k (updateEigenvalue k (uinc iter) (read_k k t)
            (powerStep B (updateMaterials B (copyOldSolutions t)))) =
          read_k k t * source_integral (powerStep B (updateMaterials B (copyOldSolutions t)))
            / source_integral t) ∧
    (∀ (iter : Nat) (s t : EigenExecutionerBase), chebyshev B P iter s = Except.ok t →
      solution_diff P t = some t.chebyshev_parameters.flux_error_norm_old ∧
      t.chebyshev_parameters.flux_error_norm_old = t.problem.xdiff) := by
  refine ⟨powerStep_source_integral_old B hk, ?_, ?_⟩
  · intro min_iter max_iter cheb_on tol_eig tol_x output_convergence time_base k iter fuel s t h
    refine ⟨?_, ?_, powerStep_source_integral_old B hk t, ?_⟩
    · have h2 := h
      rw [iteration_eq, bind_eq_ok] at h2
      obtain ⟨u, hu, h2⟩ := h2
      refine ⟨u, hu, ?_⟩
      have h2 := Except.ok.inj h2
      split at h2
      · rw [Prod.mk.injEq] at h2
        cases h2.2
      · rw [Prod.mk.injEq] at h2
        obtain ⟨d1, d2⟩ := dumpHistory_read output_convergence time_base max_iter (uinc iter)
          k u
        rw [← h2.1]
        unfold source_integral
        rw [d1, d2]
        exact ⟨rfl, rfl⟩
    · conv_lhs => unfold powerLoop
      rw [h]
    · rw [(updateEigenvalue_read k (uinc iter) (read_k k t) _).1,
        powerStep_source_integral_old B hk t]
  · intro iter s t h
    rw [chebyshev_eq, bind_eq_ok] at h
    obtain ⟨u, _, h⟩ := h
    rw [bind_eq_ok] at h
    obtain ⟨d, hd, h⟩ := h
    have h := Except.ok.inj h
    subst h
    unfold deref_solution_diff at hd
    unfold solution_diff at hd ⊢
    cases hx : P.xdiff
    · simp [hx] at hd
    · simp only [hx, if_true] at hd
      cases hd
      simp [setCheb]

theorem keepsSourceIntegral_backend (next : NumericVector → NumericVector) :
    keepsSourceIntegral (Scenario.backend next) :=
  ⟨fun _ => rfl, fun _ => rfl, fun _ _ => rfl, fun _ => rfl⟩

/-- Witness of C23: the first pass of the scenario with source integrals 2.0, 2.2, 2.31, 2.31
reads `source_integral_old = 2`, the source integral at the entry of the loop. -/
theorem C23_source_integral_old_witness :
    keepsSourceIntegral (Scenario.backend Scenario.nextB) ∧
    source_integral_old (powerStep (Scenario.backend Scenario.nextB)
        (updateMaterials (Scenario.backend Scenario.nextB)
          (copyOldSolutions (Scenario.executioner (Scenario.problem [2] 2 2) 1)))) =
      source_integral (Scenario.executioner (Scenario.problem [2] 2 2) 1) ∧
    source_integral (Scenario.executioner (Scenario.problem [2] 2 2) 1) = 2 :=
  ⟨keepsSourceIntegral_backend Scenario.nextB,
    (C23_source_integral_old (Scenario.backend Scenario.nextB) (Scenario.params false none)
      (keepsSourceIntegral_backend Scenario.nextB)).1
      (Scenario.executioner (Scenario.problem [2] 2 2) 1),
    by decide!⟩

theorem powerLoop_last (B : Backend) (P : InputParameters) (min_iter max_iter : Nat)
    (cheb_on : Bool) (tol_eig tol_x : ℚ) (output_convergence : Bool) (time_base : ℚ)
    (k : KRef) :
    ∀ (fuel iter : Nat) (s t : EigenExecutionerBase),
      powerLoop B P min_iter max_iter cheb_on tol_eig tol_x output_convergence time_base k
        fuel iter s = Except.ok t →
      (passStates B P min_iter max_iter cheb_on tol_eig tol_x output_convergence time_base k
        fuel iter s).getLast? = some t := by
  intro fuel
  induction fuel with
  | zero =>
    intro iter s t h
    simp [powerLoop] at h
  | succ fuel ih =>
    intro iter s t h
    unfold powerLoop at h
    cases hit : iteration B P min_iter max_iter cheb_on tol_eig tol_x output_convergence
        time_base k iter s with
    | error e =>
      rw [hit] at h
      cases h
    | ok r =>
      obtain ⟨t1, b⟩ := r
      rw [hit] at h
      cases b with
      | true =>
        cases h
        simp only [passStates, hit]
        rfl
      | false =>
        simp only [] at h
        have h2 := ih (uinc iter) t1 t h
        simp only [passStates, hit]
        cases hL : passStates B P min_iter max_iter cheb_on tol_eig tol_x output_convergence
            time_base k fuel (uinc iter) t1 with
        | nil =>
          rw [hL] at h2
          cases h2
        | cons x xs =>
          rw [hL] at h2
          rw [List.getLast?_cons_cons]
          exact h2

/-- Claim C24: without the acceleration, when the collaborators leave the stored values of
`bx_norm` alone and the source integrals are not zero, the eigenvalue at the end of every pass
of the power iteration is `k0 * S_n / S_0`, with `k0` the eigenvalue and `S_0` the source
integral at the entry of the loop and `S_n` the source integral at the end of that pass; so when
`S_0 = k0` the eigenvalue equals the source integral at the end of every pass.  The state that
the loop returns is the one at the end of its last pass. -/
theorem C24_ratio_is_constant (B : Backend) (P : InputParameters) (min_iter max_iter : Nat)
    (tol_eig tol_x : ℚ) (output_convergence : Bool) (time_base : ℚ) (k : KRef)
    (hk : keepsSourceIntegral B) :
    ∀ (fuel iter : Nat) (s : EigenExecutionerBase), source_integral s ≠ 0 →
      (∀ (n : Nat) (t : EigenExecutionerBase),
        (passStates B P min_iter max_iter false tol_eig tol_x output_convergence time_base k
          fuel iter s)[n]? = some t →
        (∀ j < n, ∀ u,
          (passStates B P min_iter max_iter false tol_eig tol_x output_convergence time_base k
            fuel iter s)[j]? = some u → source_integral u ≠ 0) →
        read_k k t = read_k k s * source_integral t / source_integral s ∧
        t.eigenvalue = read_k k t ∧
        (source_integral s = read_k k s → read_k k t = source_integral t)) ∧
      (∀ t : EigenExecutionerBase,
        powerLoop B P min_iter max_iter false tol_eig tol_x output_convergence time_base k
          fuel iter s = Except.ok t →
        (passStates B P min_iter max_iter false tol_eig tol_x output_convergence time_base k
          fuel iter s).getLast? = some t) := by
  intro fuel iter s hs
  refine ⟨?_, powerLoop_last B P min_iter max_iter false tol_eig tol_x output_convergence
    time_base k fuel iter s⟩
  induction fuel generalizing iter s with
  | zero =>
    intro n t h
    simp [passStates] at h
  | succ fuel ih =>
    have hfix : ∀ t : EigenExecutionerBase,
        read_k k t = read_k k s * source_integral t / source_integral s →
        source_integral s = read_k k s → read_k k t = source_integral t := by
      intro t h1 h2
      rw [h1, ← h2]
      field_simp
    cases hit : iteration B P min_iter max_iter false tol_eig tol_x output_convergence
        time_base k iter s with
    | error e =>
      intro n t h
      simp [passStates, hit] at h
    | ok r =>
      obtain ⟨t1, b⟩ := r
      obtain ⟨f1, f2, _⟩ := iteration_free B P min_iter max_iter tol_eig tol_x
        output_convergence time_base k iter s t1 b hk hit
      cases b with
      | true =>
        have hp : passStates B P min_iter max_iter false tol_eig tol_x output_convergence
            time_base k (fuel + 1) iter s = [t1] := by
          simp only [passStates, hit]
        rw [hp]
        intro n t h _
        cases n with
        | zero =>
          simp only [List.getElem?_cons_zero, Option.some.injEq] at h
          rw [← h]
          exact ⟨f1, f2, hfix t1 f1⟩
        | succ n => simp at h
      | false =>
        have hp : passStates B P min_iter max_iter false tol_eig tol_x output_convergence
            time_base k (fuel + 1) iter s =
            t1 :: passStates B P min_iter max_iter false tol_eig tol_x output_convergence
              time_base k fuel (uinc iter) t1 := by
          simp only [passStates, hit]
        rw [hp]
        intro n t h hnz
        cases n with
        | zero =>
          simp only [List.getElem?_cons_zero, Option.some.injEq] at h
          rw [← h]
          exact ⟨f1, f2, hfix t1 f1⟩
        | succ n =>
          simp only [List.getElem?_cons_succ] at h
          have h1 : source_integral t1 ≠ 0 := hnz 0 (Nat.succ_pos _) t1 (by simp)
          obtain ⟨g1, g2, _⟩ := ih (uinc iter) t1 h1 n t h (fun j hj u hu =>
            hnz (j + 1) (Nat.succ_lt_succ hj) u (by
              simp only [List.getElem?_cons_succ]
              exact hu))
          have g3 : read_k k t = read_k k s * source_integral t / source_integral s := by
            rw [g1, f1]
            field_simp
            ring
          exact ⟨g3, g2, hfix t g3⟩

/-- Witness of C24, Scenario B: source integrals 2.0, 2.2, 2.31, 2.31 and `k0 = 1` give the
eigenvalues 1.1, 1.155, 1.155, each `k0 * S_n / S_0`. -/
theorem C24_ratio_is_constant_witness :
    (passStates (Scenario.backend Scenario.nextB) (Scenario.params false none) 1 300 false
        (1 / 100) 1 false 0 KRef.eigenvalue 300 0
        (Scenario.executioner (Scenario.problem [2] 2 2) 1)).map
      (fun t => (read_k KRef.eigenvalue t, source_integral t)) =
      [(11 / 10, 22 / 10), (231 / 200, 231 / 100), (231 / 200, 231 / 100)] ∧
    ∃ t, (passStates (Scenario.backend Scenario.nextB) (Scenario.params false none) 1 300 false
        (1 / 100) 1 false 0 KRef.eigenvalue 300 0
        (Scenario.executioner (Scenario.problem [2] 2 2) 1))[1]? = some t ∧
      read_k KRef.eigenvalue t =
        read_k KRef.eigenvalue (Scenario.executioner (Scenario.problem [2] 2 2) 1)
          * source_integral t
          / source_integral (Scenario.executioner (Scenario.problem [2] 2 2) 1) := by
  have hd : (passStates (Scenario.backend Scenario.nextB) (Scenario.params false none) 1 300
      false (1 / 100) 1 false 0 KRef.eigenvalue 300 0
      (Scenario.executioner (Scenario.problem [2] 2 2) 1)).map
      (fun t => (read_k KRef.eigenvalue t, source_integral t)) =
      [(11 / 10, 22 / 10), (231 / 200, 231 / 100), (231 / 200, 231 / 100)] := by decide!
  refine ⟨hd, ?_⟩
  cases h : (passStates (Scenario.backend Scenario.nextB) (Scenario.params false none) 1 300
      false (1 / 100) 1 false 0 KRef.eigenvalue 300 0
      (Scenario.executioner (Scenario.problem [2] 2 2) 1))[1]? with
  | none =>
    have hl := congrArg List.length hd
    rw [List.length_map] at hl
    rw [List.getElem?_eq_none_iff] at h
    simp only [List.length_cons, List.length_nil] at hl
    omega
  | some t =>
    refine ⟨t, rfl, ((C24_ratio_is_constant (Scenario.backend Scenario.nextB)
      (Scenario.params false none) 1 300 (1 / 100) 1 false 0 KRef.eigenvalue
      (keepsSourceIntegral_backend Scenario.nextB) 300 0
      (Scenario.executioner (Scenario.problem [2] 2 2) 1) (by decide!)).1 1 t h ?_).1⟩
    intro j hj u hu
    have hj0 : j = 0 := by omega
    subst hj0
    have h0 : ((passStates (Scenario.backend Scenario.nextB) (Scenario.params false none) 1
        300 false (1 / 100) 1 false 0 KRef.eigenvalue 300 0
        (Scenario.executioner (Scenario.problem [2] 2 2) 1))[0]?).map
        (fun t => source_integral t) = some (22 / 10) := by decide!
    rw [hu] at h0
    simp only [Option.map_some', Option.some.injEq] at h0
    rw [h0]
    norm_num

/-! ## The claims on the missing observer and on `combinedSolve` -/

theorem chebyshev_null_state (B : Backend) (P : InputParameters) (iter : Nat)
    (s : EigenExecutionerBase) (hx : P.xdiff = false) :
    ∃ cp, chebyshev B P iter s = Except.error (Abort.nullPointer (setCheb cp s)) := by
  rw [chebyshev_eq]
  by_cases hl : s.chebyshev_parameters.lgac = 0
  · rw [if_pos hl]
    unfold chebyshevInactive
    by_cases h0 : s.chebyshev_parameters.icho = 0
    · refine ⟨s.chebyshev_parameters, ?_⟩
      simp [h0, deref_error P hx, bind, Except.bind, setCheb]
    · by_cases ha : iter > s.chebyshev_parameters.finit ∧
          s.chebyshev_parameters.ratio_new ≥ 0.4 ∧ s.chebyshev_parameters.ratio_new ≤ 1
      · refine ⟨{ s.chebyshev_parameters with
          ratio := s.chebyshev_parameters.ratio_new, icho := 0, lgac := 1, icheb := 1 }, ?_⟩
        simp [h0, ha, deref_error P hx, bind, Except.bind, setCheb, pure, Except.pure]
      · refine ⟨{ s.chebyshev_parameters with
          ratio := s.chebyshev_parameters.ratio_new, icho := 0 }, ?_⟩
        simp [h0, ha, deref_error P hx, bind, Except.bind, setCheb, pure, Except.pure]
  · rw [if_neg hl]
    unfold chebyshevActive
    refine ⟨{ s.chebyshev_parameters with icheb := uinc s.chebyshev_parameters.icheb }, ?_⟩
    simp [deref_error P hx, bind, Except.bind, setCheb]

/-- Claim C28: `chebyshev` reads the solution difference on every call: without an `xdiff`
observer every call ends in the read through the null pointer, whatever the state of the
accelerator, with an observer every call returns, and a call fails for no other reason.  So
`InversePowerMethod::execute` with the acceleration on and no `xdiff`, when it enters the loop
(`max_power_iterations` not 0, execution flags that pass the two checks), fails in its first
power iteration, after one solve. -/
theorem C28_missing_observer (B : Backend) (P : InputParameters) :
    (P.xdiff = false → ∀ (iter : Nat) (s : EigenExecutionerBase),
      ∃ u, chebyshev B P iter s = Except.error (Abort.nullPointer u)) ∧
    (P.xdiff = true → ∀ (iter : Nat) (s : EigenExecutionerBase),
      ∃ t, chebyshev B P iter s = Except.ok t) ∧
    (∀ (iter : Nat) (s : EigenExecutionerBase) (e : Abort),
      chebyshev B P iter s = Except.error e →
        P.xdiff = false ∧ ∃ u, e = Abort.nullPointer u) ∧
    (∀ (I : InversePowerMethod) (fuel : Nat) (s : EigenExecutionerBase),
      P.xdiff = false → I.cheb_on = true → I.max_iter ≠ 0 → fuel ≠ 0 →
      (s.bx_execflag = EXEC_TIMESTEP ∨ s.bx_execflag = EXEC_RESIDUAL) →
      (s.xdiff_execflag = EXEC_TIMESTEP ∨ s.xdiff_execflag = EXEC_RESIDUAL) →
      ∃ u, InversePowerMethod.execute B P I fuel s = Except.error (Abort.nullPointer u) ∧
        solves u = solves s + 1) := by
  refine ⟨fun hx iter s => chebyshev_null B P iter s hx,
    fun hx iter s => chebyshev_ok B P iter s hx,
    fun iter s e h => chebyshev_abort B P iter s e h, ?_⟩
  intro I fuel s hx hc hmax hfuel hbx hxd
  obtain ⟨fuel, rfl⟩ := Nat.exists_eq_succ_of_ne_zero hfuel
  generalize hst : updateEigenvalue KRef.eigenvalue 0
      (read_k KRef.eigenvalue (loopEntry I.pfactor (copyOldSolutions s)))
      (powerStep B (updateMaterials B
        (copyOldSolutions (loopEntry I.pfactor (copyOldSolutions s))))) = st
  obtain ⟨cp, hcp⟩ := chebyshev_null_state B P (uinc 0) st hx
  have hsolves : solves st = solves s + 1 := by
    rw [← hst, updateEigenvalue_solves, powerStep_solves]
    simp [solves, updateMaterials, copyOldSolutions, loopEntry, saveOldSolutions,
      eigenKernelOnOld]
  have hit : iteration B P I.min_iter I.max_iter I.cheb_on I.eig_check_tol REAL_MAX
      I.output_pi (I.INIT_END : ℚ) KRef.eigenvalue 0
      (loopEntry I.pfactor (copyOldSolutions s)) =
      Except.error (Abort.nullPointer (setCheb cp st)) := by
    rw [iteration_eq, hc, hst]
    simp only [accelerate, if_true]
    rw [hcp]
    rfl
  have hpl : powerLoop B P I.min_iter I.max_iter I.cheb_on I.eig_check_tol REAL_MAX
      I.output_pi (I.INIT_END : ℚ) KRef.eigenvalue (fuel + 1) 0
      (loopEntry I.pfactor (copyOldSolutions s)) =
      Except.error (Abort.nullPointer (setCheb cp st)) := by
    conv_lhs => unfold powerLoop
    rw [hit]
  have hipi := inversePowerIteration_error B P (fuel + 1) I.min_iter I.max_iter I.pfactor
    I.cheb_on I.eig_check_tol REAL_MAX I.output_pi (I.INIT_END : ℚ) KRef.eigenvalue
    (copyOldSolutions s) _ hbx hxd hmax hpl
  refine ⟨setCheb cp st, ?_, hsolves⟩
  unfold InversePowerMethod.execute InversePowerMethod.executeSolve
  simp only [hipi]

/-- Witness of C28: `execute` with the acceleration on, no `xdiff` and one sufficient pass of
budget ends in the read through the null pointer after its first solve. -/
theorem C28_missing_observer_witness :
    (Scenario.params false none).xdiff = false ∧
    ∃ u, InversePowerMethod.execute (Scenario.backend id) (Scenario.params false none)
        { Scenario.method 300 false with cheb_on := true } 1
        (Scenario.executioner (Scenario.problem [2] 2 2) 1) =
        Except.error (Abort.nullPointer u) ∧
      solves u = solves (Scenario.executioner (Scenario.problem [2] 2 2) 1) + 1 :=
  ⟨rfl, (C28_missing_observer (Scenario.backend id) (Scenario.params false none)).2.2.2
    { Scenario.method 300 false with cheb_on := true } 1
    (Scenario.executioner (Scenario.problem [2] 2 2) 1) rfl rfl (by decide) (by decide)
    (Or.inl rfl) (Or.inl rfl)⟩

theorem combinedSolve_eq (B : Backend) (P : InputParameters) (fuel : Nat)
    (rel_tol abs_tol pfactor : ℚ) (fpi : Nat) (k : KRef) (s : EigenExecutionerBase) :
    combinedSolve B P fuel rel_tol abs_tol pfactor fpi k s =
      if fpi > 0 then
        inversePowerIteration B P fuel fpi fpi pfactor false 0 REAL_MAX false 0 k
            { s with initial_res := 0 } >>= fun u =>
          nonlinearSolve B 1e-50 abs_tol pfactor k (timestepSetup B u)
      else nonlinearSolve B rel_tol abs_tol pfactor k (timestepSetup B s) := by
  unfold combinedSolve
  split
  · simp only []
    cases inversePowerIteration B P fuel fpi fpi pfactor false 0 REAL_MAX false 0 k
      { s with initial_res := 0 } <;> rfl
  · rfl

/-- Claim C29, evaluated on the code.  `combinedSolve` with `fpi = 1`, `rel_tol = 1/10` and
`abs_tol = 1/100` on a problem whose free power iteration records the initial residual 1 makes
one free power iteration and then the nonlinear solve (two solves), and that solve runs with
the relative tolerance `1e-50` and the absolute tolerance `1/100`, the caller's `abs_tol`: not
with `max(abs_tol, rel_tol * initial_res) = 1/10`, which is what the variable `a_tol` of the
block holds.  With `fpi = 0` the one solve runs with the caller's two tolerances. -/
theorem C29_absolute_tolerance_of_caller :
    (combinedSolve Scenario.recorder (Scenario.params false none) 5 (1 / 10) (1 / 100)
        (1 / 100) 1 KRef.caller Scenario.residual).toOption.map
      (fun t => (t.problem.solution, t.initial_res, solves t)) =
      some ([1 / 100, 1e-50], 1, 2) ∧
    blockTolerance (1 / 10) (1 / 100) 1 = 1 / 10 ∧
    max (1 / 100 : ℚ) (1 / 10 * 1) = 1 / 10 ∧
    (1 / 10 : ℚ) ≠ 1 / 100 ∧
    (combinedSolve Scenario.recorder (Scenario.params false none) 5 (1 / 10) (1 / 100)
        (1 / 100) 0 KRef.caller Scenario.residual).toOption.map
      (fun t => (t.problem.solution, solves t)) = some ([1 / 100, 1 / 10], 1) := by
  refine ⟨by decide!, by decide!, by decide!, by decide!, by decide!⟩

end EigenExecutionerBase

namespace TransientMultiApp

/-! ## The claims on the step of the catch-up attempts and on the interpolation -/

theorem catchUpPass_dt (B : TransientBackend) (i : Nat) (app_time_offset target_time : ℚ)
    (c : CatchUp) :
    (catchUpPass B i app_time_offset target_time c).catch_up_dt =
      if (catchUpSolve B c).last_solve_converged = true then c.catch_up_dt
      else c.catch_up_dt / 2 := by
  rw [catchUpPass_eq]

theorem catchUpPass_log (B : TransientBackend) (i : Nat) (app_time_offset target_time : ℚ)
    (c : CatchUp) :
    MultiCall.takeStep i (some c.catch_up_dt) ∈
      (catchUpPass B i app_time_offset target_time c).m.log := by
  rw [catchUpPass_eq]
  cases catchesUp B app_time_offset target_time c <;> simp [note]

/-- Claim C25: in the catch-up loop entered for the step `dt`, the step that the attempt after
`n` attempts gives to `takeStep` is `dt / 2^(j+1)`, with `j` the number of those `n` attempts
whose solve did not converge: `dt / 2` for the first attempt, half the size after an attempt
that did not converge, the same size after one that converged. -/
theorem C25_catch_up_step_size (B : TransientBackend) (i : Nat)
    (dt app_time_offset target_time : ℚ) (ex : Transient) (m : TransientMultiApp) :
    ∀ n : Nat,
      ((catchUpPass B i app_time_offset target_time)^[n]
          (catchUpEntry i dt ex m)).catch_up_dt =
        dt / 2 ^ (failedAttempts B i app_time_offset target_time
          (catchUpEntry i dt ex m) n + 1) ∧
      catchUpSolve B ((catchUpPass B i app_time_offset target_time)^[n]
          (catchUpEntry i dt ex m)) =
        B.takeStep
          (some (dt / 2 ^ (failedAttempts B i app_time_offset target_time
            (catchUpEntry i dt ex m) n + 1)))
          (B.computeDT (B.incrementStepOrReject
            ((catchUpPass B i app_time_offset target_time)^[n]
              (catchUpEntry i dt ex m)).ex)) ∧
      MultiCall.takeStep i
          (some (dt / 2 ^ (failedAttempts B i app_time_offset target_time
            (catchUpEntry i dt ex m) n + 1))) ∈
        ((catchUpPass B i app_time_offset target_time)^[n + 1]
          (catchUpEntry i dt ex m)).m.log ∧
      failedAttempts B i app_time_offset target_time (catchUpEntry i dt ex m) (n + 1) =
        failedAttempts B i app_time_offset target_time (catchUpEntry i dt ex m) n +
          (if (catchUpSolve B ((catchUpPass B i app_time_offset target_time)^[n]
              (catchUpEntry i dt ex m))).last_solve_converged = true then 0 else 1) := by
  have hdt : ∀ n : Nat,
      ((catchUpPass B i app_time_offset target_time)^[n]
          (catchUpEntry i dt ex m)).catch_up_dt =
        dt / 2 ^ (failedAttempts B i app_time_offset target_time
          (catchUpEntry i dt ex m) n + 1) := by
    intro n
    induction n with
    | zero => simp [failedAttempts, catchUpEntry]
    | succ n ih =>
      rw [Function.iterate_succ_apply', catchUpPass_dt, ih]
      simp only [failedAttempts]
      split
      · simp
      · rw [pow_succ, pow_succ, pow_succ]
        field_simp
  intro n
  refine ⟨hdt n, ?_, ?_, rfl⟩
  · unfold catchUpSolve
    rw [hdt n]
  · rw [Function.iterate_succ_apply', ← hdt n]
    exact catchUpPass_log B i app_time_offset target_time _

/-- Witness of C25: with `dt = 1` and solves that never converge, the third attempt is given
the step `1/8`. -/
theorem C25_catch_up_step_size_witness :
    failedAttempts (Scenario.stepper (-1)) 0 0 1
      (catchUpEntry 0 1 (Scenario.app 1) Scenario.multiapp) 2 = 2 ∧
    ((catchUpPass (Scenario.stepper (-1)) 0 0 1)^[2]
        (catchUpEntry 0 1 (Scenario.app 1) Scenario.multiapp)).catch_up_dt = 1 / 8 := by
  have hf : failedAttempts (Scenario.stepper (-1)) 0 0 1
      (catchUpEntry 0 1 (Scenario.app 1) Scenario.multiapp) 2 = 2 := by decide!
  refine ⟨hf, ?_⟩
  rw [(C25_catch_up_step_size (Scenario.stepper (-1)) 0 1 0 1 (Scenario.app 1)
    Scenario.multiapp 2).1, hf]
  norm_num

/-- Claim C30: in `solveStep` a sub-application whose time plus offset plus `2e-14` has
reached `target_time` is skipped; one that has not, in sub-cycling mode, runs the sub-cycling
loop with `time_old` its time plus offset at that moment, so the divisor
`target_time - time_old` of `step_percent` is greater than `2e-14` and not zero in every pass
of the loop. -/
theorem C30_interpolation_divisor (B : TransientBackend) (Q : TransientMultiAppParameters)
    (fuel i : Nat) (dt target_time : ℚ) (auto_advance : Bool) (ex : Transient)
    (m : TransientMultiApp) :
    ((ex.time + ex.global_time_offset) + 2e-14 ≥ target_time →
      solveApp B Q fuel i dt target_time auto_advance ex m =
        Except.ok (ex, note (MultiCall.ow_timestepSetup i) m)) ∧
    (¬((ex.time + ex.global_time_offset) + 2e-14 ≥ target_time) → Q.sub_cycling = true →
      solveApp B Q fuel i dt target_time auto_advance ex m =
        subCycle B Q fuel i ex.global_time_offset target_time ex
          (note (MultiCall.ow_timestepSetup i) m) ∧
      target_time - (ex.time + ex.global_time_offset) > 2e-14 ∧
      target_time - (ex.time + ex.global_time_offset) ≠ 0 ∧
      (∀ e, subCycleLoop B Q i ex.global_time_offset (ex.time + ex.global_time_offset)
          target_time fuel false
          (subCycleEntry B Q i ex.global_time_offset target_time ex
            (note (MultiCall.ow_timestepSetup i) m)).1
          (subCycleEntry B Q i ex.global_time_offset target_time ex
            (note (MultiCall.ow_timestepSetup i) m)).2 = Except.error e →
        subCycle B Q fuel i ex.global_time_offset target_time ex
          (note (MultiCall.ow_timestepSetup i) m) = Except.error e) ∧
      (∀ a ex1 m1, subCycleLoop B Q i ex.global_time_offset
          (ex.time + ex.global_time_offset) target_time fuel false
          (subCycleEntry B Q i ex.global_time_offset target_time ex
            (note (MultiCall.ow_timestepSetup i) m)).1
          (subCycleEntry B Q i ex.global_time_offset target_time ex
            (note (MultiCall.ow_timestepSetup i) m)).2 = Except.ok (a, ex1, m1) →
        ∃ m2, subCycle B Q fuel i ex.global_time_offset target_time ex
          (note (MultiCall.ow_timestepSetup i) m) = Except.ok (ex1, m2)) ∧
      (∀ (m1 : TransientMultiApp) (ex1 : Transient), Q.interpolate_transfers = true →
        subCycleSolve B Q ex.global_time_offset (ex.time + ex.global_time_offset) target_time
            m1 ex1 =
          B.takeStep none
            { B.computeDT ex1 with
              solution := interpolateFrom m1.transferred_dofs
                (((B.computeDT ex1).time + ex.global_time_offset + (B.computeDT ex1).dt
                    - (ex.time + ex.global_time_offset))
                  / (target_time - (ex.time + ex.global_time_offset)))
                (B.computeDT ex1).transfer_old (B.computeDT ex1).transfer 0
                (B.computeDT ex1).solution })) := by
  constructor
  · intro h
    unfold solveApp
    simp only [if_pos h]
  · intro h hs
    have hgt : target_time - (ex.time + ex.global_time_offset) > 2e-14 := by
      have := not_le.1 h
      linarith
    refine ⟨?_, hgt, ?_, ?_, ?_, ?_⟩
    · unfold solveApp
      simp only [if_neg h, hs, if_true]
    · have h0 : (0 : ℚ) < 2e-14 := by norm_num
      exact ne_of_gt (lt_trans h0 hgt)
    · intro e he
      unfold subCycleEntry at he
      unfold subCycle
      simp only [] at he ⊢
      rw [he]
    · intro a ex1 m1 he
      unfold subCycleEntry at he
      unfold subCycle
      simp only [] at he ⊢
      rw [he]
      simp only []
      split
      · exact ⟨_, rfl⟩
      · exact ⟨_, rfl⟩
    · intro m1 ex1 hi
      simp only [subCycleSolve, hi, if_true, interpolateTransfers, step_percent]

/-- Witness of C30: a sub-application at time 0 with target time 1 is not skipped, and the
divisor of `step_percent` is 1. -/
theorem C30_interpolation_divisor_witness :
    ¬(((Scenario.app 1).time + (Scenario.app 1).global_time_offset) + 2e-14 ≥ (1 : ℚ)) ∧
    (Scenario.multiParams true false 1 2).sub_cycling = true ∧
    (1 : ℚ) - ((Scenario.app 1).time + (Scenario.app 1).global_time_offset) > 2e-14 :=
  ⟨by decide!, rfl,
    ((C30_interpolation_divisor (Scenario.stepper 1) (Scenario.multiParams true false 1 2) 10
      0 1 1 true (Scenario.app 1) Scenario.multiapp).2 (by decide!) rfl).2.1⟩

end TransientMultiApp

end Moose
